import Mathlib

/-!
# Atmel AT91 AIC / AIC5 interrupt controller driver

A shallow embedding of `drivers/irqchip/irq-atmel-aic.c`.

* 32-bit machine words are natural numbers; `u32` truncates and `not32` is the
  32-bit complement `~x`.
* The controller is a record of registers (`aic_regs`); the two register
  layouts (flat AIC, indirected AIC5) are two decoders of a register write.
* The driver state (`aic_state`) carries the registers, the generic chips of
  the domain (`dgc->gc[i]`), the memory of the other devices that hold the
  disable registers of muxed sources, and the log of every I/O access.
* Locks are not modelled: every operation runs to completion.
-/

namespace AtmelAic

/-! ## Machine words -/

/-- Truncation of a value to an unsigned 32-bit word. -/
def u32 (x : Nat) : Nat := x % 4294967296

/-- The C expression `~x` on an unsigned 32-bit word. -/
def not32 (x : Nat) : Nat := 4294967295 ^^^ u32 x

/-! ## Register map (lines 33-96 of the driver) -/

def NR_AIC_IRQS : Nat := 32
def NR_AIC5_IRQS : Nat := 128

def AT91_AIC5_SSR : Nat := 0x0
def AT91_AIC5_INTSEL_MSK : Nat := 0x7f <<< 0

def AT91_AIC_IRQ_MIN_PRIORITY : Nat := 0
def AT91_AIC_IRQ_MAX_PRIORITY : Nat := 7

def AT91_AIC_SMR (n : Nat) : Nat := n * 4
def AT91_AIC5_SMR : Nat := 0x4
def AT91_AIC_PRIOR : Nat := 7 <<< 0
def AT91_AIC_SRCTYPE : Nat := 3 <<< 5
def AT91_AIC_SRCTYPE_LOW : Nat := 0 <<< 5
def AT91_AIC_SRCTYPE_FALLING : Nat := 1 <<< 5
def AT91_AIC_SRCTYPE_HIGH : Nat := 2 <<< 5
def AT91_AIC_SRCTYPE_RISING : Nat := 3 <<< 5

def AT91_AIC_SVR (n : Nat) : Nat := 0x80 + n * 4
def AT91_AIC5_SVR : Nat := 0x8
def AT91_AIC_IVR : Nat := 0x100
def AT91_AIC5_IVR : Nat := 0x10
def AT91_AIC_ISR : Nat := 0x108
def AT91_AIC5_ISR : Nat := 0x18
def AT91_AIC_IMR : Nat := 0x110
def AT91_AIC5_IMR : Nat := 0x30
def AT91_AIC_IECR : Nat := 0x120
def AT91_AIC5_IECR : Nat := 0x40
def AT91_AIC_IDCR : Nat := 0x124
def AT91_AIC5_IDCR : Nat := 0x44
def AT91_AIC_ICCR : Nat := 0x128
def AT91_AIC5_ICCR : Nat := 0x48
def AT91_AIC_ISCR : Nat := 0x12c
def AT91_AIC5_ISCR : Nat := 0x4c
def AT91_AIC_EOICR : Nat := 0x130
def AT91_AIC5_EOICR : Nat := 0x38
def AT91_AIC_SPU : Nat := 0x134
def AT91_AIC5_SPU : Nat := 0x3c
def AT91_AIC_DCR : Nat := 0x138
def AT91_AIC5_DCR : Nat := 0x6c

/-- Modelled from the spec: the invalid-argument error number of `errno-base.h`
(the header is not part of the sources); functions return `-EINVAL`. -/
def EINVAL : Int := 22

/-- Modelled from the spec: the sense codes of `include/linux/irq.h` (not part
of the sources) that `aic_to_srctype` switches on: edge-rising. -/
def IRQ_TYPE_EDGE_RISING : Nat := 1
/-- Modelled from the spec: sense code edge-falling of `include/linux/irq.h`. -/
def IRQ_TYPE_EDGE_FALLING : Nat := 2
/-- Modelled from the spec: sense code level-high of `include/linux/irq.h`. -/
def IRQ_TYPE_LEVEL_HIGH : Nat := 4
/-- Modelled from the spec: sense code level-low of `include/linux/irq.h`. -/
def IRQ_TYPE_LEVEL_LOW : Nat := 8

/-- Number of lines of one generic chip: the constant 32 that
`aic_common_of_init` passes to `irq_alloc_domain_generic_chips`. -/
def irqs_per_chip : Nat := 32

/-! ## Data model (lines 98-116) -/

inductive aic_mux_irq_type where
  | AIC_MUX_1REG_IRQ
  | AIC_MUX_3REG_IRQ
deriving DecidableEq, Repr

/-- The type `struct aic_mux_irq`: one muxed sub-source. -/
structure aic_mux_irq where
  type : aic_mux_irq_type
  base : Nat
  offset : Nat
  mask : Nat
deriving DecidableEq, Repr

/-- The type `struct aic_chip_data`: the external-IRQ bitmask and the 32 mux
slots of one chip group. -/
structure aic_chip_data where
  ext_irqs : Nat
  mux : Nat → List aic_mux_irq

/-- The fields of `struct irq_chip_generic` that the driver uses; `priv` is
the C field `private`. -/
structure irq_chip_generic where
  irq_base : Nat
  mask_cache : Nat
  wake_active : Nat
  priv : aic_chip_data
  unused : Nat := 0
  wake_enabled : Nat := 0

/-- The fields of `struct irq_data` that the driver uses; `chip_data` is the
index in `dgc->gc` of the chip that `irq_data_get_irq_chip_data(d)` returns. -/
structure irq_data where
  hwirq : Nat
  mask : Nat
  chip_data : Nat
deriving DecidableEq, Repr

/-- Modelled from the spec: the descriptor of physical line `L` (built by the
generic-chip framework, which is not part of the sources): the line handle is
(group `L / 32`, bit `L % 32`) and `d->mask` is the single bit of the line
within its group. -/
def irq_get_irq_data (L : Nat) : irq_data :=
  { hwirq := L, mask := 1 <<< (L % 32), chip_data := L / 32 }

/-- One access to the outside world, in program order. -/
inductive io_event where
  | irq_reg_readl (reg : Nat)
  | irq_reg_writel (val reg : Nat)
  | readl (addr : Nat)
  | writel (val addr : Nat)
  | handle_IRQ (irq : Nat)
deriving DecidableEq, Repr

/-- Modelled from the spec: the registers of the controller. `imr n` tells
whether line `n` is enabled, `ipr n` whether it is pending, `smr n` and
`svr n` are the mode and vector registers of line `n`, `ssr` is the line
selected on the indirected variant, `eoi` counts end-of-interrupt commands. -/
structure aic_regs where
  ssr : Nat
  smr : Nat → Nat
  svr : Nat → Nat
  ivr : Nat
  isr : Nat
  imr : Nat → Bool
  ipr : Nat → Bool
  spu : Nat
  dcr : Nat
  eoi : Nat

/-- The two register layouts. -/
inductive aic_kind where
  | aic
  | aic5
deriving DecidableEq, Repr

/-- The state the driver works on. -/
structure aic_state where
  regs : aic_regs
  gc : Nat → irq_chip_generic
  mem : Nat → Nat
  log : List io_event

/-- Pointwise update of a table. -/
def upd {α : Type} (f : Nat → α) (k : Nat) (v : α) : Nat → α :=
  fun n => if n = k then v else f n

/-! ## Register bank -/

/-- Modelled from the spec: effect of a write on the flat layout. The enable,
disable, set and clear command registers take a 32-bit mask of lines; mode and
vector registers are arrays indexed by the line. -/
def aic_hw_write (val reg : Nat) (r : aic_regs) : aic_regs :=
  if reg = AT91_AIC_IECR then
    { r with imr := fun n => r.imr n || (decide (n < 32) && val.testBit n) }
  else if reg = AT91_AIC_IDCR then
    { r with imr := fun n => r.imr n && !(decide (n < 32) && val.testBit n) }
  else if reg = AT91_AIC_ISCR then
    { r with ipr := fun n => r.ipr n || (decide (n < 32) && val.testBit n) }
  else if reg = AT91_AIC_ICCR then
    { r with ipr := fun n => r.ipr n && !(decide (n < 32) && val.testBit n) }
  else if reg = AT91_AIC_EOICR then { r with eoi := r.eoi + 1 }
  else if reg = AT91_AIC_SPU then { r with spu := val }
  else if reg = AT91_AIC_DCR then { r with dcr := val }
  else if reg < 0x80 ∧ reg % 4 = 0 then { r with smr := upd r.smr (reg / 4) val }
  else if 0x80 ≤ reg ∧ reg < 0x100 ∧ reg % 4 = 0 then
    { r with svr := upd r.svr ((reg - 0x80) / 4) val }
  else r

/-- Modelled from the spec: effect of a write on the indirected layout. A
write to the select register names a line (7 bits); the per-line registers
then act on the selected line, the command registers when bit 0 is written
as 1. -/
def aic5_hw_write (val reg : Nat) (r : aic_regs) : aic_regs :=
  if reg = AT91_AIC5_SSR then { r with ssr := val &&& AT91_AIC5_INTSEL_MSK }
  else if reg = AT91_AIC5_SMR then { r with smr := upd r.smr r.ssr val }
  else if reg = AT91_AIC5_SVR then { r with svr := upd r.svr r.ssr val }
  else if reg = AT91_AIC5_IECR then
    if val.testBit 0 then { r with imr := upd r.imr r.ssr true } else r
  else if reg = AT91_AIC5_IDCR then
    if val.testBit 0 then { r with imr := upd r.imr r.ssr false } else r
  else if reg = AT91_AIC5_ISCR then
    if val.testBit 0 then { r with ipr := upd r.ipr r.ssr true } else r
  else if reg = AT91_AIC5_ICCR then
    if val.testBit 0 then { r with ipr := upd r.ipr r.ssr false } else r
  else if reg = AT91_AIC5_EOICR then { r with eoi := r.eoi + 1 }
  else if reg = AT91_AIC5_SPU then { r with spu := val }
  else if reg = AT91_AIC5_DCR then { r with dcr := val }
  else r

/-- Modelled from the spec: value read on the flat layout. -/
def aic_hw_read (reg : Nat) (r : aic_regs) : Nat :=
  if reg = AT91_AIC_IVR then r.ivr
  else if reg = AT91_AIC_ISR then r.isr
  else if reg = AT91_AIC_IMR then
    (List.range 32).foldl (fun acc n => acc ||| (if r.imr n then 1 <<< n else 0)) 0
  else if reg = AT91_AIC_SPU then r.spu
  else if reg = AT91_AIC_DCR then r.dcr
  else if reg < 0x80 ∧ reg % 4 = 0 then r.smr (reg / 4)
  else if 0x80 ≤ reg ∧ reg < 0x100 ∧ reg % 4 = 0 then r.svr ((reg - 0x80) / 4)
  else 0

/-- Modelled from the spec: value read on the indirected layout. -/
def aic5_hw_read (reg : Nat) (r : aic_regs) : Nat :=
  if reg = AT91_AIC5_SSR then r.ssr
  else if reg = AT91_AIC5_SMR then r.smr r.ssr
  else if reg = AT91_AIC5_SVR then r.svr r.ssr
  else if reg = AT91_AIC5_IVR then r.ivr
  else if reg = AT91_AIC5_ISR then r.isr
  else if reg = AT91_AIC5_IMR then (if r.imr r.ssr then 1 else 0)
  else if reg = AT91_AIC5_SPU then r.spu
  else if reg = AT91_AIC5_DCR then r.dcr
  else 0

/-- The accessor `irq_reg_writel(val, gc->reg_base + reg)`. -/
def irq_reg_writel (k : aic_kind) (val reg : Nat) (s : aic_state) : aic_state :=
  { s with
    regs := (match k with
      | .aic => aic_hw_write val reg s.regs
      | .aic5 => aic5_hw_write val reg s.regs)
    log := s.log ++ [io_event.irq_reg_writel val reg] }

/-- The accessor `irq_reg_readl(gc->reg_base + reg)`; the result is a `u32`. -/
def irq_reg_readl (k : aic_kind) (reg : Nat) (s : aic_state) : Nat × aic_state :=
  (u32 (match k with
      | .aic => aic_hw_read reg s.regs
      | .aic5 => aic5_hw_read reg s.regs),
   { s with log := s.log ++ [io_event.irq_reg_readl reg] })

/-- The accessor `writel(val, addr)` on the register of another device. -/
def writel (val addr : Nat) (s : aic_state) : aic_state :=
  { s with mem := upd s.mem addr val, log := s.log ++ [io_event.writel val addr] }

/-- The accessor `readl(addr)` on the register of another device. -/
def readl (addr : Nat) (s : aic_state) : Nat × aic_state :=
  (u32 (s.mem addr), { s with log := s.log ++ [io_event.readl addr] })

/-- The call `handle_IRQ(irq, regs)`: the line handler runs outside the
driver; the call is recorded. -/
def handle_IRQ (irq : Nat) (s : aic_state) : aic_state :=
  { s with log := s.log ++ [io_event.handle_IRQ irq] }

/-! ## Dispatch (lines 118-154) -/

/-- The routine `aic_handle`; `irq_find_mapping` is the reverse map of the
domain. -/
def aic_handle (irq_find_mapping : Nat → Nat) (s : aic_state) : aic_state :=
  let r1 := irq_reg_readl .aic AT91_AIC_IVR s
  let r2 := irq_reg_readl .aic AT91_AIC_ISR r1.2
  let irqnr := irq_find_mapping r1.1
  if r2.1 = 0 then irq_reg_writel .aic 0 AT91_AIC_EOICR r2.2
  else handle_IRQ irqnr r2.2

/-- The routine `aic5_handle`. -/
def aic5_handle (irq_find_mapping : Nat → Nat) (s : aic_state) : aic_state :=
  let r1 := irq_reg_readl .aic5 AT91_AIC5_IVR s
  let r2 := irq_reg_readl .aic5 AT91_AIC5_ISR r1.2
  let irqnr := irq_find_mapping r1.1
  if r2.1 = 0 then irq_reg_writel .aic5 0 AT91_AIC5_EOICR r2.2
  else handle_IRQ irqnr r2.2

/-! ## Line control (lines 156-296) -/

/-- The routine `aic5_mask`; `gc` is `dgc->gc[0]`. -/
def aic5_mask (d : irq_data) (s : aic_state) : aic_state :=
  let s1 := irq_reg_writel .aic5 d.hwirq AT91_AIC5_SSR s
  let s2 := irq_reg_writel .aic5 1 AT91_AIC5_IDCR s1
  let gc := s2.gc 0
  { s2 with gc := upd s2.gc 0 { gc with mask_cache := gc.mask_cache &&& not32 d.mask } }

/-- The routine `aic5_unmask`; `gc` is `dgc->gc[0]`. -/
def aic5_unmask (d : irq_data) (s : aic_state) : aic_state :=
  let s1 := irq_reg_writel .aic5 d.hwirq AT91_AIC5_SSR s
  let s2 := irq_reg_writel .aic5 1 AT91_AIC5_IECR s1
  let gc := s2.gc 0
  { s2 with gc := upd s2.gc 0 { gc with mask_cache := gc.mask_cache ||| d.mask } }

/-- The routine `aic_to_srctype`; `gc` is the chip of the line. -/
def aic_to_srctype (d : irq_data) (type : Nat) (s : aic_state) : Int :=
  let aic := (s.gc d.chip_data).priv
  if type = IRQ_TYPE_LEVEL_HIGH then (AT91_AIC_SRCTYPE_HIGH : Int)
  else if type = IRQ_TYPE_EDGE_RISING then (AT91_AIC_SRCTYPE_RISING : Int)
  else if type = IRQ_TYPE_LEVEL_LOW then
    if d.mask &&& aic.ext_irqs ≠ 0 then (AT91_AIC_SRCTYPE_LOW : Int) else -EINVAL
  else if type = IRQ_TYPE_EDGE_FALLING then
    if d.mask &&& aic.ext_irqs ≠ 0 then (AT91_AIC_SRCTYPE_FALLING : Int) else -EINVAL
  else -EINVAL

/-- The routine `aic_set_type`. -/
def aic_set_type (d : irq_data) (type : Nat) (s : aic_state) : Int × aic_state :=
  let srctype := aic_to_srctype d type s
  if srctype < 0 then (srctype, s)
  else
    let r := irq_reg_readl .aic (AT91_AIC_SMR d.hwirq) s
    let smr := r.1 &&& not32 AT91_AIC_SRCTYPE
    (0, irq_reg_writel .aic (smr ||| srctype.toNat) (AT91_AIC_SMR d.hwirq) r.2)

/-- The routine `aic5_set_type`. -/
def aic5_set_type (d : irq_data) (type : Nat) (s : aic_state) : Int × aic_state :=
  let srctype := aic_to_srctype d type s
  if srctype < 0 then (srctype, s)
  else
    let s1 := irq_reg_writel .aic5 d.hwirq AT91_AIC5_SSR s
    let r := irq_reg_readl .aic5 AT91_AIC5_SMR s1
    let smr := r.1 &&& not32 AT91_AIC_SRCTYPE
    (0, irq_reg_writel .aic5 (smr ||| srctype.toNat) AT91_AIC5_SMR r.2)

/-- The routine `aic_mux_disable_irqs`: the list walk over one mux slot. -/
def aic_mux_disable_irqs : List aic_mux_irq → aic_state → aic_state
  | [], s => s
  | irq :: rest, s =>
    let s1 :=
      if irq.type = aic_mux_irq_type.AIC_MUX_1REG_IRQ then
        let r := readl (irq.base + irq.offset) s
        writel (r.1 &&& not32 irq.mask) (irq.base + irq.offset) r.2
      else
        writel irq.mask (irq.base + irq.offset) s
    aic_mux_disable_irqs rest s1

/-- The routine `aic_shutdown`; `irq_mask` is the callback `ct->chip.irq_mask`. -/
def aic_shutdown (irq_mask : irq_data → aic_state → aic_state) (d : irq_data)
    (s : aic_state) : aic_state :=
  let aic := (s.gc d.chip_data).priv
  let idx := d.hwirq % 32
  irq_mask d (aic_mux_disable_irqs (aic.mux idx) s)

/-- Modelled from the spec: the framework routine `irq_gc_mask_disable_reg`
(not part of the sources) that `aic_of_init` installs as `irq_mask` of the
flat variant with `regs.disable = AT91_AIC_IDCR`: write the bit of the line to
the disable register and clear it in the mask cache of the chip of the line. -/
def irq_gc_mask_disable_reg (d : irq_data) (s : aic_state) : aic_state :=
  let s1 := irq_reg_writel .aic d.mask AT91_AIC_IDCR s
  let gc := s1.gc d.chip_data
  { s1 with gc := upd s1.gc d.chip_data { gc with mask_cache := gc.mask_cache &&& not32 d.mask } }

/-! ## Power transitions (lines 298-367) -/

/-- The routine `aic_suspend`. -/
def aic_suspend (d : irq_data) (s : aic_state) : aic_state :=
  let gc := s.gc d.chip_data
  let s1 := irq_reg_writel .aic gc.mask_cache AT91_AIC_IDCR s
  irq_reg_writel .aic gc.wake_active AT91_AIC_IECR s1

/-- The routine `aic_resume`. -/
def aic_resume (d : irq_data) (s : aic_state) : aic_state :=
  let gc := s.gc d.chip_data
  let s1 := irq_reg_writel .aic gc.wake_active AT91_AIC_IDCR s
  irq_reg_writel .aic gc.mask_cache AT91_AIC_IECR s1

/-- One iteration of the loop of `aic5_suspend`, for index `i`; `gc` is the
chip of the line, the registers are those of `dgc->gc[0]`. -/
def aic5_suspend_step (d : irq_data) (s : aic_state) (i : Nat) : aic_state :=
  let gc := s.gc d.chip_data
  let mask := 1 <<< i
  if (mask &&& gc.mask_cache) = (mask &&& gc.wake_active) then s
  else
    let s1 := irq_reg_writel .aic5 (i + gc.irq_base) AT91_AIC5_SSR s
    if mask &&& gc.wake_active ≠ 0 then irq_reg_writel .aic5 1 AT91_AIC5_IECR s1
    else irq_reg_writel .aic5 1 AT91_AIC5_IDCR s1

/-- The routine `aic5_suspend`: `for (i = 0; i < dgc->irqs_per_chip; i++)`. -/
def aic5_suspend (d : irq_data) (s : aic_state) : aic_state :=
  (List.range irqs_per_chip).foldl (aic5_suspend_step d) s

/-- One iteration of the loop of `aic5_resume`, for index `i`. -/
def aic5_resume_step (d : irq_data) (s : aic_state) (i : Nat) : aic_state :=
  let gc := s.gc d.chip_data
  let mask := 1 <<< i
  if (mask &&& gc.mask_cache) = (mask &&& gc.wake_active) then s
  else
    let s1 := irq_reg_writel .aic5 (i + gc.irq_base) AT91_AIC5_SSR s
    if mask &&& gc.mask_cache ≠ 0 then irq_reg_writel .aic5 1 AT91_AIC5_IECR s1
    else irq_reg_writel .aic5 1 AT91_AIC5_IDCR s1

/-- The routine `aic5_resume`. -/
def aic5_resume (d : irq_data) (s : aic_state) : aic_state :=
  (List.range irqs_per_chip).foldl (aic5_resume_step d) s

/-! ## Retrigger (lines 184-209) -/

/-- The routine `aic_retrigger`. -/
def aic_retrigger (d : irq_data) (s : aic_state) : Int × aic_state :=
  (0, irq_reg_writel .aic d.mask AT91_AIC_ISCR s)

/-- The routine `aic5_retrigger`. -/
def aic5_retrigger (d : irq_data) (s : aic_state) : Int × aic_state :=
  let s1 := irq_reg_writel .aic5 d.hwirq AT91_AIC5_SSR s
  (0, irq_reg_writel .aic5 1 AT91_AIC5_ISCR s1)

/-! ## Terminal power-off (lines 369-395) -/

/-- The routine `aic_pm_shutdown`. -/
def aic_pm_shutdown (_d : irq_data) (s : aic_state) : aic_state :=
  let s1 := irq_reg_writel .aic 0xffffffff AT91_AIC_IDCR s
  irq_reg_writel .aic 0xffffffff AT91_AIC_ICCR s1

/-- One iteration of the loop of `aic5_pm_shutdown`, for index `i`; `gc` is
the chip of the line. -/
def aic5_pm_shutdown_step (d : irq_data) (s : aic_state) (i : Nat) : aic_state :=
  let gc := s.gc d.chip_data
  let s1 := irq_reg_writel .aic5 (i + gc.irq_base) AT91_AIC5_SSR s
  let s2 := irq_reg_writel .aic5 1 AT91_AIC5_IDCR s1
  irq_reg_writel .aic5 1 AT91_AIC5_ICCR s2

/-- The routine `aic5_pm_shutdown`. -/
def aic5_pm_shutdown (d : irq_data) (s : aic_state) : aic_state :=
  (List.range irqs_per_chip).foldl (aic5_pm_shutdown_step d) s

/-! ## Translation of a line identifier (lines 479-566) -/

/-- Modelled from the spec: the sense mask of `include/linux/irq.h` (not part
of the sources): the four sense bits. -/
def IRQ_TYPE_SENSE_MASK : Nat := 0xf

/-- Modelled from the spec: the generic-chip descriptor of a domain (type of
the framework, not part of the sources): the number of lines of one chip and
the number of chips. -/
structure irq_domain_chip_generic where
  irqs_per_chip : Nat
  num_chips : Nat
deriving DecidableEq, Repr

/-- The two output parameters `*out_hwirq` and `*out_type` of a translation. -/
structure xlate_out where
  hwirq : Nat
  type : Nat
deriving DecidableEq, Repr

/-- The routine `at91_aic_common_irq_domain_xlate`; `intspec i` is the cell
`intspec[i]` (a `u32`), `out` holds the values of the output parameters before
the call. The diagnostics of `WARN_ON` are not modelled. -/
def at91_aic_common_irq_domain_xlate (intspec : Nat → Nat) (intsize : Nat)
    (out : xlate_out) : Int × xlate_out :=
  if intsize < 3 then (-EINVAL, out)
  else if intspec 2 < AT91_AIC_IRQ_MIN_PRIORITY ∨ intspec 2 > AT91_AIC_IRQ_MAX_PRIORITY then
    (-EINVAL, out)
  else (0, { hwirq := intspec 0, type := intspec 1 &&& IRQ_TYPE_SENSE_MASK })

/-- The routine `aic_irq_domain_xlate`; `dgc` is `d->gc` (`none` when it is
`NULL`). The registers of every chip are those of the controller. -/
def aic_irq_domain_xlate (dgc : Option irq_domain_chip_generic) (intspec : Nat → Nat)
    (intsize : Nat) (out : xlate_out) (s : aic_state) : Int × xlate_out × aic_state :=
  match dgc with
  | none => (-EINVAL, out, s)
  | some dgc =>
    let r := at91_aic_common_irq_domain_xlate intspec intsize out
    if r.1 ≠ 0 then (r.1, r.2, s)
    else
      let idx := intspec 0 / dgc.irqs_per_chip
      if idx ≥ dgc.num_chips then (-EINVAL, r.2, s)
      else
        let rd := irq_reg_readl .aic AT91_AIC5_SMR s
        let smr := rd.1 &&& not32 AT91_AIC_PRIOR
        (0, r.2, irq_reg_writel .aic (intspec 2 ||| smr) AT91_AIC5_SMR rd.2)

/-- The routine `aic5_irq_domain_xlate`. -/
def aic5_irq_domain_xlate (dgc : Option irq_domain_chip_generic) (intspec : Nat → Nat)
    (intsize : Nat) (out : xlate_out) (s : aic_state) : Int × xlate_out × aic_state :=
  match dgc with
  | none => (-EINVAL, out, s)
  | some _ =>
    let r := at91_aic_common_irq_domain_xlate intspec intsize out
    if r.1 ≠ 0 then (r.1, r.2, s)
    else
      let s1 := irq_reg_writel .aic5 r.2.hwirq AT91_AIC5_SSR s
      let rd := irq_reg_readl .aic5 AT91_AIC5_SMR s1
      let smr := rd.1 &&& not32 AT91_AIC_PRIOR
      (0, r.2, irq_reg_writel .aic5 (intspec 2 ||| smr) AT91_AIC5_SMR rd.2)

/-! ## Binding header `arch/arm/boot/dts/at91-aic.h` -/

/-- The C comparison `a < b`, of type `int`: 1 when it holds, 0 otherwise. -/
def c_lt (a b : Nat) : Nat := if a < b then 1 else 0

/-- The macro `AT91_AIC_LOW_TO_HIGH`, defined as `(1 < 0)`. -/
def AT91_AIC_LOW_TO_HIGH : Nat := c_lt 1 0
/-- The macro `AT91_AIC_HIGH_TO_LOW`, defined as `(1 < 1)`. -/
def AT91_AIC_HIGH_TO_LOW : Nat := c_lt 1 1
/-- The macro `AT91_AIC_HIGH`, defined as `(1 < 2)`. -/
def AT91_AIC_HIGH : Nat := c_lt 1 2
/-- The macro `AT91_AIC_LOW`, defined as `(1 < 3)`. -/
def AT91_AIC_LOW : Nat := c_lt 1 3
/-- The macro `AT91_AIC_LOW_TO_HIGH_OR_HIGH_TO_LOW`. -/
def AT91_AIC_LOW_TO_HIGH_OR_HIGH_TO_LOW : Nat := AT91_AIC_LOW_TO_HIGH ||| AT91_AIC_HIGH_TO_LOW

/-! ## Initialisation (lines 405-477 and 573-879) -/

/-- Modelled from the spec: the already-exists error number of `errno-base.h`. -/
def EEXIST : Int := 17

/-- Modelled from the spec: the out-of-memory error number of `errno-base.h`. -/
def ENOMEM : Int := 12

/-- Modelled from the spec: the constant `BITS_PER_BYTE` of the kernel headers. -/
def BITS_PER_BYTE : Nat := 8

/-- Modelled from the spec: the description of one muxed sub-source (a child
of a mux node) as `aic_mux_irq_of_init` sees it through the device-tree and
allocation services, which are not part of the sources: the matching
compatible entry, the results of `of_parse_phandle_with_fixed_args` and of
`of_address_to_resource`, the resource, the cells `args[1]` and `args[2]`, and
the outcomes of `kzalloc` and `ioremap`. -/
structure mux_irq_node where
  compatible : Option aic_mux_irq_type
  phandle_ret : Int
  resource_ret : Int
  res_start : Nat
  res_size : Nat
  offset : Nat
  mask : Nat
  kzalloc_ok : Bool
  ioremap : Option Nat
deriving DecidableEq, Repr

/-- Modelled from the spec: a child node of the controller node: whether it
matches `atmel,aic-mux`, its `reg` property and its children. -/
structure mux_node where
  is_mux : Bool
  reg : Option Nat
  children : List mux_irq_node
deriving DecidableEq, Repr

/-- Modelled from the spec: the controller node of the hardware description:
the length in bytes of the property `atmel,aic-irq-mapping` when present, the
cells of `atmel,irq-mapping` and of `atmel,external-irqs`, the child nodes and
the result of `of_iomap(node, 0)`. -/
structure device_node where
  aic_irq_mapping : Option Nat
  irq_mapping : List Nat
  external_irqs : List Nat
  children : List mux_node
  iomap : Option Nat
deriving DecidableEq, Repr

/-- Modelled from the spec: the fields of `struct irq_domain` (type of the
framework) that the driver uses; `ops` tells which of `aic_irq_ops` and
`aic5_irq_ops` the domain was created with, `gc` is `NULL` until the generic
chips are allocated. -/
structure irq_domain where
  of_node : device_node
  revmap_size : Nat
  ops : aic_kind
  gc : Option irq_domain_chip_generic
deriving DecidableEq, Repr

/-- A call of a mapping, allocation or registration service during
initialisation, in program order. -/
inductive init_call where
  | of_iomap
  | kzalloc
  | irq_domain_add_linear (nirqs : Nat)
  | irq_alloc_domain_generic_chips
  | irq_domain_remove
  | kfree
  | iounmap
  | ioremap (start size : Nat)
  | set_handle_irq (k : aic_kind)
deriving DecidableEq, Repr

/-- Modelled from the spec: the outcomes of the allocation services that
`aic_common_of_init` calls: `kzalloc`, `irq_domain_add_linear` and the return
value of `irq_alloc_domain_generic_chips`. -/
structure init_env where
  kzalloc_ok : Bool
  domain_add_ok : Bool
  alloc_chips_ret : Int
deriving DecidableEq, Repr

/-- The driver as a whole: the static pointer `aic_domain` (`none` when it is
`NULL`), the state of the controller and of its chips, and the service calls
made so far. -/
structure aic_driver where
  aic_domain : Option irq_domain
  st : aic_state
  calls : List init_call

/-- Modelled from the spec: the framework routine
`irq_get_domain_generic_chip(d, hw_irq)`: the index in `dgc->gc` of the chip
that owns line `hw_irq`, `none` (`NULL`) when the domain has no generic chips
or the line is not below the line count `num_chips * irqs_per_chip`. -/
def irq_get_domain_generic_chip (d : irq_domain) (hw_irq : Nat) : Option Nat :=
  match d.gc with
  | none => none
  | some dgc =>
    let idx := hw_irq / dgc.irqs_per_chip
    if idx ≥ dgc.num_chips then none else some idx

/-- The routine `aic_mux_hw_init`; `aic[i / 32]` is the private data of chip
`i / 32`. -/
def aic_mux_hw_init (domain : irq_domain) (s : aic_state) : aic_state :=
  (List.range domain.revmap_size).foldl
    (fun s i => aic_mux_disable_irqs ((s.gc (i / 32)).priv.mux (i % 32)) s) s

/-- The routine `aic_hw_init`; `none` stands for the dereference of a `NULL`
chip. -/
def aic_hw_init (domain : irq_domain) (s : aic_state) : Option aic_state :=
  match irq_get_domain_generic_chip domain 0 with
  | none => none
  | some _ =>
    let s1 := (List.range 8).foldl (fun s _ => irq_reg_writel .aic 0 AT91_AIC_EOICR s) s
    let s2 := irq_reg_writel .aic 0xffffffff AT91_AIC_SPU s1
    let s3 := irq_reg_writel .aic 0 AT91_AIC_DCR s2
    let s4 := irq_reg_writel .aic 0xffffffff AT91_AIC_IDCR s3
    let s5 := irq_reg_writel .aic 0xffffffff AT91_AIC_ICCR s4
    let s6 := (List.range 32).foldl (fun s i => irq_reg_writel .aic i (AT91_AIC_SVR i) s) s5
    some (aic_mux_hw_init domain s6)

/-- One iteration of the second loop of `aic5_hw_init`, for line `i`. -/
def aic5_hw_init_step (s : aic_state) (i : Nat) : aic_state :=
  let s1 := irq_reg_writel .aic5 i AT91_AIC5_SSR s
  let s2 := irq_reg_writel .aic5 i AT91_AIC5_SVR s1
  let s3 := irq_reg_writel .aic5 1 AT91_AIC5_IDCR s2
  irq_reg_writel .aic5 1 AT91_AIC5_ICCR s3

/-- The routine `aic5_hw_init`. -/
def aic5_hw_init (domain : irq_domain) (s : aic_state) : Option aic_state :=
  match irq_get_domain_generic_chip domain 0 with
  | none => none
  | some _ =>
    let s1 := (List.range 8).foldl (fun s _ => irq_reg_writel .aic5 0 AT91_AIC5_EOICR s) s
    let s2 := irq_reg_writel .aic5 0xffffffff AT91_AIC5_SPU s1
    let s3 := irq_reg_writel .aic5 0 AT91_AIC5_DCR s2
    let s4 := (List.range domain.revmap_size).foldl aic5_hw_init_step s3
    some (aic_mux_hw_init domain s4)

/-- Append service calls to the record of the driver. -/
def record (cs : List init_call) (drv : aic_driver) : aic_driver :=
  { drv with calls := drv.calls ++ cs }

/-- The routine `aic_mux_irq_of_init`: `Except.error e` is `ERR_PTR(e)`. The
structure comes zeroed from `kzalloc`, so its `type` is the first enumerator.
Diagnostics (`pr_warn`) are not modelled. -/
def aic_mux_irq_of_init (node : mux_irq_node) (drv : aic_driver) :
    Except Int aic_mux_irq × aic_driver :=
  if node.phandle_ret ≠ 0 then (Except.error node.phandle_ret, drv)
  else if node.resource_ret ≠ 0 then (Except.error node.resource_ret, drv)
  else if node.res_size < node.offset then (Except.error (-EINVAL), drv)
  else if node.kzalloc_ok = false then (Except.error (-ENOMEM), record [init_call.kzalloc] drv)
  else
    match node.ioremap with
    | none =>
      (Except.error (-ENOMEM),
        record [init_call.kzalloc, init_call.ioremap node.res_start node.res_size,
          init_call.kfree] drv)
    | some base =>
      (Except.ok { type := aic_mux_irq_type.AIC_MUX_1REG_IRQ, base := base,
                   offset := node.offset, mask := node.mask },
        record [init_call.kzalloc, init_call.ioremap node.res_start node.res_size] drv)

/-- The routine `aic_mux_1reg_irq_of_init`. -/
def aic_mux_1reg_irq_of_init (node : mux_irq_node) (drv : aic_driver) :
    Except Int aic_mux_irq × aic_driver :=
  match aic_mux_irq_of_init node drv with
  | (Except.ok irq, drv1) => (Except.ok { irq with type := aic_mux_irq_type.AIC_MUX_1REG_IRQ }, drv1)
  | (Except.error e, drv1) => (Except.error e, drv1)

/-- The routine `aic_mux_3reg_irq_of_init`. -/
def aic_mux_3reg_irq_of_init (node : mux_irq_node) (drv : aic_driver) :
    Except Int aic_mux_irq × aic_driver :=
  match aic_mux_irq_of_init node drv with
  | (Except.ok irq, drv1) => (Except.ok { irq with type := aic_mux_irq_type.AIC_MUX_3REG_IRQ }, drv1)
  | (Except.error e, drv1) => (Except.error e, drv1)

/-- The operation `list_add_tail(&irq->node, &aic->mux[slot])` on chip `g`. -/
def mux_list_add_tail (g slot : Nat) (irq : aic_mux_irq) (s : aic_state) : aic_state :=
  let gc := s.gc g
  let priv : aic_chip_data :=
    { gc.priv with mux := upd gc.priv.mux slot (gc.priv.mux slot ++ [irq]) }
  { s with gc := upd s.gc g { gc with priv := priv } }

/-- The inner loop of `aic_mux_of_init` over the children of one mux node, for
the slot `hwirq % 32` of chip `g`; a child that matches no entry of
`aic_mux_irq_of_match` or whose initialiser fails is skipped. -/
def aic_mux_of_init_children (g hwirq : Nat) : List mux_irq_node → aic_driver → aic_driver
  | [], drv => drv
  | irq_node :: rest, drv =>
    match irq_node.compatible with
    | none => aic_mux_of_init_children g hwirq rest drv
    | some ty =>
      let r := match ty with
        | aic_mux_irq_type.AIC_MUX_1REG_IRQ => aic_mux_1reg_irq_of_init irq_node drv
        | aic_mux_irq_type.AIC_MUX_3REG_IRQ => aic_mux_3reg_irq_of_init irq_node drv
      match r with
      | (Except.error _, drv1) => aic_mux_of_init_children g hwirq rest drv1
      | (Except.ok irq, drv1) =>
        aic_mux_of_init_children g hwirq rest
          { drv1 with st := mux_list_add_tail g (hwirq % 32) irq drv1.st }

/-- The outer loop of `aic_mux_of_init` over the child nodes; `aic_domain` is
the static pointer, which is set when the routine runs. -/
def aic_mux_of_init_nodes (aic_domain : irq_domain) : List mux_node → aic_driver → aic_driver
  | [], drv => drv
  | mux_node :: rest, drv =>
    if mux_node.is_mux = false then aic_mux_of_init_nodes aic_domain rest drv
    else
      match mux_node.reg with
      | none => aic_mux_of_init_nodes aic_domain rest drv
      | some hwirq =>
        match irq_get_domain_generic_chip aic_domain hwirq with
        | none => aic_mux_of_init_nodes aic_domain rest drv
        | some g =>
          aic_mux_of_init_nodes aic_domain rest
            (aic_mux_of_init_children g hwirq mux_node.children drv)

/-- The routine `aic_mux_of_init`. -/
def aic_mux_of_init (aic_domain domain : irq_domain) (drv : aic_driver) : aic_driver :=
  aic_mux_of_init_nodes aic_domain domain.of_node.children drv

/-- The statement `aic->ext_irqs |= bits` on the private data of chip `g`. -/
def ext_irqs_or (g bits : Nat) (s : aic_state) : aic_state :=
  let gc := s.gc g
  let priv : aic_chip_data := { gc.priv with ext_irqs := gc.priv.ext_irqs ||| bits }
  { s with gc := upd s.gc g { gc with priv := priv } }

/-- One iteration of the loop of `aic_ext_irq_of_init` over the cells of
`atmel,external-irqs`: a line that has no chip is skipped. -/
def aic_ext_irq_of_init_step (aic_domain : irq_domain) (s : aic_state) (hwirq : Nat) :
    aic_state :=
  match irq_get_domain_generic_chip aic_domain hwirq with
  | none => s
  | some g => ext_irqs_or g (1 <<< (hwirq % 32)) s

/-- The routine `aic_ext_irq_of_init`; `aic_domain` is the static pointer,
`none` stands for the dereference of a `NULL` chip of line 0. -/
def aic_ext_irq_of_init (aic_domain domain : irq_domain) (s : aic_state) : Option aic_state :=
  match irq_get_domain_generic_chip aic_domain 0 with
  | none => none
  | some g0 =>
    some (domain.of_node.external_irqs.foldl (aic_ext_irq_of_init_step aic_domain)
      (ext_irqs_or g0 1 s))

/-- The chip `i` that `irq_alloc_domain_generic_chips` creates (base line
`i * 32`, empty caches) once the loop of `aic_common_of_init` has run on it:
`unused` and `wake_enabled` from cell `i` of `atmel,irq-mapping` when there is
one, zeroed private data with empty mux slots. -/
def aic_common_of_init_chip (node : device_node) (i : Nat) : irq_chip_generic :=
  { irq_base := i * irqs_per_chip, mask_cache := 0, wake_active := 0,
    priv := { ext_irqs := 0, mux := fun _ => [] },
    unused := match node.irq_mapping.get? i with
      | some tmp => not32 tmp
      | none => 0,
    wake_enabled := match node.irq_mapping.get? i with
      | some tmp => tmp
      | none => not32 0 }

/-- The loop `for (i = 0; i < nchips; i++)` of `aic_common_of_init`, from
chip `i` on, `n` chips to go; `none` stands for the dereference of a `NULL`
chip. The callbacks stored in `chip_types[0]` are those of the variant. -/
def aic_common_of_init_chips (dom : irq_domain) (node : device_node) :
    Nat → Nat → aic_state → Option aic_state
  | _, 0, s => some s
  | i, n + 1, s =>
    match irq_get_domain_generic_chip dom (i * 32) with
    | none => none
    | some g =>
      aic_common_of_init_chips dom node (i + 1) n
        { s with gc := upd s.gc g (aic_common_of_init_chip node i) }

/-- The routine `aic_common_of_init`; `ops` and `maxirq` are the arguments
that `aic_of_init` and `aic5_of_init` pass. On success the framework gives the
domain `revmap_size / 32` generic chips of 32 lines. -/
def aic_common_of_init (node : device_node) (env : init_env) (ops : aic_kind) (maxirq : Nat)
    (drv : aic_driver) : Option (Int × aic_driver) :=
  match drv.aic_domain with
  | some _ => some (-EEXIST, drv)
  | none =>
    let nirqs := match node.aic_irq_mapping with
      | some tmp => tmp * BITS_PER_BYTE
      | none => maxirq
    let nchips := (nirqs + 32 - 1) / 32
    match node.iomap with
    | none => some (-ENOMEM, record [init_call.of_iomap] drv)
    | some _ =>
      if env.kzalloc_ok = false then
        some (-ENOMEM, record [init_call.of_iomap, init_call.kzalloc, init_call.iounmap] drv)
      else if env.domain_add_ok = false then
        some (-ENOMEM, record [init_call.of_iomap, init_call.kzalloc,
          init_call.irq_domain_add_linear nirqs, init_call.kfree, init_call.iounmap] drv)
      else
        let dom0 : irq_domain := { of_node := node, revmap_size := nirqs, ops := ops, gc := none }
        if env.alloc_chips_ret ≠ 0 then
          some (env.alloc_chips_ret,
            { record [init_call.of_iomap, init_call.kzalloc,
                init_call.irq_domain_add_linear nirqs, init_call.irq_alloc_domain_generic_chips,
                init_call.irq_domain_remove, init_call.kfree, init_call.iounmap] drv with
              aic_domain := some dom0 })
        else
          let dom : irq_domain :=
            { dom0 with gc := some { irqs_per_chip := 32, num_chips := nirqs / 32 } }
          let drv1 : aic_driver :=
            { record [init_call.of_iomap, init_call.kzalloc,
                init_call.irq_domain_add_linear nirqs,
                init_call.irq_alloc_domain_generic_chips] drv with
              aic_domain := some dom }
          match aic_common_of_init_chips dom node 0 nchips drv1.st with
          | none => none
          | some st1 =>
            let drv2 := aic_mux_of_init dom dom { drv1 with st := st1 }
            match aic_ext_irq_of_init dom dom drv2.st with
            | none => none
            | some st2 => some (0, { drv2 with st := st2 })

/-- The routine `aic_of_init`; the registers and callbacks stored in
`chip_types[0]` are those of the flat variant. -/
def aic_of_init (node : device_node) (env : init_env) (drv : aic_driver) :
    Option (Int × aic_driver) :=
  match aic_common_of_init node env aic_kind.aic NR_AIC_IRQS drv with
  | none => none
  | some (ret, drv1) =>
    if ret ≠ 0 then some (ret, drv1)
    else
      match drv1.aic_domain with
      | none => none
      | some dom =>
        match irq_get_domain_generic_chip dom 0 with
        | none => none
        | some _ =>
          match aic_hw_init dom drv1.st with
          | none => none
          | some st =>
            some (0, record [init_call.set_handle_irq aic_kind.aic] { drv1 with st := st })

/-- The routine `aic5_of_init`; the loop over the chips stores the callbacks
of the indirected variant in `chip_types[0]`. -/
def aic5_of_init (node : device_node) (env : init_env) (drv : aic_driver) :
    Option (Int × aic_driver) :=
  match aic_common_of_init node env aic_kind.aic5 NR_AIC5_IRQS drv with
  | none => none
  | some (ret, drv1) =>
    if ret ≠ 0 then some (ret, drv1)
    else
      match drv1.aic_domain with
      | none => none
      | some dom =>
        match aic5_hw_init dom drv1.st with
        | none => none
        | some st =>
          some (0, record [init_call.set_handle_irq aic_kind.aic5] { drv1 with st := st })

/-! ## LED cycle trigger (`drivers/leds/trigger/ledtrig-cycle.c`) -/

/-- The conversion of a 32-bit word to a signed 32-bit integer: the types
`long`, `ssize_t` and `int` of the 32-bit ARM targets of these drivers. -/
def s32 (x : Nat) : Int :=
  if u32 x < 2147483648 then (u32 x : Int) else (u32 x : Int) - 4294967296

/-- The conversion of a signed integer to `unsigned long` (32 bits). -/
def u32_of_int (x : Int) : Nat := (x % 4294967296).toNat

/-- Modelled from the spec: the constant `NSEC_PER_SEC` of `linux/time.h`. -/
def NSEC_PER_SEC : Int := 1000000000

/-- Modelled from the spec: the constant `KTIME_MAX` of `linux/ktime.h`, the
largest signed 64-bit value. -/
def KTIME_MAX : Int := 9223372036854775807

/-- Modelled from the spec: the constant `KTIME_SEC_MAX` of `linux/ktime.h`. -/
def KTIME_SEC_MAX : Int := KTIME_MAX.tdiv NSEC_PER_SEC

/-- Modelled from the spec: the routine `ktime_set(secs, nsecs)` of
`linux/ktime.h` on the scalar representation of `ktime_t` (signed 64-bit
nanoseconds): saturation at `KTIME_MAX`, else `secs * NSEC_PER_SEC + nsecs`. -/
def ktime_set (secs : Int) (nsecs : Nat) : Int :=
  if secs ≥ KTIME_SEC_MAX then KTIME_MAX else secs * NSEC_PER_SEC + (nsecs : Int)

/-- Modelled from the spec: the routine `ktime_to_ns` on the scalar
representation. -/
def ktime_to_ns (kt : Int) : Int := kt

/-- Modelled from the spec: the routine `div_s64`, the truncating signed
division. -/
def div_s64 (dividend divisor : Int) : Int := dividend.tdiv divisor

/-- The fields of `struct hrtimer` that the trigger drives: the expiry time
and whether the timer is queued. -/
structure hrtimer where
  expires : Int
  active : Bool
deriving DecidableEq, Repr

/-- The type `struct cycle_trig_data`. `brightness` is the value last passed
to `led_set_brightness(cdev, ...)`; `interval` is a `ktime_t` in nanoseconds;
`plot` is `none` for a null pointer and else the byte array, indexed from 0. -/
structure cycle_trig_data where
  brightness : Nat
  timer : hrtimer
  interval : Int
  plot_index : Nat
  plot_count : Nat
  plot : Option (Nat → Nat)

/-- The routine `led_cycle_function`: one expiry of the timer. `plot_index` is
an `unsigned int`; `hrtimer_add_expires` moves the expiry by the interval. -/
def led_cycle_function (data : cycle_trig_data) : cycle_trig_data :=
  let data1 :=
    match data.plot with
    | some plot =>
      let d1 := { data with brightness := plot data.plot_index }
      let d2 := { d1 with plot_index := u32 (d1.plot_index + 1) }
      if d2.plot_index ≥ d2.plot_count then { d2 with plot_index := 0 } else d2
    | none => data
  { data1 with timer := { data1.timer with expires := data1.timer.expires + data1.interval } }

/-- The routine `cycle_interval_show`: the return value of `snprintf` and the
text written to the buffer, the decimal form of the `unsigned long` interval
followed by a newline (at most 11 characters, below `PAGE_SIZE`). -/
def cycle_interval_show (data : cycle_trig_data) : Int × String :=
  let interval : Nat := u32_of_int (div_s64 (ktime_to_ns data.interval) 1000000)
  let out := toString interval ++ "\n"
  ((out.length : Int), out)

/-- The routine `cycle_interval_store`. The parser `kstrtoul(buf, 0, &res)` is
not part of the sources: it is a parameter that gives the error code and the
parsed `unsigned long`. -/
def cycle_interval_store (kstrtoul : List Nat → Int × Nat) (buf : List Nat) (size : Nat)
    (data : cycle_trig_data) : Int × cycle_trig_data :=
  let r := kstrtoul buf
  if r.1 ≠ 0 then (-EINVAL, data)
  else
    let interval := r.2
    (s32 size,
      { data with interval := ktime_set (s32 (interval / 1000)) (u32 ((interval % 1000) * 1000000)) })

/-- Modelled from the spec: the macro `ATMEL_TC_CHAN` of `linux/atmel_tc.h`. -/
def ATMEL_TC_CHAN (idx : Nat) : Nat := idx * 0x40
/-- Modelled from the spec: the offset `ATMEL_TC_CCR` of `linux/atmel_tc.h`. -/
def ATMEL_TC_CCR : Nat := 0x00
/-- Modelled from the spec: the offset `ATMEL_TC_CMR` of `linux/atmel_tc.h`. -/
def ATMEL_TC_CMR : Nat := 0x04
/-- Modelled from the spec: the macro `ATMEL_TC_REG(idx, reg)`. -/
def ATMEL_TC_REG (idx reg : Nat) : Nat := ATMEL_TC_CHAN idx + reg
/-- Modelled from the spec: the command bit `ATMEL_TC_CLKDIS`. -/
def ATMEL_TC_CLKDIS : Nat := 1 <<< 1
/-- Modelled from the spec: the command bit `ATMEL_TC_SWTRG`. -/
def ATMEL_TC_SWTRG : Nat := 1 <<< 2
/-- Modelled from the spec: the mode field `ATMEL_TC_ACPA`. -/
def ATMEL_TC_ACPA : Nat := 3 <<< 16
/-- Modelled from the spec: the mode field `ATMEL_TC_ACPC`. -/
def ATMEL_TC_ACPC : Nat := 3 <<< 18
/-- Modelled from the spec: the mode field `ATMEL_TC_BCPB`. -/
def ATMEL_TC_BCPB : Nat := 3 <<< 24
/-- Modelled from the spec: the mode field `ATMEL_TC_BCPC`. -/
def ATMEL_TC_BCPC : Nat := 3 <<< 26

/-- The statement `reg &= ~(0xFF << (pwm->hwpwm % 2) ? 24 : 16);` of
`atmel_tcb_pwm_disable`. In C the shift binds tighter than the conditional
operator: the condition is `0xFF << (hwpwm % 2)`, the operand of `~` is 24 or
16. -/
def atmel_tcb_pwm_disable_mask (hwpwm reg : Nat) : Nat :=
  reg &&& not32 (if 0xFF <<< (hwpwm % 2) ≠ 0 then 24 else 16)

/-- The routine `atmel_tcb_pwm_disable` on the register store of the timer
block (offsets from `tc->regs`; a read returns the last value written). -/
def atmel_tcb_pwm_disable (hwpwm : Nat) (regs : Nat → Nat) : Nat → Nat :=
  let reg := u32 (regs (ATMEL_TC_REG (hwpwm / 2) ATMEL_TC_CMR))
  let reg1 := atmel_tcb_pwm_disable_mask hwpwm reg
  let reg2 :=
    if hwpwm % 2 ≠ 0 then reg1 &&& not32 (ATMEL_TC_BCPC ||| ATMEL_TC_BCPB)
    else reg1 &&& not32 (ATMEL_TC_ACPC ||| ATMEL_TC_ACPA)
  let regs1 := upd regs (ATMEL_TC_REG (hwpwm / 2) ATMEL_TC_CMR) reg2
  let regs2 := upd regs1 (ATMEL_TC_REG (hwpwm / 2) ATMEL_TC_CCR) ATMEL_TC_SWTRG
  if reg2 &&& (ATMEL_TC_ACPC ||| ATMEL_TC_BCPC) = 0 then
    upd regs2 (ATMEL_TC_REG (hwpwm / 2) ATMEL_TC_CCR) ATMEL_TC_CLKDIS
  else regs2

/-! ## Peripheral clock (`drivers/clk/at91/clk-peripheral.c`) -/

/-- The fields of `struct clk_sam9x5_peripheral` that the rate routines use. -/
structure clk_sam9x5_peripheral where
  id : Nat
  div : Nat
  have_div_support : Nat
deriving DecidableEq, Repr

/-- The loop `for (shift = 1; shift < 4; shift++)` of
`clk_sam9x5_peripheral_round_rate`; the first argument is `4 - shift`, the
number of iterations that remain, and the result is `best_rate` at the exit. -/
def clk_sam9x5_peripheral_round_rate_loop (rate parent_rate : Nat) :
    Nat → Nat → Nat → Nat → Nat
  | 0, _, best_rate, _ => best_rate
  | n + 1, shift, best_rate, best_diff =>
    let cur_rate := parent_rate >>> shift
    let cur_diff := if cur_rate < rate then rate - cur_rate else cur_rate - rate
    let best_diff1 := if cur_diff < best_diff then cur_diff else best_diff
    let best_rate1 := if cur_diff < best_diff then cur_rate else best_rate
    if best_diff1 = 0 ∨ cur_rate < rate then best_rate1
    else clk_sam9x5_peripheral_round_rate_loop rate parent_rate n (shift + 1) best_rate1 best_diff1

/-- The routine `clk_sam9x5_peripheral_round_rate`; the rates are `unsigned
long` values, the result is a `long`. -/
def clk_sam9x5_peripheral_round_rate (periph : clk_sam9x5_peripheral)
    (rate parent_rate : Nat) : Int :=
  if periph.id < 2 ∨ periph.have_div_support = 0 then s32 parent_rate
  else if rate ≥ parent_rate then s32 rate
  else
    s32 (clk_sam9x5_peripheral_round_rate_loop rate parent_rate 3 1 parent_rate
      (parent_rate - rate))

/-- The loop `for (shift = 0; shift < 4; shift++)` of
`clk_sam9x5_peripheral_set_rate` followed by `return -EINVAL`; the first
argument is `4 - shift`. -/
def clk_sam9x5_peripheral_set_rate_loop (periph : clk_sam9x5_peripheral)
    (rate parent_rate : Nat) : Nat → Nat → Int × clk_sam9x5_peripheral
  | 0, _ => (-EINVAL, periph)
  | n + 1, shift =>
    if parent_rate >>> shift = rate then (0, { periph with div := shift })
    else clk_sam9x5_peripheral_set_rate_loop periph rate parent_rate n (shift + 1)

/-- The routine `clk_sam9x5_peripheral_set_rate`: the return value and the
clock after the call. -/
def clk_sam9x5_peripheral_set_rate (periph : clk_sam9x5_peripheral)
    (rate parent_rate : Nat) : Int × clk_sam9x5_peripheral :=
  if periph.id < 2 ∨ periph.have_div_support = 0 then
    if parent_rate = rate then (0, periph) else (-EINVAL, periph)
  else clk_sam9x5_peripheral_set_rate_loop periph rate parent_rate 4 0

/-! ## Slow clock oscillator (`drivers/clk/at91/clk-slow.c`) -/

def AT91_SCKC_RCEN : Nat := 1 <<< 0
def AT91_SCKC_OSC32EN : Nat := 1 <<< 1
def AT91_SCKC_OSC32BYP : Nat := 1 <<< 2
def AT91_SCKC_OSCSEL : Nat := 1 <<< 3

/-- Modelled from the spec: the bit `AT91_PMC_MOSCEN` of the main oscillator
register in `linux/clk/at91_pmc.h`. -/
def AT91_PMC_MOSCEN : Nat := 1 <<< 0

/-- Modelled from the spec: the bit `AT91_PMC_MOSCSEL` of the main oscillator
register in `linux/clk/at91_pmc.h`. -/
def AT91_PMC_MOSCSEL : Nat := 1 <<< 24

/-- The field of `struct clk_slow_osc` that selects the crystal (`true`) or the
RC oscillator. -/
structure clk_slow_osc where
  xtal : Bool
deriving DecidableEq, Repr

/-- The routine `clk_slow_osc_prepare` on the slow-clock control register
`sckcr` (a read returns the last value written): the return value and the
register after the call. The start-up delay is not modelled. -/
def clk_slow_osc_prepare (osc : clk_slow_osc) (sckcr : Nat) : Int × Nat :=
  let enable_flag := if osc.xtal then AT91_SCKC_OSC32EN else AT91_SCKC_RCEN
  let mor_mask := if osc.xtal then 0xffffffff &&& not32 AT91_SCKC_OSC32BYP else 0xffffffff
  let tmp := u32 sckcr
  if tmp &&& enable_flag ≠ 0 then (0, sckcr)
  else (0, (tmp &&& mor_mask) ||| enable_flag)

/-- The routine `clk_slow_osc_unprepare`: the register after the call. -/
def clk_slow_osc_unprepare (osc : clk_slow_osc) (sckcr : Nat) : Nat :=
  let enable_flag := if osc.xtal then AT91_SCKC_OSC32EN else AT91_SCKC_RCEN
  let tmp := u32 sckcr
  if tmp &&& enable_flag = 0 then sckcr
  else tmp &&& not32 enable_flag

/-- The routine `clk_slow_osc_is_prepared`: the value of
`!!(readl(sckcr) & enable_flag)`. -/
def clk_slow_osc_is_prepared (osc : clk_slow_osc) (sckcr : Nat) : Int :=
  let enable_flag := if osc.xtal then AT91_PMC_MOSCEN else AT91_PMC_MOSCSEL
  if u32 sckcr &&& enable_flag ≠ 0 then 1 else 0

/-! ## Observations and example states -/

/-- The hardware-enabled set of the 32 lines that start at line `base` is the
bit pattern `m`: line `base + b` is enabled exactly when bit `b` of `m` is set. -/
def hw_enabled_is (r : aic_regs) (base m : Nat) : Prop :=
  ∀ b, b < 32 → r.imr (base + b) = m.testBit b

instance (r : aic_regs) (base m : Nat) : Decidable (hw_enabled_is r base m) := by
  unfold hw_enabled_is
  infer_instance

/-- Registers in which every line is disabled and nothing is pending. -/
def aic_regs_reset : aic_regs :=
  { ssr := 0, smr := fun _ => 0, svr := fun _ => 0, ivr := 0, isr := 0,
    imr := fun _ => false, ipr := fun _ => false, spu := 0, dcr := 0, eoi := 0 }

/-- Chip `g` as the framework allocates it (`irq_base = g * irqs_per_chip`),
with empty caches, no external line and empty mux slots. -/
def chip_reset (g : Nat) : irq_chip_generic :=
  { irq_base := g * irqs_per_chip, mask_cache := 0, wake_active := 0,
    priv := { ext_irqs := 0, mux := fun _ => [] } }

/-- A controller in which every line is disabled and every cache is empty. -/
def aic_state_reset : aic_state :=
  { regs := aic_regs_reset, gc := chip_reset, mem := fun _ => 0, log := [] }

/-- The scenario of the specification on a controller of `nchips` groups:
lines 5, 40 and 70 are enabled in hardware, line 40 is wake-active, and each
group that the controller has caches the enabled lines it owns (bit 5 of group
0, bit 8 of group 1, bit 6 of group 2). -/
def scenario_state (nchips : Nat) : aic_state :=
  { regs := { aic_regs_reset with imr := fun n => decide (n = 5 ∨ n = 40 ∨ n = 70) }
    gc := fun g =>
      if g < nchips then
        { chip_reset g with
          mask_cache := if g = 0 then 1 <<< 5 else if g = 1 then 1 <<< 8
            else if g = 2 then 1 <<< 6 else 0
          wake_active := if g = 1 then 1 <<< 8 else 0 }
      else chip_reset g
    mem := fun _ => 0
    log := [] }

/-- The invariant of the data model on the indirected controller (4 groups of
32 lines): bit `b` of the mask cache of group `g` is set exactly when the
hardware reports line `32 * g + b` enabled. -/
def mask_cache_in_sync (s : aic_state) : Prop :=
  ∀ g, g < 4 → ∀ b, b < 32 → (s.gc g).mask_cache.testBit b = s.regs.imr (32 * g + b)

instance (s : aic_state) : Decidable (mask_cache_in_sync s) := by
  unfold mask_cache_in_sync
  infer_instance

/-- The mode-register value `new` is the 32-bit value `v` with its sense field
(bits 5 and 6) replaced by the code `enc`; every other bit, the priority field
`AT91_AIC_PRIOR` among them, is the one of `v`. -/
def sense_field_set (v enc new : Nat) : Prop :=
  new = (v &&& 0xFFFFFF9F) ||| enc ∧
  (∀ i, i < 32 → i ≠ 5 → i ≠ 6 → new.testBit i = v.testBit i) ∧
  new.testBit 5 = enc.testBit 5 ∧ new.testBit 6 = enc.testBit 6 ∧
  new &&& AT91_AIC_PRIOR = v &&& AT91_AIC_PRIOR

/-- A reset controller in which every mode register holds `0x47` (priority 7,
sense level-high), line 40 is an external line of group 1 and nothing else. -/
def mode_demo_state : aic_state :=
  { aic_state_reset with
    regs := { aic_regs_reset with smr := fun _ => 0x47 }
    gc := fun g => if g = 1 then
        { chip_reset 1 with priv := { ext_irqs := 1 <<< 8, mux := fun _ => [] } }
      else chip_reset g }

/-- The addresses of the writes that a log holds to registers of other devices
(the disable registers of muxed sources), in program order. -/
def mux_write_addrs : List io_event → List Nat
  | [] => []
  | io_event.writel _ a :: rest => a :: mux_write_addrs rest
  | _ :: rest => mux_write_addrs rest

/-- The number of writes to controller registers that a log holds. -/
def reg_write_count : List io_event → Nat
  | [] => 0
  | io_event.irq_reg_writel _ _ :: rest => reg_write_count rest + 1
  | _ :: rest => reg_write_count rest

/-- A controller with every line enabled in which slot 1 of every group holds
two muxed sources: a clear-bits source at address `0x1014` with mask `0x4` and
a write-mask source at address `0x2024` with mask `0x10`; the register at
`0x1014` holds `0xff`. -/
def mux_demo_state : aic_state :=
  { regs := { aic_regs_reset with imr := fun _ => true }
    gc := fun g =>
      { chip_reset g with
        priv := { ext_irqs := 0, mux := fun i =>
          if i = 1 then
            [{ type := aic_mux_irq_type.AIC_MUX_1REG_IRQ, base := 0x1000, offset := 0x14,
               mask := 0x4 },
             { type := aic_mux_irq_type.AIC_MUX_3REG_IRQ, base := 0x2000, offset := 0x24,
               mask := 0x10 }]
          else [] } }
    mem := fun a => if a = 0x1014 then 0xff else 0
    log := [] }

/-- The arguments of the calls of the line handler that a log holds, in
program order. -/
def handler_calls : List io_event → List Nat
  | [] => []
  | io_event.handle_IRQ n :: rest => n :: handler_calls rest
  | _ :: rest => handler_calls rest

/-- A reset controller whose vector register reads 69 and whose status
register reads `isr`. -/
def dispatch_demo_state (isr : Nat) : aic_state :=
  { aic_state_reset with regs := { aic_regs_reset with ivr := 69, isr := isr } }

/-- The cells of a line identifier given as a list: cell `i` (0 when the list
is shorter). -/
def cells (l : List Nat) (i : Nat) : Nat := l.getD i 0

/-- A controller node without mux children whose `atmel,external-irqs` lists
the lines 40, 200 and 5. -/
def demo_node : device_node :=
  { aic_irq_mapping := none, irq_mapping := [], external_irqs := [40, 200, 5], children := [],
    iomap := some 0xf0000000 }

/-- Allocation services that all succeed. -/
def demo_env : init_env := { kzalloc_ok := true, domain_add_ok := true, alloc_chips_ret := 0 }

/-- The driver before any initialisation: no registered controller. -/
def fresh_driver : aic_driver := { aic_domain := none, st := aic_state_reset, calls := [] }

/-- The driver after one run of `aic5_of_init` on the demo node. -/
def registered_driver : aic_driver :=
  match aic5_of_init demo_node demo_env fresh_driver with
  | some r => r.2
  | none => fresh_driver

/-- A domain of `n` generic chips of 32 lines for the demo node. -/
def demo_domain (n : Nat) : irq_domain :=
  { of_node := demo_node, revmap_size := 32 * n, ops := aic_kind.aic5,
    gc := some { irqs_per_chip := 32, num_chips := n } }

/-- The register writes of the power-transition loop of the indirected
variant over the lines `0 .. k-1` of a group, as a function of the base line
`base`, the mask cache `m`, the wake-active set `w` and the set `tgt` that the
loop drives the lines to (`w` for suspend, `m` for resume): nothing for a line
whose bits in `m` and `w` are equal, a select write followed by an enable or
a disable command for every other line. -/
def aic5_pm_writes (base m w tgt : Nat) : Nat → List io_event
  | 0 => []
  | k + 1 =>
    aic5_pm_writes base m w tgt k ++
      (if m.testBit k = w.testBit k then []
       else [io_event.irq_reg_writel (k + base) AT91_AIC5_SSR,
             io_event.irq_reg_writel 1
               (if tgt.testBit k = true then AT91_AIC5_IECR else AT91_AIC5_IDCR)])

/-- The scenario state with other register contents: every line disabled, a
line selected and pending, the caches as in `scenario_state`. -/
def scenario_state_other_regs (nchips : Nat) : aic_state :=
  { scenario_state nchips with
    regs := { aic_regs_reset with ssr := 9, ipr := fun _ => true, smr := fun _ => 0x47 } }

/-- The number of writes to the controller register at offset `reg` that a log
holds. -/
def reg_writes_to (reg : Nat) : List io_event → Nat
  | [] => 0
  | io_event.irq_reg_writel _ r :: rest =>
    if r = reg then reg_writes_to reg rest + 1 else reg_writes_to reg rest
  | _ :: rest => reg_writes_to reg rest

/-- A one-register sub-source whose register region has 16 bytes and whose
disable register is described at offset 16, the first byte after the region;
every service succeeds and the region is mapped at `0x1000`. -/
def end_offset_node : mux_irq_node :=
  { compatible := some aic_mux_irq_type.AIC_MUX_1REG_IRQ, phandle_ret := 0, resource_ret := 0,
    res_start := 0xfffffe00, res_size := 16, offset := 16, mask := 0x4, kzalloc_ok := true,
    ioremap := some 0x1000 }

/-- A cycle state with a plot of 3 brightness values (10, 20, 30 at indices 0,
1, 2), positioned on the last one, and an interval of 250 ms. -/
def demo_cycle_data : cycle_trig_data :=
  { brightness := 0, timer := { expires := 1000, active := true }, interval := 250000000,
    plot_index := 2, plot_count := 3, plot := some (fun i => 10 * (i + 1)) }

/-- The distance `|a - b|` of two unsigned values. -/
def abs_diff (a b : Nat) : Nat := if a < b then b - a else a - b

/-- An instance of the parameter `kstrtoul` for the examples: a non-empty
string of decimal digits (bytes 48 to 57) parses to its value, every other
string fails with `-EINVAL`. -/
def demo_kstrtoul (s : List Nat) : Int × Nat :=
  if s ≠ [] ∧ s.all (fun d => decide (48 ≤ d ∧ d ≤ 57)) = true then
    (0, s.foldl (fun a d => a * 10 + (d - 48)) 0)
  else (-EINVAL, 0)

/-- A token that `cycle_plot_store` takes as a brightness value: at most 3
characters that parse without error to a value not above 255. -/
def valid_token (kstrtoul : List Nat → Int × Nat) (tok : List Nat) : Prop :=
  tok.length ≤ 3 ∧ (kstrtoul tok).1 = 0 ∧ (kstrtoul tok).2 ≤ 255

instance valid_token_decidable (kstrtoul : List Nat → Int × Nat) (tok : List Nat) :
    Decidable (valid_token kstrtoul tok) := by
  unfold valid_token
  infer_instance

/-! # Properties

Everything below is proved about the definitions above. -/

/-! ## Bit-level facts -/

theorem one_shiftLeft_land (i x : Nat) :
    (1 <<< i) &&& x = if x.testBit i then 2 ^ i else 0 := by
  apply Nat.eq_of_testBit_eq
  intro j
  rw [Nat.one_shiftLeft, Nat.testBit_and, Nat.testBit_two_pow]
  by_cases hij : i = j
  · subst hij
    cases hx : x.testBit i <;> simp [Nat.testBit_two_pow]
  · cases hx : x.testBit i <;> simp [hij, Nat.testBit_two_pow]

theorem one_shiftLeft_land_ne_zero (i x : Nat) :
    ((1 <<< i) &&& x ≠ 0) ↔ x.testBit i = true := by
  rw [one_shiftLeft_land]
  cases hx : x.testBit i
  · simp
  · simp

theorem one_shiftLeft_land_eq (i x y : Nat) :
    ((1 <<< i) &&& x = (1 <<< i) &&& y) ↔ x.testBit i = y.testBit i := by
  rw [one_shiftLeft_land, one_shiftLeft_land]
  have h2 : 2 ^ i ≠ 0 := (Nat.two_pow_pos i).ne'
  cases hx : x.testBit i <;> cases hy : y.testBit i <;> simp [h2, Ne.symm h2]

theorem land_intsel_of_lt (n : Nat) (h : n < 128) : n &&& AT91_AIC5_INTSEL_MSK = n := by
  have : AT91_AIC5_INTSEL_MSK = 2 ^ 7 - 1 := by decide
  rw [this]
  exact Nat.and_pow_two_sub_one_of_lt_two_pow (by simpa using h)


/-! ## Effect of the register accesses -/

@[simp] theorem irq_reg_writel_gc (k : aic_kind) (v r : Nat) (s : aic_state) :
    (irq_reg_writel k v r s).gc = s.gc := rfl

@[simp] theorem irq_reg_writel_mem (k : aic_kind) (v r : Nat) (s : aic_state) :
    (irq_reg_writel k v r s).mem = s.mem := rfl

@[simp] theorem irq_reg_writel_log (k : aic_kind) (v r : Nat) (s : aic_state) :
    (irq_reg_writel k v r s).log = s.log ++ [io_event.irq_reg_writel v r] := rfl

theorem aic5_select_enable_imr (v : Nat) (s : aic_state) :
    (irq_reg_writel .aic5 1 AT91_AIC5_IECR (irq_reg_writel .aic5 v AT91_AIC5_SSR s)).regs.imr
      = upd s.regs.imr (v &&& AT91_AIC5_INTSEL_MSK) true := by
  simp [irq_reg_writel, aic5_hw_write, AT91_AIC5_IECR, AT91_AIC5_SSR, AT91_AIC5_SMR,
    AT91_AIC5_SVR]

theorem aic5_select_disable_imr (v : Nat) (s : aic_state) :
    (irq_reg_writel .aic5 1 AT91_AIC5_IDCR (irq_reg_writel .aic5 v AT91_AIC5_SSR s)).regs.imr
      = upd s.regs.imr (v &&& AT91_AIC5_INTSEL_MSK) false := by
  simp [irq_reg_writel, aic5_hw_write, AT91_AIC5_IDCR, AT91_AIC5_IECR, AT91_AIC5_SSR,
    AT91_AIC5_SMR, AT91_AIC5_SVR]


/-! ## The suspend and resume loops of the indirected variant -/

theorem aic5_suspend_step_eq (d : irq_data) (s : aic_state) (i : Nat)
    (hi : i + (s.gc d.chip_data).irq_base < 128) :
    (aic5_suspend_step d s i).gc = s.gc ∧ (aic5_suspend_step d s i).mem = s.mem ∧
    (aic5_suspend_step d s i).regs.imr =
      if (s.gc d.chip_data).mask_cache.testBit i = (s.gc d.chip_data).wake_active.testBit i
      then s.regs.imr
      else upd s.regs.imr (i + (s.gc d.chip_data).irq_base)
        ((s.gc d.chip_data).wake_active.testBit i) := by
  unfold aic5_suspend_step
  simp only [one_shiftLeft_land_eq, one_shiftLeft_land_ne_zero]
  by_cases h : (s.gc d.chip_data).mask_cache.testBit i = (s.gc d.chip_data).wake_active.testBit i
  · simp [h]
  · cases hw : (s.gc d.chip_data).wake_active.testBit i
    · rw [hw] at h
      simp [h, hw, aic5_select_disable_imr, land_intsel_of_lt _ hi]
    · rw [hw] at h
      simp [h, hw, aic5_select_enable_imr, land_intsel_of_lt _ hi]


theorem aic5_suspend_fold (d : irq_data) (s : aic_state) (base m w : Nat)
    (hb : (s.gc d.chip_data).irq_base = base) (hm : (s.gc d.chip_data).mask_cache = m)
    (hw : (s.gc d.chip_data).wake_active = w) (h128 : base + 32 ≤ 128)
    (k : Nat) (hk : k ≤ 32) :
    ((List.range k).foldl (aic5_suspend_step d) s).gc = s.gc ∧
    ((List.range k).foldl (aic5_suspend_step d) s).mem = s.mem ∧
    ∀ n, ((List.range k).foldl (aic5_suspend_step d) s).regs.imr n =
      if base ≤ n ∧ n < base + k ∧ m.testBit (n - base) ≠ w.testBit (n - base)
      then w.testBit (n - base) else s.regs.imr n := by
  induction k with
  | zero =>
    refine ⟨rfl, rfl, fun n => ?_⟩
    rw [if_neg]
    · rfl
    · rintro ⟨h1, h2, -⟩
      omega
  | succ k ih =>
    obtain ⟨hgc, hmem, himr⟩ := ih (by omega)
    rw [List.range_succ, List.foldl_append]
    simp only [List.foldl_cons, List.foldl_nil]
    generalize (List.range k).foldl (aic5_suspend_step d) s = sk at hgc hmem himr
    have hi : k + (sk.gc d.chip_data).irq_base < 128 := by
      rw [hgc, hb]; omega
    obtain ⟨h1, h2, h3⟩ := aic5_suspend_step_eq d sk k hi
    refine ⟨h1.trans hgc, h2.trans hmem, ?_⟩
    intro n
    rw [h3, hgc, hb, hm, hw]
    have hkk : k + base - base = k := by omega
    by_cases hn : n = k + base
    · subst hn
      have hlt : k + base < base + (k + 1) := by omega
      have hle : base ≤ k + base := by omega
      by_cases hmw : m.testBit k = w.testBit k
      · rw [if_pos hmw, himr]
        simp [hkk, hmw]
      · rw [if_neg hmw]
        simp [upd, hkk, hmw, hlt]
    · have hiff : (n < base + (k + 1)) ↔ (n < base + k) := by omega
      by_cases hmw : m.testBit k = w.testBit k
      · rw [if_pos hmw, himr]
        simp only [hiff]
      · rw [if_neg hmw]
        simp only [upd, if_neg hn]
        rw [himr]
        simp only [hiff]


theorem aic5_resume_step_eq (d : irq_data) (s : aic_state) (i : Nat)
    (hi : i + (s.gc d.chip_data).irq_base < 128) :
    (aic5_resume_step d s i).gc = s.gc ∧ (aic5_resume_step d s i).mem = s.mem ∧
    (aic5_resume_step d s i).regs.imr =
      if (s.gc d.chip_data).mask_cache.testBit i = (s.gc d.chip_data).wake_active.testBit i
      then s.regs.imr
      else upd s.regs.imr (i + (s.gc d.chip_data).irq_base)
        ((s.gc d.chip_data).mask_cache.testBit i) := by
  unfold aic5_resume_step
  simp only [one_shiftLeft_land_eq, one_shiftLeft_land_ne_zero]
  by_cases h : (s.gc d.chip_data).mask_cache.testBit i = (s.gc d.chip_data).wake_active.testBit i
  · simp [h]
  · cases hw : (s.gc d.chip_data).mask_cache.testBit i
    · rw [hw] at h
      simp [h, hw, aic5_select_disable_imr, land_intsel_of_lt _ hi]
    · rw [hw] at h
      simp [h, hw, aic5_select_enable_imr, land_intsel_of_lt _ hi]


theorem aic5_resume_fold (d : irq_data) (s : aic_state) (base m w : Nat)
    (hb : (s.gc d.chip_data).irq_base = base) (hm : (s.gc d.chip_data).mask_cache = m)
    (hw : (s.gc d.chip_data).wake_active = w) (h128 : base + 32 ≤ 128)
    (k : Nat) (hk : k ≤ 32) :
    ((List.range k).foldl (aic5_resume_step d) s).gc = s.gc ∧
    ((List.range k).foldl (aic5_resume_step d) s).mem = s.mem ∧
    ∀ n, ((List.range k).foldl (aic5_resume_step d) s).regs.imr n =
      if base ≤ n ∧ n < base + k ∧ m.testBit (n - base) ≠ w.testBit (n - base)
      then m.testBit (n - base) else s.regs.imr n := by
  induction k with
  | zero =>
    refine ⟨rfl, rfl, fun n => ?_⟩
    rw [if_neg]
    · rfl
    · rintro ⟨h1, h2, -⟩
      omega
  | succ k ih =>
    obtain ⟨hgc, hmem, himr⟩ := ih (by omega)
    rw [List.range_succ, List.foldl_append]
    simp only [List.foldl_cons, List.foldl_nil]
    generalize (List.range k).foldl (aic5_resume_step d) s = sk at hgc hmem himr
    have hi : k + (sk.gc d.chip_data).irq_base < 128 := by
      rw [hgc, hb]; omega
    obtain ⟨h1, h2, h3⟩ := aic5_resume_step_eq d sk k hi
    refine ⟨h1.trans hgc, h2.trans hmem, ?_⟩
    intro n
    rw [h3, hgc, hb, hm, hw]
    have hkk : k + base - base = k := by omega
    by_cases hn : n = k + base
    · subst hn
      have hlt : k + base < base + (k + 1) := by omega
      have hle : base ≤ k + base := by omega
      by_cases hmw : m.testBit k = w.testBit k
      · rw [if_pos hmw, himr]
        simp [hkk, hmw]
      · rw [if_neg hmw]
        simp [upd, hkk, hmw, hlt]
    · have hiff : (n < base + (k + 1)) ↔ (n < base + k) := by omega
      by_cases hmw : m.testBit k = w.testBit k
      · rw [if_pos hmw, himr]
        simp only [hiff]
      · rw [if_neg hmw]
        simp only [upd, if_neg hn]
        rw [himr]
        simp only [hiff]


/-- Enabled lines after `aic5_suspend`: within the group a line whose cache and
wake bits differ takes its wake bit, every other line keeps its state. -/
theorem aic5_suspend_spec (d : irq_data) (s : aic_state) (base m w : Nat)
    (hb : (s.gc d.chip_data).irq_base = base) (hm : (s.gc d.chip_data).mask_cache = m)
    (hw : (s.gc d.chip_data).wake_active = w) (h128 : base + 32 ≤ 128) :
    (aic5_suspend d s).gc = s.gc ∧ (aic5_suspend d s).mem = s.mem ∧
    ∀ n, (aic5_suspend d s).regs.imr n =
      if base ≤ n ∧ n < base + 32 ∧ m.testBit (n - base) ≠ w.testBit (n - base)
      then w.testBit (n - base) else s.regs.imr n :=
  aic5_suspend_fold d s base m w hb hm hw h128 32 (Nat.le_refl 32)

/-- Enabled lines after `aic5_resume`. -/
theorem aic5_resume_spec (d : irq_data) (s : aic_state) (base m w : Nat)
    (hb : (s.gc d.chip_data).irq_base = base) (hm : (s.gc d.chip_data).mask_cache = m)
    (hw : (s.gc d.chip_data).wake_active = w) (h128 : base + 32 ≤ 128) :
    (aic5_resume d s).gc = s.gc ∧ (aic5_resume d s).mem = s.mem ∧
    ∀ n, (aic5_resume d s).regs.imr n =
      if base ≤ n ∧ n < base + 32 ∧ m.testBit (n - base) ≠ w.testBit (n - base)
      then m.testBit (n - base) else s.regs.imr n :=
  aic5_resume_fold d s base m w hb hm hw h128 32 (Nat.le_refl 32)

/-- Enabled lines after the two bulk writes of `aic_suspend`. -/
theorem aic_suspend_imr (d : irq_data) (s : aic_state) (n : Nat) :
    (aic_suspend d s).regs.imr n =
      ((s.regs.imr n && !(decide (n < 32) && (s.gc d.chip_data).mask_cache.testBit n))
        || (decide (n < 32) && (s.gc d.chip_data).wake_active.testBit n)) := by
  simp [aic_suspend, irq_reg_writel, aic_hw_write, AT91_AIC_IDCR, AT91_AIC_IECR]

/-- Enabled lines after the two bulk writes of `aic_resume`. -/
theorem aic_resume_imr (d : irq_data) (s : aic_state) (n : Nat) :
    (aic_resume d s).regs.imr n =
      ((s.regs.imr n && !(decide (n < 32) && (s.gc d.chip_data).wake_active.testBit n))
        || (decide (n < 32) && (s.gc d.chip_data).mask_cache.testBit n)) := by
  simp [aic_resume, irq_reg_writel, aic_hw_write, AT91_AIC_IDCR, AT91_AIC_IECR]

theorem aic5_suspend_enabled (d : irq_data) (s : aic_state)
    (h128 : (s.gc d.chip_data).irq_base + 32 ≤ 128)
    (hsync : hw_enabled_is s.regs (s.gc d.chip_data).irq_base (s.gc d.chip_data).mask_cache) :
    hw_enabled_is (aic5_suspend d s).regs (s.gc d.chip_data).irq_base
      (s.gc d.chip_data).wake_active := by
  obtain ⟨-, -, h⟩ := aic5_suspend_spec d s _ _ _ rfl rfl rfl h128
  intro b hb
  rw [h, Nat.add_sub_cancel_left]
  by_cases hmw : (s.gc d.chip_data).mask_cache.testBit b = (s.gc d.chip_data).wake_active.testBit b
  · rw [if_neg (by simp [hmw]), hsync b hb, hmw]
  · rw [if_pos ⟨by omega, by omega, hmw⟩]

theorem aic5_resume_enabled (d : irq_data) (s : aic_state)
    (h128 : (s.gc d.chip_data).irq_base + 32 ≤ 128)
    (hsync : hw_enabled_is s.regs (s.gc d.chip_data).irq_base (s.gc d.chip_data).wake_active) :
    hw_enabled_is (aic5_resume d s).regs (s.gc d.chip_data).irq_base
      (s.gc d.chip_data).mask_cache := by
  obtain ⟨-, -, h⟩ := aic5_resume_spec d s _ _ _ rfl rfl rfl h128
  intro b hb
  rw [h, Nat.add_sub_cancel_left]
  by_cases hmw : (s.gc d.chip_data).mask_cache.testBit b = (s.gc d.chip_data).wake_active.testBit b
  · rw [if_neg (by simp [hmw]), hsync b hb, hmw]
  · rw [if_pos ⟨by omega, by omega, hmw⟩]

theorem aic_suspend_enabled (d : irq_data) (s : aic_state)
    (hsync : hw_enabled_is s.regs 0 (s.gc d.chip_data).mask_cache) :
    hw_enabled_is (aic_suspend d s).regs 0 (s.gc d.chip_data).wake_active := by
  intro b hb
  have h := hsync b hb
  rw [Nat.zero_add] at h ⊢
  rw [aic_suspend_imr, h]
  simp [hb]

theorem aic_resume_enabled (d : irq_data) (s : aic_state)
    (hsync : hw_enabled_is s.regs 0 (s.gc d.chip_data).wake_active) :
    hw_enabled_is (aic_resume d s).regs 0 (s.gc d.chip_data).mask_cache := by
  intro b hb
  have h := hsync b hb
  rw [Nat.zero_add] at h ⊢
  rw [aic_resume_imr, h]
  simp [hb]

theorem aic_suspend_gc (d : irq_data) (s : aic_state) : (aic_suspend d s).gc = s.gc := rfl

theorem aic_resume_gc (d : irq_data) (s : aic_state) : (aic_resume d s).gc = s.gc := rfl

/-- C1: for every mask cache `m` and wake-active set `w` of a chip group whose
hardware-enabled set is `m`, suspend followed by resume leaves the mask cache
equal to `m`, the wake-active set equal to `w` and the hardware-enabled set of
the group equal to `m`; on the flat variant (`aic_suspend`, `aic_resume`) and
on the indirected variant (`aic5_suspend`, `aic5_resume`, for a group that
lies within the 128 lines). -/
theorem suspend_resume_restores (d : irq_data) (s : aic_state) (m w : Nat)
    (hm : (s.gc d.chip_data).mask_cache = m) (hw : (s.gc d.chip_data).wake_active = w) :
    (hw_enabled_is s.regs 0 m →
      ((aic_resume d (aic_suspend d s)).gc d.chip_data).mask_cache = m ∧
      ((aic_resume d (aic_suspend d s)).gc d.chip_data).wake_active = w ∧
      hw_enabled_is (aic_resume d (aic_suspend d s)).regs 0 m) ∧
    ((s.gc d.chip_data).irq_base + 32 ≤ NR_AIC5_IRQS →
      hw_enabled_is s.regs (s.gc d.chip_data).irq_base m →
      ((aic5_resume d (aic5_suspend d s)).gc d.chip_data).mask_cache = m ∧
      ((aic5_resume d (aic5_suspend d s)).gc d.chip_data).wake_active = w ∧
      hw_enabled_is (aic5_resume d (aic5_suspend d s)).regs (s.gc d.chip_data).irq_base m) := by
  subst hm hw
  refine ⟨fun hsync => ⟨rfl, rfl, ?_⟩, fun h128 hsync => ?_⟩
  · have h1 := aic_suspend_enabled d s hsync
    have h2 := aic_resume_enabled d (aic_suspend d s) (by rw [aic_suspend_gc]; exact h1)
    rw [aic_suspend_gc] at h2
    exact h2
  · have h128 : (s.gc d.chip_data).irq_base + 32 ≤ 128 := h128
    have hgc : (aic5_suspend d s).gc = s.gc := (aic5_suspend_spec d s _ _ _ rfl rfl rfl h128).1
    have h1 := aic5_suspend_enabled d s h128 hsync
    have hgc2 : (aic5_resume d (aic5_suspend d s)).gc = s.gc :=
      ((aic5_resume_spec d (aic5_suspend d s) _ _ _ rfl rfl rfl (by rw [hgc]; exact h128)).1).trans hgc
    have h2 := aic5_resume_enabled d (aic5_suspend d s) (by rw [hgc]; exact h128)
      (by rw [hgc]; exact h1)
    rw [hgc] at h2
    rw [hgc2]
    exact ⟨rfl, rfl, h2⟩

/-- Witness of C1: group 0 of the scenario state (cache `{5}`, no wake line). -/
theorem suspend_resume_restores_witness :
    hw_enabled_is (scenario_state 3).regs 0 32 ∧
    hw_enabled_is (aic_resume (irq_get_irq_data 5)
      (aic_suspend (irq_get_irq_data 5) (scenario_state 3))).regs 0 32 ∧
    hw_enabled_is (aic5_resume (irq_get_irq_data 5)
      (aic5_suspend (irq_get_irq_data 5) (scenario_state 3))).regs 0 32 :=
  ⟨by decide,
   ((suspend_resume_restores (irq_get_irq_data 5) (scenario_state 3) 32 0 rfl rfl).1
      (by decide)).2.2,
   ((suspend_resume_restores (irq_get_irq_data 5) (scenario_state 3) 32 0 rfl rfl).2
      (by decide) (by decide)).2.2⟩

/-! ## The scenario of the specification -/

/-- Suspending the three groups of the scenario leaves exactly line 40 enabled
and no cache changed. -/
theorem scenario_suspended :
    (aic5_suspend (irq_get_irq_data 64) (aic5_suspend (irq_get_irq_data 32)
      (aic5_suspend (irq_get_irq_data 0) (scenario_state 3)))).gc = (scenario_state 3).gc ∧
    ∀ n, (aic5_suspend (irq_get_irq_data 64) (aic5_suspend (irq_get_irq_data 32)
      (aic5_suspend (irq_get_irq_data 0) (scenario_state 3)))).regs.imr n = decide (n = 40) := by
  obtain ⟨g0, -, i0⟩ := aic5_suspend_spec (irq_get_irq_data 0) (scenario_state 3) 0 (1 <<< 5) 0
    rfl rfl rfl (by decide)
  generalize aic5_suspend (irq_get_irq_data 0) (scenario_state 3) = s1 at g0 i0 ⊢
  obtain ⟨g1, -, i1⟩ := aic5_suspend_spec (irq_get_irq_data 32) s1 32 (1 <<< 8) (1 <<< 8)
    (by rw [g0]; rfl) (by rw [g0]; rfl) (by rw [g0]; rfl) (by decide)
  generalize aic5_suspend (irq_get_irq_data 32) s1 = s2 at g1 i1 ⊢
  obtain ⟨g2, -, i2⟩ := aic5_suspend_spec (irq_get_irq_data 64) s2 64 (1 <<< 6) 0
    (by rw [g1, g0]; rfl) (by rw [g1, g0]; rfl) (by rw [g1, g0]; rfl) (by decide)
  refine ⟨by rw [g2, g1, g0], fun n => ?_⟩
  rw [i2, i1, i0]
  simp only [scenario_state, aic_regs_reset, Nat.one_shiftLeft, Nat.testBit_two_pow,
    Nat.zero_testBit]
  by_cases h5 : n = 5
  · subst h5; decide
  by_cases h40 : n = 40
  · subst h40; decide
  by_cases h70 : n = 70
  · subst h70; decide
  simp [h5, h40, h70]

/-- Resuming the three groups from a state in which exactly line 40 is enabled
and the caches are those of the scenario enables exactly lines 5, 40 and 70. -/
theorem scenario_resumed (s3 : aic_state) (hgc : s3.gc = (scenario_state 3).gc)
    (himr : ∀ n, s3.regs.imr n = decide (n = 40)) :
    ∀ n, (aic5_resume (irq_get_irq_data 64) (aic5_resume (irq_get_irq_data 32)
      (aic5_resume (irq_get_irq_data 0) s3))).regs.imr n = decide (n = 5 ∨ n = 40 ∨ n = 70) := by
  obtain ⟨g0, -, i0⟩ := aic5_resume_spec (irq_get_irq_data 0) s3 0 (1 <<< 5) 0
    (by rw [hgc]; rfl) (by rw [hgc]; rfl) (by rw [hgc]; rfl) (by decide)
  generalize aic5_resume (irq_get_irq_data 0) s3 = s1 at g0 i0 ⊢
  obtain ⟨g1, -, i1⟩ := aic5_resume_spec (irq_get_irq_data 32) s1 32 (1 <<< 8) (1 <<< 8)
    (by rw [g0, hgc]; rfl) (by rw [g0, hgc]; rfl) (by rw [g0, hgc]; rfl) (by decide)
  generalize aic5_resume (irq_get_irq_data 32) s1 = s2 at g1 i1 ⊢
  obtain ⟨-, -, i2⟩ := aic5_resume_spec (irq_get_irq_data 64) s2 64 (1 <<< 6) 0
    (by rw [g1, g0, hgc]; rfl) (by rw [g1, g0, hgc]; rfl) (by rw [g1, g0, hgc]; rfl)
    (by decide)
  intro n
  rw [i2, i1, i0, himr]
  simp only [Nat.one_shiftLeft, Nat.testBit_two_pow, Nat.zero_testBit]
  by_cases h5 : n = 5
  · subst h5; decide
  by_cases h40 : n = 40
  · subst h40; decide
  by_cases h70 : n = 70
  · subst h70; decide
  simp [h5, h40, h70]
  split_ifs <;> omega

/-- C2 (the claim as stated fails): a controller of 64 lines has the groups 0
and 1 only, and line 70 belongs to group 2, so no mask cache of the controller
holds it. With lines 5, 40 and 70 enabled in hardware, the caches of groups 0
and 1 in agreement with the hardware and line 40 wake-active, suspending both
groups of the controller leaves line 70 enabled: the enabled set is not {40}. -/
theorem scenario_64_lines_keeps_line_70 :
    (irq_get_irq_data 70).chip_data = 2 ∧
    hw_enabled_is (scenario_state 2).regs 0 ((scenario_state 2).gc 0).mask_cache ∧
    hw_enabled_is (scenario_state 2).regs 32 ((scenario_state 2).gc 1).mask_cache ∧
    (aic5_suspend (irq_get_irq_data 32)
      (aic5_suspend (irq_get_irq_data 0) (scenario_state 2))).regs.imr 70 = true ∧
    ¬ (∀ n, (aic5_suspend (irq_get_irq_data 32)
      (aic5_suspend (irq_get_irq_data 0) (scenario_state 2))).regs.imr n = decide (n = 40)) := by
  have key : (aic5_suspend (irq_get_irq_data 32)
      (aic5_suspend (irq_get_irq_data 0) (scenario_state 2))).regs.imr 70 = true := by
    obtain ⟨g0, -, i0⟩ := aic5_suspend_spec (irq_get_irq_data 0) (scenario_state 2) 0
      (1 <<< 5) 0 rfl rfl rfl (by decide)
    generalize aic5_suspend (irq_get_irq_data 0) (scenario_state 2) = s1 at g0 i0 ⊢
    obtain ⟨-, -, i1⟩ := aic5_suspend_spec (irq_get_irq_data 32) s1 32 (1 <<< 8) (1 <<< 8)
      (by rw [g0]; rfl) (by rw [g0]; rfl) (by rw [g0]; rfl) (by decide)
    rw [i1, i0]
    decide
  refine ⟨rfl, by decide, by decide, key, fun h => ?_⟩
  rw [h 70] at key
  exact absurd key (by decide)

/-- C2 (as amended): for every mask cache `m` and wake-active set `w` of a chip
group whose hardware-enabled set is `m`, after suspend the hardware-enabled
set of the group is exactly `w`, on both variants. Scenario with 96 lines (3
groups), wake-active {40} and mask caches {5, 40, 70}: after suspending the
three groups the enabled set is {40}, after resuming them it is {5, 40, 70}. -/
theorem suspend_enables_exactly_wake (d : irq_data) (s : aic_state) (m w : Nat)
    (hm : (s.gc d.chip_data).mask_cache = m) (hw : (s.gc d.chip_data).wake_active = w) :
    (hw_enabled_is s.regs 0 m → hw_enabled_is (aic_suspend d s).regs 0 w) ∧
    ((s.gc d.chip_data).irq_base + 32 ≤ NR_AIC5_IRQS →
      hw_enabled_is s.regs (s.gc d.chip_data).irq_base m →
      hw_enabled_is (aic5_suspend d s).regs (s.gc d.chip_data).irq_base w) ∧
    (∀ n, (aic5_suspend (irq_get_irq_data 64) (aic5_suspend (irq_get_irq_data 32)
      (aic5_suspend (irq_get_irq_data 0) (scenario_state 3)))).regs.imr n = decide (n = 40)) ∧
    (∀ n, (aic5_resume (irq_get_irq_data 64) (aic5_resume (irq_get_irq_data 32)
      (aic5_resume (irq_get_irq_data 0)
        (aic5_suspend (irq_get_irq_data 64) (aic5_suspend (irq_get_irq_data 32)
          (aic5_suspend (irq_get_irq_data 0) (scenario_state 3))))))).regs.imr n
      = decide (n = 5 ∨ n = 40 ∨ n = 70)) := by
  subst hm hw
  exact ⟨aic_suspend_enabled d s, fun h128 hsync => aic5_suspend_enabled d s h128 hsync,
    scenario_suspended.2, scenario_resumed _ scenario_suspended.1 scenario_suspended.2⟩

/-- Witness of C2: group 0 of the scenario state (cache `{5}`, no wake line);
after suspend no line of the group is enabled. -/
theorem suspend_enables_exactly_wake_witness :
    hw_enabled_is (scenario_state 3).regs 0 32 ∧
    hw_enabled_is (aic_suspend (irq_get_irq_data 5) (scenario_state 3)).regs 0 0 ∧
    hw_enabled_is (aic5_suspend (irq_get_irq_data 5) (scenario_state 3)).regs 0 0 :=
  ⟨by decide,
   (suspend_enables_exactly_wake (irq_get_irq_data 5) (scenario_state 3) 32 0 rfl rfl).1
     (by decide),
   (suspend_enables_exactly_wake (irq_get_irq_data 5) (scenario_state 3) 32 0 rfl rfl).2.1
     (by decide) (by decide)⟩

/-! ## Mask and unmask on the indirected variant -/

/-- C3 (the code at a failing input): from the reset state, `aic5_mask` then
`aic5_unmask` of line 69 (group 2, bit 5) leaves the line enabled in hardware,
but bit 5 of the mask cache of group 2 is clear: the bit was set in the cache
of group 0 instead. -/
theorem aic5_mask_unmask_line_69 :
    (irq_get_irq_data 69).chip_data = 2 ∧ (irq_get_irq_data 69).mask = 1 <<< 5 ∧
    (aic5_unmask (irq_get_irq_data 69)
      (aic5_mask (irq_get_irq_data 69) aic_state_reset)).regs.imr 69 = true ∧
    ((aic5_unmask (irq_get_irq_data 69)
      (aic5_mask (irq_get_irq_data 69) aic_state_reset)).gc 2).mask_cache.testBit 5 = false ∧
    ((aic5_unmask (irq_get_irq_data 69)
      (aic5_mask (irq_get_irq_data 69) aic_state_reset)).gc 0).mask_cache.testBit 5 = true := by
  decide

/-- C4 (the code at a failing input): the reset state satisfies the invariant,
and one `aic5_unmask` of line 69 breaks it: the line is enabled while its bit
in the cache of group 2 is clear, and bit 5 of the cache of group 0 is set
while line 5 is disabled. -/
theorem aic5_unmask_breaks_cache_sync :
    mask_cache_in_sync aic_state_reset ∧
    ¬ mask_cache_in_sync (aic5_unmask (irq_get_irq_data 69) aic_state_reset) ∧
    (aic5_unmask (irq_get_irq_data 69) aic_state_reset).regs.imr 69 = true ∧
    ((aic5_unmask (irq_get_irq_data 69) aic_state_reset).gc 2).mask_cache.testBit 5 = false ∧
    ((aic5_unmask (irq_get_irq_data 69) aic_state_reset).gc 0).mask_cache.testBit 5 = true ∧
    (aic5_unmask (irq_get_irq_data 69) aic_state_reset).regs.imr 5 = false := by
  decide

/-! ## Sense configuration -/

/-- The bit of line `L` meets the external-IRQ bitmask exactly when bit
`L % 32` of the bitmask is set. -/
theorem line_mask_land_ne_zero (L e : Nat) :
    ((irq_get_irq_data L).mask &&& e ≠ 0) ↔ e.testBit (L % 32) = true :=
  one_shiftLeft_land_ne_zero (L % 32) e

/-- What `aic_to_srctype` returns, case by case. -/
theorem aic_to_srctype_eq (L type : Nat) (s : aic_state) :
    aic_to_srctype (irq_get_irq_data L) type s =
      if type = IRQ_TYPE_LEVEL_HIGH then 64
      else if type = IRQ_TYPE_EDGE_RISING then 96
      else if type = IRQ_TYPE_LEVEL_LOW then
        if (s.gc (L / 32)).priv.ext_irqs.testBit (L % 32) = true then 0 else -22
      else if type = IRQ_TYPE_EDGE_FALLING then
        if (s.gc (L / 32)).priv.ext_irqs.testBit (L % 32) = true then 32 else -22
      else -22 := by
  unfold aic_to_srctype
  simp only [line_mask_land_ne_zero]
  rfl

theorem aic_hw_read_smr (L : Nat) (r : aic_regs) (hL : L < 32) :
    aic_hw_read (AT91_AIC_SMR L) r = r.smr L := by
  unfold aic_hw_read
  simp only [AT91_AIC_SMR, AT91_AIC_IVR, AT91_AIC_ISR, AT91_AIC_IMR, AT91_AIC_SPU, AT91_AIC_DCR]
  rw [if_neg (by omega), if_neg (by omega), if_neg (by omega), if_neg (by omega),
    if_neg (by omega), if_pos ⟨by omega, by omega⟩, Nat.mul_div_cancel L (by decide)]

theorem aic_hw_write_smr (L v : Nat) (r : aic_regs) (hL : L < 32) :
    aic_hw_write v (AT91_AIC_SMR L) r = { r with smr := upd r.smr L v } := by
  unfold aic_hw_write
  simp only [AT91_AIC_SMR, AT91_AIC_IECR, AT91_AIC_IDCR, AT91_AIC_ISCR, AT91_AIC_ICCR,
    AT91_AIC_EOICR, AT91_AIC_SPU, AT91_AIC_DCR]
  repeat rw [if_neg (by omega)]
  rw [if_pos ⟨by omega, by omega⟩, Nat.mul_div_cancel L (by decide)]

/-- The mode register of line `L` after an accepted `aic_set_type`. -/
theorem aic_set_type_accept (L type enc : Nat) (s : aic_state) (hL : L < 32)
    (h : aic_to_srctype (irq_get_irq_data L) type s = (enc : Int)) :
    (aic_set_type (irq_get_irq_data L) type s).1 = 0 ∧
    (aic_set_type (irq_get_irq_data L) type s).2.regs.smr L =
      (u32 (s.regs.smr L) &&& not32 AT91_AIC_SRCTYPE) ||| enc := by
  unfold aic_set_type
  simp only [h]
  rw [if_neg (by omega)]
  simp [irq_reg_readl, irq_reg_writel, irq_get_irq_data, aic_hw_read_smr _ _ hL,
    aic_hw_write_smr _ _ _ hL, upd]

/-- The mode register of line `L` after an accepted `aic5_set_type`. -/
theorem aic5_set_type_accept (L type enc : Nat) (s : aic_state) (hL : L < 128)
    (h : aic_to_srctype (irq_get_irq_data L) type s = (enc : Int)) :
    (aic5_set_type (irq_get_irq_data L) type s).1 = 0 ∧
    (aic5_set_type (irq_get_irq_data L) type s).2.regs.smr L =
      (u32 (s.regs.smr L) &&& not32 AT91_AIC_SRCTYPE) ||| enc := by
  unfold aic5_set_type
  simp only [h]
  rw [if_neg (by omega)]
  simp [irq_reg_readl, irq_reg_writel, irq_get_irq_data, aic5_hw_read, aic5_hw_write,
    AT91_AIC5_SSR, AT91_AIC5_SMR, land_intsel_of_lt _ hL, upd]

theorem testBit_u32 (v i : Nat) : (u32 v).testBit i = (decide (i < 32) && v.testBit i) := by
  have h : u32 v = v % 2 ^ 32 := rfl
  rw [h, Nat.testBit_mod_two_pow]

theorem testBit_not32_srctype (i : Nat) :
    (not32 AT91_AIC_SRCTYPE).testBit i = (decide (i < 32) && !(decide (i = 5) || decide (i = 6))) := by
  have h : not32 AT91_AIC_SRCTYPE = (2 ^ 32 - 1) ^^^ (2 ^ 5 ||| 2 ^ 6) := by decide
  rw [h, Nat.testBit_xor, Nat.testBit_two_pow_sub_one, Nat.testBit_or, Nat.testBit_two_pow,
    Nat.testBit_two_pow]
  by_cases h5 : i = 5
  · subst h5; decide
  by_cases h6 : i = 6
  · subst h6; decide
  have h5' : ¬ 5 = i := fun h => h5 h.symm
  have h6' : ¬ 6 = i := fun h => h6 h.symm
  simp [h5, h6, h5', h6']

theorem testBit_srctype_code (enc i : Nat) (henc : enc = 0 ∨ enc = 32 ∨ enc = 64 ∨ enc = 96)
    (h5 : i ≠ 5) (h6 : i ≠ 6) : enc.testBit i = false := by
  have h5' : ¬ 5 = i := fun h => h5 h.symm
  have h6' : ¬ 6 = i := fun h => h6 h.symm
  rcases henc with rfl | rfl | rfl | rfl
  · simp
  · have h : (32 : Nat) = 2 ^ 5 := by decide
    rw [h, Nat.testBit_two_pow]; simp [h5']
  · have h : (64 : Nat) = 2 ^ 6 := by decide
    rw [h, Nat.testBit_two_pow]; simp [h6']
  · have h : (96 : Nat) = 2 ^ 5 ||| 2 ^ 6 := by decide
    rw [h, Nat.testBit_or, Nat.testBit_two_pow, Nat.testBit_two_pow]; simp [h5', h6']

/-- The value `(v & ~AT91_AIC_SRCTYPE) | enc` written by `set_type`: bits 5 and
6 are those of the sense code, every other bit of the 32-bit register is the
one of `v`. -/
theorem srctype_field_bits (v enc : Nat) (henc : enc = 0 ∨ enc = 32 ∨ enc = 64 ∨ enc = 96) :
    ((u32 v &&& not32 AT91_AIC_SRCTYPE) ||| enc = (v &&& 0xFFFFFF9F) ||| enc) ∧
    (∀ i, i < 32 → i ≠ 5 → i ≠ 6 →
      ((u32 v &&& not32 AT91_AIC_SRCTYPE) ||| enc).testBit i = v.testBit i) ∧
    ((u32 v &&& not32 AT91_AIC_SRCTYPE) ||| enc).testBit 5 = enc.testBit 5 ∧
    ((u32 v &&& not32 AT91_AIC_SRCTYPE) ||| enc).testBit 6 = enc.testBit 6 ∧
    ((u32 v &&& not32 AT91_AIC_SRCTYPE) ||| enc) &&& AT91_AIC_PRIOR = v &&& AT91_AIC_PRIOR := by
  have hbits : ∀ i, i < 32 → i ≠ 5 → i ≠ 6 →
      ((u32 v &&& not32 AT91_AIC_SRCTYPE) ||| enc).testBit i = v.testBit i := by
    intro i hi h5 h6
    rw [Nat.testBit_or, Nat.testBit_and, testBit_u32, testBit_not32_srctype,
      testBit_srctype_code enc i henc h5 h6]
    simp [hi, h5, h6]
  refine ⟨?_, hbits, ?_, ?_, ?_⟩
  · have h : not32 AT91_AIC_SRCTYPE = 0xFFFFFF9F := by decide
    apply Nat.eq_of_testBit_eq
    intro i
    rw [Nat.testBit_or, Nat.testBit_or, Nat.testBit_and, Nat.testBit_and, testBit_u32, ← h,
      testBit_not32_srctype]
    cases v.testBit i <;> cases decide (i < 32) <;> simp
  · rw [Nat.testBit_or, Nat.testBit_and, testBit_not32_srctype]
    simp
  · rw [Nat.testBit_or, Nat.testBit_and, testBit_not32_srctype]
    simp
  · apply Nat.eq_of_testBit_eq
    intro i
    have hp : AT91_AIC_PRIOR = 2 ^ 3 - 1 := by decide
    rw [Nat.testBit_and, Nat.testBit_and, hp, Nat.testBit_two_pow_sub_one]
    by_cases hi : i < 3
    · rw [hbits i (by omega) (by omega) (by omega)]
    · simp [hi]

/-- C5: for every line `L` whose bit is not set in the external-IRQ bitmask of
its group, `set_type` with level-low and with edge-falling returns `-EINVAL`
on both variants and leaves the whole state as it was: no register is written
or read, so the mode register of the line and every other register is
unchanged. -/
theorem set_type_rejects_low_and_falling (L : Nat) (s : aic_state)
    (hext : (s.gc (L / 32)).priv.ext_irqs.testBit (L % 32) = false) :
    aic_set_type (irq_get_irq_data L) IRQ_TYPE_LEVEL_LOW s = (-EINVAL, s) ∧
    aic_set_type (irq_get_irq_data L) IRQ_TYPE_EDGE_FALLING s = (-EINVAL, s) ∧
    aic5_set_type (irq_get_irq_data L) IRQ_TYPE_LEVEL_LOW s = (-EINVAL, s) ∧
    aic5_set_type (irq_get_irq_data L) IRQ_TYPE_EDGE_FALLING s = (-EINVAL, s) := by
  have h1 : aic_to_srctype (irq_get_irq_data L) IRQ_TYPE_LEVEL_LOW s = -22 := by
    rw [aic_to_srctype_eq]
    simp [hext, IRQ_TYPE_LEVEL_LOW, IRQ_TYPE_LEVEL_HIGH, IRQ_TYPE_EDGE_RISING]
  have h2 : aic_to_srctype (irq_get_irq_data L) IRQ_TYPE_EDGE_FALLING s = -22 := by
    rw [aic_to_srctype_eq]
    simp [hext, IRQ_TYPE_LEVEL_LOW, IRQ_TYPE_LEVEL_HIGH, IRQ_TYPE_EDGE_RISING,
      IRQ_TYPE_EDGE_FALLING]
  refine ⟨?_, ?_, ?_, ?_⟩
  · unfold aic_set_type
    simp only [h1]
    rfl
  · unfold aic_set_type
    simp only [h2]
    rfl
  · unfold aic5_set_type
    simp only [h1]
    rfl
  · unfold aic5_set_type
    simp only [h2]
    rfl

/-- Witness of C5: line 69 of the reset controller, which has no external line. -/
theorem set_type_rejects_low_and_falling_witness :
    aic_set_type (irq_get_irq_data 69) IRQ_TYPE_LEVEL_LOW aic_state_reset
      = (-EINVAL, aic_state_reset) ∧
    aic_set_type (irq_get_irq_data 69) IRQ_TYPE_EDGE_FALLING aic_state_reset
      = (-EINVAL, aic_state_reset) ∧
    aic5_set_type (irq_get_irq_data 69) IRQ_TYPE_LEVEL_LOW aic_state_reset
      = (-EINVAL, aic_state_reset) ∧
    aic5_set_type (irq_get_irq_data 69) IRQ_TYPE_EDGE_FALLING aic_state_reset
      = (-EINVAL, aic_state_reset) :=
  set_type_rejects_low_and_falling 69 aic_state_reset (by decide)

/-- C6: for every line `L`, every prior mode-register value and every accepted
sense (level-low and edge-falling on an external line, level-high and
edge-rising on any line) with its code `enc` (`0 << 5`, `1 << 5`, `2 << 5`,
`3 << 5`), `set_type` returns 0 and leaves the mode register of `L` equal to
the prior value with bits 5..6 cleared, or-ed with `enc`; the priority bits
and all bits outside 5..6 are preserved. Flat variant for the lines below 32,
indirected variant for the lines below 128. -/
theorem set_type_writes_sense_field (L type enc : Nat) (s : aic_state)
    (henc :
      (type = IRQ_TYPE_LEVEL_LOW ∧ enc = 0 <<< 5 ∧
        (s.gc (L / 32)).priv.ext_irqs.testBit (L % 32) = true) ∨
      (type = IRQ_TYPE_EDGE_FALLING ∧ enc = 1 <<< 5 ∧
        (s.gc (L / 32)).priv.ext_irqs.testBit (L % 32) = true) ∨
      (type = IRQ_TYPE_LEVEL_HIGH ∧ enc = 2 <<< 5) ∨
      (type = IRQ_TYPE_EDGE_RISING ∧ enc = 3 <<< 5)) :
    (L < NR_AIC_IRQS →
      (aic_set_type (irq_get_irq_data L) type s).1 = 0 ∧
      sense_field_set (s.regs.smr L) enc
        ((aic_set_type (irq_get_irq_data L) type s).2.regs.smr L)) ∧
    (L < NR_AIC5_IRQS →
      (aic5_set_type (irq_get_irq_data L) type s).1 = 0 ∧
      sense_field_set (s.regs.smr L) enc
        ((aic5_set_type (irq_get_irq_data L) type s).2.regs.smr L)) := by
  have hsrc : aic_to_srctype (irq_get_irq_data L) type s = (enc : Int) ∧
      (enc = 0 ∨ enc = 32 ∨ enc = 64 ∨ enc = 96) := by
    rw [aic_to_srctype_eq]
    rcases henc with ⟨ht, he, hx⟩ | ⟨ht, he, hx⟩ | ⟨ht, he⟩ | ⟨ht, he⟩
    · subst ht he
      simp [hx, IRQ_TYPE_LEVEL_LOW, IRQ_TYPE_LEVEL_HIGH, IRQ_TYPE_EDGE_RISING]
    · subst ht he
      simp [hx, IRQ_TYPE_LEVEL_LOW, IRQ_TYPE_LEVEL_HIGH, IRQ_TYPE_EDGE_RISING,
        IRQ_TYPE_EDGE_FALLING]
    · subst ht he
      simp [IRQ_TYPE_LEVEL_HIGH]
    · subst ht he
      simp [IRQ_TYPE_LEVEL_HIGH, IRQ_TYPE_EDGE_RISING]
  obtain ⟨hs, hv⟩ := hsrc
  have hb := srctype_field_bits (s.regs.smr L) enc hv
  constructor
  · intro hL
    obtain ⟨r0, r1⟩ := aic_set_type_accept L type enc s hL hs
    refine ⟨r0, ?_⟩
    unfold sense_field_set
    rw [r1]
    exact hb
  · intro hL
    obtain ⟨r0, r1⟩ := aic5_set_type_accept L type enc s hL hs
    refine ⟨r0, ?_⟩
    unfold sense_field_set
    rw [r1]
    exact hb

/-- Witness of C6: edge-rising on line 5 of a controller whose mode registers
hold `0x47`; the register of line 5 becomes `0x67` on both variants. -/
theorem set_type_writes_sense_field_witness :
    (aic_set_type (irq_get_irq_data 5) IRQ_TYPE_EDGE_RISING mode_demo_state).1 = 0 ∧
    sense_field_set 0x47 (3 <<< 5)
      ((aic_set_type (irq_get_irq_data 5) IRQ_TYPE_EDGE_RISING mode_demo_state).2.regs.smr 5) ∧
    (aic5_set_type (irq_get_irq_data 5) IRQ_TYPE_EDGE_RISING mode_demo_state).1 = 0 ∧
    sense_field_set 0x47 (3 <<< 5)
      ((aic5_set_type (irq_get_irq_data 5) IRQ_TYPE_EDGE_RISING mode_demo_state).2.regs.smr 5) ∧
    (aic5_set_type (irq_get_irq_data 5) IRQ_TYPE_EDGE_RISING mode_demo_state).2.regs.smr 5
      = 0x67 :=
  ⟨((set_type_writes_sense_field 5 IRQ_TYPE_EDGE_RISING (3 <<< 5) mode_demo_state
      (Or.inr (Or.inr (Or.inr ⟨rfl, rfl⟩)))).1 (by decide)).1,
   ((set_type_writes_sense_field 5 IRQ_TYPE_EDGE_RISING (3 <<< 5) mode_demo_state
      (Or.inr (Or.inr (Or.inr ⟨rfl, rfl⟩)))).1 (by decide)).2,
   ((set_type_writes_sense_field 5 IRQ_TYPE_EDGE_RISING (3 <<< 5) mode_demo_state
      (Or.inr (Or.inr (Or.inr ⟨rfl, rfl⟩)))).2 (by decide)).1,
   ((set_type_writes_sense_field 5 IRQ_TYPE_EDGE_RISING (3 <<< 5) mode_demo_state
      (Or.inr (Or.inr (Or.inr ⟨rfl, rfl⟩)))).2 (by decide)).2,
   by decide⟩

/-- C7: `set_type` on line `L` succeeds (returns 0) if and only if the sense is
level-high or edge-rising, or it is level-low or edge-falling and the bit of
`L` is set in the external-IRQ bitmask of its group; in every other case, in
particular for every other sense value whatever the bitmask is, it returns
`-EINVAL`. Both variants. -/
theorem set_type_succeeds_iff (L type : Nat) (s : aic_state) :
    ((aic_set_type (irq_get_irq_data L) type s).1 = 0 ↔
      (type = IRQ_TYPE_LEVEL_HIGH ∨ type = IRQ_TYPE_EDGE_RISING ∨
        ((type = IRQ_TYPE_LEVEL_LOW ∨ type = IRQ_TYPE_EDGE_FALLING) ∧
          (s.gc (L / 32)).priv.ext_irqs.testBit (L % 32) = true))) ∧
    ((aic_set_type (irq_get_irq_data L) type s).1 = -EINVAL ↔
      ¬ (type = IRQ_TYPE_LEVEL_HIGH ∨ type = IRQ_TYPE_EDGE_RISING ∨
        ((type = IRQ_TYPE_LEVEL_LOW ∨ type = IRQ_TYPE_EDGE_FALLING) ∧
          (s.gc (L / 32)).priv.ext_irqs.testBit (L % 32) = true))) ∧
    ((aic5_set_type (irq_get_irq_data L) type s).1 = 0 ↔
      (type = IRQ_TYPE_LEVEL_HIGH ∨ type = IRQ_TYPE_EDGE_RISING ∨
        ((type = IRQ_TYPE_LEVEL_LOW ∨ type = IRQ_TYPE_EDGE_FALLING) ∧
          (s.gc (L / 32)).priv.ext_irqs.testBit (L % 32) = true))) ∧
    ((aic5_set_type (irq_get_irq_data L) type s).1 = -EINVAL ↔
      ¬ (type = IRQ_TYPE_LEVEL_HIGH ∨ type = IRQ_TYPE_EDGE_RISING ∨
        ((type = IRQ_TYPE_LEVEL_LOW ∨ type = IRQ_TYPE_EDGE_FALLING) ∧
          (s.gc (L / 32)).priv.ext_irqs.testBit (L % 32) = true))) := by
  have h := aic_to_srctype_eq L type s
  unfold aic_set_type aic5_set_type
  simp only [h, IRQ_TYPE_LEVEL_HIGH, IRQ_TYPE_EDGE_RISING, IRQ_TYPE_LEVEL_LOW,
    IRQ_TYPE_EDGE_FALLING, EINVAL]
  by_cases h4 : type = 4
  · subst h4; simp
  by_cases h1 : type = 1
  · subst h1; simp
  by_cases h8 : type = 8
  · subst h8
    cases hx : (s.gc (L / 32)).priv.ext_irqs.testBit (L % 32) <;> simp
  by_cases h2 : type = 2
  · subst h2
    cases hx : (s.gc (L / 32)).priv.ext_irqs.testBit (L % 32) <;> simp
  simp [h4, h1, h8, h2]

/-! ## Shutdown of a line -/

/-- The walk over a mux slot touches neither the controller registers nor the
chips, and appends to the log accesses to other devices only, with one write
per sub-source, in list order. -/
theorem aic_mux_disable_irqs_spec (l : List aic_mux_irq) (s : aic_state) :
    (aic_mux_disable_irqs l s).regs = s.regs ∧ (aic_mux_disable_irqs l s).gc = s.gc ∧
    ∃ evs, (aic_mux_disable_irqs l s).log = s.log ++ evs ∧
      mux_write_addrs evs = l.map (fun irq => irq.base + irq.offset) ∧
      reg_write_count evs = 0 := by
  induction l generalizing s with
  | nil => exact ⟨rfl, rfl, [], by simp [aic_mux_disable_irqs], rfl, rfl⟩
  | cons irq rest ih =>
    unfold aic_mux_disable_irqs
    by_cases ht : irq.type = aic_mux_irq_type.AIC_MUX_1REG_IRQ
    · simp only [ht, if_true]
      obtain ⟨hr, hg, evs, hl, ha, hc⟩ := ih
        (writel ((readl (irq.base + irq.offset) s).1 &&& not32 irq.mask)
          (irq.base + irq.offset) (readl (irq.base + irq.offset) s).2)
      refine ⟨hr, hg, io_event.readl (irq.base + irq.offset) ::
        io_event.writel ((readl (irq.base + irq.offset) s).1 &&& not32 irq.mask)
          (irq.base + irq.offset) :: evs, ?_, ?_, ?_⟩
      · rw [hl]; simp [writel, readl]
      · simp [mux_write_addrs, ha]
      · simp [reg_write_count, hc]
    · simp only [ht, if_false]
      obtain ⟨hr, hg, evs, hl, ha, hc⟩ := ih (writel irq.mask (irq.base + irq.offset) s)
      refine ⟨hr, hg, io_event.writel irq.mask (irq.base + irq.offset) :: evs, ?_, ?_, ?_⟩
      · rw [hl]; simp [writel]
      · simp [mux_write_addrs, ha]
      · simp [reg_write_count, hc]

/-- The walk over a slot of one clear-bits source followed by one write-mask
source: a read and a write for the first, a write for the second. -/
theorem aic_mux_disable_irqs_pair (S1 S2 : aic_mux_irq) (s : aic_state)
    (h1 : S1.type = aic_mux_irq_type.AIC_MUX_1REG_IRQ)
    (h2 : S2.type = aic_mux_irq_type.AIC_MUX_3REG_IRQ) :
    aic_mux_disable_irqs [S1, S2] s =
      { s with
        mem := upd (upd s.mem (S1.base + S1.offset)
          (u32 (s.mem (S1.base + S1.offset)) &&& not32 S1.mask))
          (S2.base + S2.offset) S2.mask
        log := s.log ++ [io_event.readl (S1.base + S1.offset),
          io_event.writel (u32 (s.mem (S1.base + S1.offset)) &&& not32 S1.mask)
            (S1.base + S1.offset),
          io_event.writel S2.mask (S2.base + S2.offset)] } := by
  simp [aic_mux_disable_irqs, h1, h2, readl, writel]

/-- Effect of `aic5_mask` on the registers, the memory and the log. -/
theorem aic5_mask_effect (d : irq_data) (s : aic_state) :
    (aic5_mask d s).regs.imr = upd s.regs.imr (d.hwirq &&& AT91_AIC5_INTSEL_MSK) false ∧
    (aic5_mask d s).mem = s.mem ∧
    (aic5_mask d s).log = s.log ++ [io_event.irq_reg_writel d.hwirq AT91_AIC5_SSR,
      io_event.irq_reg_writel 1 AT91_AIC5_IDCR] := by
  refine ⟨?_, rfl, ?_⟩
  · unfold aic5_mask
    exact aic5_select_disable_imr d.hwirq s
  · simp [aic5_mask]

/-- Effect of `irq_gc_mask_disable_reg` on the registers, the memory and the log. -/
theorem irq_gc_mask_disable_reg_effect (d : irq_data) (s : aic_state) :
    (irq_gc_mask_disable_reg d s).regs.imr =
      (fun n => s.regs.imr n && !(decide (n < 32) && d.mask.testBit n)) ∧
    (irq_gc_mask_disable_reg d s).mem = s.mem ∧
    (irq_gc_mask_disable_reg d s).log = s.log ++ [io_event.irq_reg_writel d.mask AT91_AIC_IDCR] := by
  refine ⟨?_, rfl, ?_⟩
  · simp [irq_gc_mask_disable_reg, irq_reg_writel, aic_hw_write, AT91_AIC_IDCR, AT91_AIC_IECR]
  · simp [irq_gc_mask_disable_reg]

/-- C8: for every line `L` whose mux slot is `[S1, S2]` with `S1` of kind
clear-bits and `S2` of kind write-mask on distinct registers, `aic_shutdown`
leaves the register of `S1` equal to its old value and-ed with the complement
of `S1.mask`, the register of `S2` equal to `S2.mask` and line `L` disabled,
and the accesses it issues are, in order, those for `S1`, the write for `S2`
and the write(s) that mask the line (indirected variant with `aic5_mask`, flat
variant with `irq_gc_mask_disable_reg`). For every slot, the writes to the
sub-sources come in list order, one per sub-source, and all of them before
the write that masks the line. -/
theorem shutdown_disables_sources_then_line (L : Nat) (s : aic_state) (S1 S2 : aic_mux_irq)
    (hslot : (s.gc (L / 32)).priv.mux (L % 32) = [S1, S2])
    (h1 : S1.type = aic_mux_irq_type.AIC_MUX_1REG_IRQ)
    (h2 : S2.type = aic_mux_irq_type.AIC_MUX_3REG_IRQ)
    (hne : S1.base + S1.offset ≠ S2.base + S2.offset) :
    (L < NR_AIC5_IRQS →
      (aic_shutdown aic5_mask (irq_get_irq_data L) s).mem (S1.base + S1.offset)
        = u32 (s.mem (S1.base + S1.offset)) &&& not32 S1.mask ∧
      (aic_shutdown aic5_mask (irq_get_irq_data L) s).mem (S2.base + S2.offset) = S2.mask ∧
      (aic_shutdown aic5_mask (irq_get_irq_data L) s).regs.imr L = false ∧
      (aic_shutdown aic5_mask (irq_get_irq_data L) s).log = s.log ++
        [io_event.readl (S1.base + S1.offset),
         io_event.writel (u32 (s.mem (S1.base + S1.offset)) &&& not32 S1.mask)
           (S1.base + S1.offset),
         io_event.writel S2.mask (S2.base + S2.offset),
         io_event.irq_reg_writel L AT91_AIC5_SSR,
         io_event.irq_reg_writel 1 AT91_AIC5_IDCR]) ∧
    (L < NR_AIC_IRQS →
      (aic_shutdown irq_gc_mask_disable_reg (irq_get_irq_data L) s).mem (S1.base + S1.offset)
        = u32 (s.mem (S1.base + S1.offset)) &&& not32 S1.mask ∧
      (aic_shutdown irq_gc_mask_disable_reg (irq_get_irq_data L) s).mem (S2.base + S2.offset)
        = S2.mask ∧
      (aic_shutdown irq_gc_mask_disable_reg (irq_get_irq_data L) s).regs.imr L = false ∧
      (aic_shutdown irq_gc_mask_disable_reg (irq_get_irq_data L) s).log = s.log ++
        [io_event.readl (S1.base + S1.offset),
         io_event.writel (u32 (s.mem (S1.base + S1.offset)) &&& not32 S1.mask)
           (S1.base + S1.offset),
         io_event.writel S2.mask (S2.base + S2.offset),
         io_event.irq_reg_writel (1 <<< (L % 32)) AT91_AIC_IDCR]) ∧
    (∀ (L0 : Nat) (s0 : aic_state), ∃ evs,
      mux_write_addrs evs =
        ((s0.gc (L0 / 32)).priv.mux (L0 % 32)).map (fun irq => irq.base + irq.offset) ∧
      reg_write_count evs = 0 ∧
      (aic_shutdown aic5_mask (irq_get_irq_data L0) s0).log = s0.log ++ evs ++
        [io_event.irq_reg_writel L0 AT91_AIC5_SSR, io_event.irq_reg_writel 1 AT91_AIC5_IDCR] ∧
      (aic_shutdown irq_gc_mask_disable_reg (irq_get_irq_data L0) s0).log = s0.log ++ evs ++
        [io_event.irq_reg_writel (1 <<< (L0 % 32)) AT91_AIC_IDCR]) := by
  have hsd : ∀ f, aic_shutdown f (irq_get_irq_data L) s =
      f (irq_get_irq_data L) (aic_mux_disable_irqs [S1, S2] s) := by
    intro f
    unfold aic_shutdown
    simp only [irq_get_irq_data, hslot]
  refine ⟨fun hL => ?_, fun hL => ?_, fun L0 s0 => ?_⟩
  · obtain ⟨e1, e2, e3⟩ := aic5_mask_effect (irq_get_irq_data L) (aic_mux_disable_irqs [S1, S2] s)
    rw [hsd, e1, e2, e3, aic_mux_disable_irqs_pair S1 S2 s h1 h2]
    have hsel : (irq_get_irq_data L).hwirq &&& AT91_AIC5_INTSEL_MSK = L :=
      land_intsel_of_lt L hL
    rw [hsel]
    refine ⟨?_, ?_, ?_, ?_⟩
    · simp [upd, hne]
    · simp [upd]
    · simp [upd]
    · simp [irq_get_irq_data]
  · obtain ⟨e1, e2, e3⟩ := irq_gc_mask_disable_reg_effect (irq_get_irq_data L)
      (aic_mux_disable_irqs [S1, S2] s)
    rw [hsd, e1, e2, e3, aic_mux_disable_irqs_pair S1 S2 s h1 h2]
    have hL32 : L < 32 := hL
    refine ⟨?_, ?_, ?_, ?_⟩
    · simp [upd, hne]
    · simp [upd]
    · simp [irq_get_irq_data, Nat.one_shiftLeft, Nat.testBit_two_pow, hL32,
        Nat.mod_eq_of_lt hL32]
    · simp [irq_get_irq_data]
  · obtain ⟨-, -, evs, hl, ha, hc⟩ :=
      aic_mux_disable_irqs_spec ((s0.gc (L0 / 32)).priv.mux (L0 % 32)) s0
    refine ⟨evs, ha, hc, ?_, ?_⟩
    · have e := (aic5_mask_effect (irq_get_irq_data L0)
        (aic_mux_disable_irqs ((s0.gc (L0 / 32)).priv.mux (L0 % 32)) s0)).2.2
      unfold aic_shutdown
      simp only [irq_get_irq_data] at e ⊢
      rw [e, hl]
    · have e := (irq_gc_mask_disable_reg_effect (irq_get_irq_data L0)
        (aic_mux_disable_irqs ((s0.gc (L0 / 32)).priv.mux (L0 % 32)) s0)).2.2
      unfold aic_shutdown
      simp only [irq_get_irq_data] at e ⊢
      rw [e, hl]

/-- Witness of C8: line 1 of the demo controller; the register at `0x1014`
goes from `0xff` to `0xfb`, the one at `0x2024` becomes `0x10`. -/
theorem shutdown_disables_sources_then_line_witness :
    (aic_shutdown aic5_mask (irq_get_irq_data 1) mux_demo_state).mem 0x1014 = 0xfb ∧
    (aic_shutdown aic5_mask (irq_get_irq_data 1) mux_demo_state).mem 0x2024 = 0x10 ∧
    (aic_shutdown aic5_mask (irq_get_irq_data 1) mux_demo_state).regs.imr 1 = false ∧
    (aic_shutdown aic5_mask (irq_get_irq_data 1) mux_demo_state).log =
      [io_event.readl 0x1014, io_event.writel 0xfb 0x1014, io_event.writel 0x10 0x2024,
       io_event.irq_reg_writel 1 AT91_AIC5_SSR, io_event.irq_reg_writel 1 AT91_AIC5_IDCR] ∧
    (aic_shutdown irq_gc_mask_disable_reg (irq_get_irq_data 1) mux_demo_state).log =
      [io_event.readl 0x1014, io_event.writel 0xfb 0x1014, io_event.writel 0x10 0x2024,
       io_event.irq_reg_writel 2 AT91_AIC_IDCR] :=
  ⟨((shutdown_disables_sources_then_line 1 mux_demo_state _ _ rfl rfl rfl (by decide)).1
      (by decide)).1,
   ((shutdown_disables_sources_then_line 1 mux_demo_state _ _ rfl rfl rfl (by decide)).1
      (by decide)).2.1,
   ((shutdown_disables_sources_then_line 1 mux_demo_state _ _ rfl rfl rfl (by decide)).1
      (by decide)).2.2.1,
   ((shutdown_disables_sources_then_line 1 mux_demo_state _ _ rfl rfl rfl (by decide)).1
      (by decide)).2.2.2,
   ((shutdown_disables_sources_then_line 1 mux_demo_state _ _ rfl rfl rfl (by decide)).2.1
      (by decide)).2.2.2⟩

/-! ## Dispatch -/

theorem reg_write_count_append (a b : List io_event) :
    reg_write_count (a ++ b) = reg_write_count a + reg_write_count b := by
  induction a with
  | nil => simp [reg_write_count]
  | cons e rest ih =>
    cases e <;> simp [reg_write_count, ih]
    omega

theorem handler_calls_append (a b : List io_event) :
    handler_calls (a ++ b) = handler_calls a ++ handler_calls b := by
  induction a with
  | nil => simp [handler_calls]
  | cons e rest ih =>
    cases e <;> simp [handler_calls, ih]

/-- The log of `aic_handle`, by the value that the status register reads. -/
theorem aic_handle_log (f : Nat → Nat) (s : aic_state) :
    (aic_handle f s).log = s.log ++
      [io_event.irq_reg_readl AT91_AIC_IVR, io_event.irq_reg_readl AT91_AIC_ISR,
       if u32 s.regs.isr = 0 then io_event.irq_reg_writel 0 AT91_AIC_EOICR
       else io_event.handle_IRQ (f (u32 s.regs.ivr))] ∧
    (aic_handle f s).regs.eoi = if u32 s.regs.isr = 0 then s.regs.eoi + 1 else s.regs.eoi := by
  unfold aic_handle
  by_cases h : u32 s.regs.isr = 0 <;>
    simp [h, irq_reg_readl, irq_reg_writel, handle_IRQ, aic_hw_read, aic_hw_write, AT91_AIC_IVR,
      AT91_AIC_ISR, AT91_AIC_EOICR, AT91_AIC_IECR, AT91_AIC_IDCR, AT91_AIC_ISCR, AT91_AIC_ICCR]

/-- The log of `aic5_handle`, by the value that the status register reads. -/
theorem aic5_handle_log (f : Nat → Nat) (s : aic_state) :
    (aic5_handle f s).log = s.log ++
      [io_event.irq_reg_readl AT91_AIC5_IVR, io_event.irq_reg_readl AT91_AIC5_ISR,
       if u32 s.regs.isr = 0 then io_event.irq_reg_writel 0 AT91_AIC5_EOICR
       else io_event.handle_IRQ (f (u32 s.regs.ivr))] ∧
    (aic5_handle f s).regs.eoi = if u32 s.regs.isr = 0 then s.regs.eoi + 1 else s.regs.eoi := by
  unfold aic5_handle
  by_cases h : u32 s.regs.isr = 0 <;>
    simp [h, irq_reg_readl, irq_reg_writel, handle_IRQ, aic5_hw_read, aic5_hw_write,
      AT91_AIC5_IVR, AT91_AIC5_ISR, AT91_AIC5_EOICR, AT91_AIC5_IECR, AT91_AIC5_IDCR,
      AT91_AIC5_ISCR, AT91_AIC5_ICCR, AT91_AIC5_SSR, AT91_AIC5_SMR, AT91_AIC5_SVR]

/-- C9: whatever the vector register reads, when the status register reads
zero the dispatch routine (`aic_handle`, `aic5_handle`) reads the vector and
the status register and then performs exactly one register write, of 0 to the
end-of-interrupt register; it does not call the line handler. -/
theorem spurious_dispatch_one_eoi (f : Nat → Nat) (s : aic_state)
    (hstat : u32 s.regs.isr = 0) :
    (aic_handle f s).log = s.log ++
      [io_event.irq_reg_readl AT91_AIC_IVR, io_event.irq_reg_readl AT91_AIC_ISR,
       io_event.irq_reg_writel 0 AT91_AIC_EOICR] ∧
    reg_write_count (aic_handle f s).log = reg_write_count s.log + 1 ∧
    handler_calls (aic_handle f s).log = handler_calls s.log ∧
    (aic_handle f s).regs.eoi = s.regs.eoi + 1 ∧
    (aic5_handle f s).log = s.log ++
      [io_event.irq_reg_readl AT91_AIC5_IVR, io_event.irq_reg_readl AT91_AIC5_ISR,
       io_event.irq_reg_writel 0 AT91_AIC5_EOICR] ∧
    reg_write_count (aic5_handle f s).log = reg_write_count s.log + 1 ∧
    handler_calls (aic5_handle f s).log = handler_calls s.log ∧
    (aic5_handle f s).regs.eoi = s.regs.eoi + 1 := by
  obtain ⟨a1, a2⟩ := aic_handle_log f s
  obtain ⟨b1, b2⟩ := aic5_handle_log f s
  rw [if_pos hstat] at a1 a2 b1 b2
  refine ⟨a1, ?_, ?_, a2, b1, ?_, ?_, b2⟩
  · rw [a1, reg_write_count_append]; rfl
  · rw [a1, handler_calls_append]; simp [handler_calls]
  · rw [b1, reg_write_count_append]; rfl
  · rw [b1, handler_calls_append]; simp [handler_calls]

/-- Witness of C9: vector 69 with a status register that reads zero. -/
theorem spurious_dispatch_one_eoi_witness :
    (aic_handle (fun n => n + 16) (dispatch_demo_state 0)).log =
      [io_event.irq_reg_readl AT91_AIC_IVR, io_event.irq_reg_readl AT91_AIC_ISR,
       io_event.irq_reg_writel 0 AT91_AIC_EOICR] ∧
    (aic5_handle (fun n => n + 16) (dispatch_demo_state 0)).log =
      [io_event.irq_reg_readl AT91_AIC5_IVR, io_event.irq_reg_readl AT91_AIC5_ISR,
       io_event.irq_reg_writel 0 AT91_AIC5_EOICR] :=
  ⟨(spurious_dispatch_one_eoi (fun n => n + 16) (dispatch_demo_state 0) (by decide)).1,
   (spurious_dispatch_one_eoi (fun n => n + 16) (dispatch_demo_state 0)
     (by decide)).2.2.2.2.1⟩

/-- C10: for every vector value `N` read while the status register reads a
non-zero value, the dispatch routine (`aic_handle`, `aic5_handle`) calls the
line handler exactly once, with the line `irq_find_mapping N` that the reverse
map assigns to `N`, and performs no register write: it issues no
end-of-interrupt command itself. -/
theorem dispatch_calls_handler_once (f : Nat → Nat) (s : aic_state)
    (hstat : u32 s.regs.isr ≠ 0) :
    (aic_handle f s).log = s.log ++
      [io_event.irq_reg_readl AT91_AIC_IVR, io_event.irq_reg_readl AT91_AIC_ISR,
       io_event.handle_IRQ (f (u32 s.regs.ivr))] ∧
    handler_calls (aic_handle f s).log = handler_calls s.log ++ [f (u32 s.regs.ivr)] ∧
    reg_write_count (aic_handle f s).log = reg_write_count s.log ∧
    (aic_handle f s).regs.eoi = s.regs.eoi ∧
    (aic5_handle f s).log = s.log ++
      [io_event.irq_reg_readl AT91_AIC5_IVR, io_event.irq_reg_readl AT91_AIC5_ISR,
       io_event.handle_IRQ (f (u32 s.regs.ivr))] ∧
    handler_calls (aic5_handle f s).log = handler_calls s.log ++ [f (u32 s.regs.ivr)] ∧
    reg_write_count (aic5_handle f s).log = reg_write_count s.log ∧
    (aic5_handle f s).regs.eoi = s.regs.eoi := by
  obtain ⟨a1, a2⟩ := aic_handle_log f s
  obtain ⟨b1, b2⟩ := aic5_handle_log f s
  rw [if_neg hstat] at a1 a2 b1 b2
  refine ⟨a1, ?_, ?_, a2, b1, ?_, ?_, b2⟩
  · rw [a1, handler_calls_append]; simp [handler_calls]
  · rw [a1, reg_write_count_append]; rfl
  · rw [b1, handler_calls_append]; simp [handler_calls]
  · rw [b1, reg_write_count_append]; rfl

/-- Witness of C10: vector 69, the line of group 2, bit 5, with status 1 and a
reverse map that sends line `n` to `n + 16`: the handler is called once, for
the interrupt 85 that the map assigns to line 69, and no register is written. -/
theorem dispatch_calls_handler_once_witness :
    (irq_get_irq_data 69).chip_data = 2 ∧ (irq_get_irq_data 69).mask = 1 <<< 5 ∧
    handler_calls (aic5_handle (fun n => n + 16) (dispatch_demo_state 1)).log = [69 + 16] ∧
    reg_write_count (aic5_handle (fun n => n + 16) (dispatch_demo_state 1)).log = 0 ∧
    handler_calls (aic_handle (fun n => n + 16) (dispatch_demo_state 1)).log = [69 + 16] ∧
    reg_write_count (aic_handle (fun n => n + 16) (dispatch_demo_state 1)).log = 0 :=
  ⟨rfl, rfl,
   (dispatch_calls_handler_once (fun n => n + 16) (dispatch_demo_state 1)
     (by decide)).2.2.2.2.2.1,
   (dispatch_calls_handler_once (fun n => n + 16) (dispatch_demo_state 1)
     (by decide)).2.2.2.2.2.2.1,
   (dispatch_calls_handler_once (fun n => n + 16) (dispatch_demo_state 1) (by decide)).2.1,
   (dispatch_calls_handler_once (fun n => n + 16) (dispatch_demo_state 1) (by decide)).2.2.1⟩

/-! ## Terminal power-off -/

theorem aic5_pm_shutdown_step_eq (d : irq_data) (s : aic_state) (i : Nat)
    (hi : i + (s.gc d.chip_data).irq_base < 128) :
    (aic5_pm_shutdown_step d s i).gc = s.gc ∧
    (aic5_pm_shutdown_step d s i).regs.imr =
      upd s.regs.imr (i + (s.gc d.chip_data).irq_base) false ∧
    (aic5_pm_shutdown_step d s i).regs.ipr =
      upd s.regs.ipr (i + (s.gc d.chip_data).irq_base) false := by
  refine ⟨rfl, ?_, ?_⟩
  · simp [aic5_pm_shutdown_step, irq_reg_writel, aic5_hw_write, AT91_AIC5_IDCR, AT91_AIC5_IECR,
      AT91_AIC5_ICCR, AT91_AIC5_ISCR, AT91_AIC5_SSR, AT91_AIC5_SMR, AT91_AIC5_SVR,
      land_intsel_of_lt _ hi]
  · simp [aic5_pm_shutdown_step, irq_reg_writel, aic5_hw_write, AT91_AIC5_IDCR, AT91_AIC5_IECR,
      AT91_AIC5_ICCR, AT91_AIC5_ISCR, AT91_AIC5_SSR, AT91_AIC5_SMR, AT91_AIC5_SVR,
      land_intsel_of_lt _ hi]

theorem aic5_pm_shutdown_fold (d : irq_data) (s : aic_state) (base : Nat)
    (hb : (s.gc d.chip_data).irq_base = base) (h128 : base + 32 ≤ 128)
    (k : Nat) (hk : k ≤ 32) :
    ((List.range k).foldl (aic5_pm_shutdown_step d) s).gc = s.gc ∧
    (∀ n, ((List.range k).foldl (aic5_pm_shutdown_step d) s).regs.imr n =
      if base ≤ n ∧ n < base + k then false else s.regs.imr n) ∧
    (∀ n, ((List.range k).foldl (aic5_pm_shutdown_step d) s).regs.ipr n =
      if base ≤ n ∧ n < base + k then false else s.regs.ipr n) := by
  induction k with
  | zero =>
    refine ⟨rfl, fun n => ?_, fun n => ?_⟩
    · rw [if_neg (by omega)]; rfl
    · rw [if_neg (by omega)]; rfl
  | succ k ih =>
    obtain ⟨hgc, himr, hipr⟩ := ih (by omega)
    rw [List.range_succ, List.foldl_append]
    simp only [List.foldl_cons, List.foldl_nil]
    generalize (List.range k).foldl (aic5_pm_shutdown_step d) s = sk at hgc himr hipr
    have hi : k + (sk.gc d.chip_data).irq_base < 128 := by
      rw [hgc, hb]; omega
    obtain ⟨h1, h2, h3⟩ := aic5_pm_shutdown_step_eq d sk k hi
    rw [hgc, hb] at h2 h3
    refine ⟨h1.trans hgc, fun n => ?_, fun n => ?_⟩
    · rw [h2]
      unfold upd
      by_cases hn : n = k + base
      · rw [if_pos hn, if_pos (by omega)]
      · rw [if_neg hn, himr n]
        by_cases hc : base ≤ n ∧ n < base + k
        · rw [if_pos hc, if_pos (by omega)]
        · rw [if_neg hc, if_neg (by omega)]
    · rw [h3]
      unfold upd
      by_cases hn : n = k + base
      · rw [if_pos hn, if_pos (by omega)]
      · rw [if_neg hn, hipr n]
        by_cases hc : base ≤ n ∧ n < base + k
        · rw [if_pos hc, if_pos (by omega)]
        · rw [if_neg hc, if_neg (by omega)]

/-- C11: for every chip group and every prior state of the hardware, of the
mask cache and of the wake-active set, after the terminal power-off
(`aic_pm_shutdown` on the flat variant, `aic5_pm_shutdown` on the indirected
variant for a group within the 128 lines) each of the 32 lines of the group is
disabled and not pending, wake-active lines included. -/
theorem pm_shutdown_disables_and_clears (d : irq_data) (s : aic_state) :
    (∀ b, b < 32 → (aic_pm_shutdown d s).regs.imr b = false ∧
      (aic_pm_shutdown d s).regs.ipr b = false) ∧
    ((s.gc d.chip_data).irq_base + 32 ≤ NR_AIC5_IRQS → ∀ b, b < 32 →
      (aic5_pm_shutdown d s).regs.imr ((s.gc d.chip_data).irq_base + b) = false ∧
      (aic5_pm_shutdown d s).regs.ipr ((s.gc d.chip_data).irq_base + b) = false) := by
  constructor
  · intro b hb
    have h32 : (4294967295 : Nat).testBit b = true := by
      have h : (4294967295 : Nat) = 2 ^ 32 - 1 := by decide
      rw [h, Nat.testBit_two_pow_sub_one]
      simpa using hb
    constructor
    · simp [aic_pm_shutdown, irq_reg_writel, aic_hw_write, AT91_AIC_IDCR, AT91_AIC_IECR,
        AT91_AIC_ICCR, AT91_AIC_ISCR, hb, h32]
    · simp [aic_pm_shutdown, irq_reg_writel, aic_hw_write, AT91_AIC_IDCR, AT91_AIC_IECR,
        AT91_AIC_ICCR, AT91_AIC_ISCR, hb, h32]
  · intro h128 b hb
    obtain ⟨-, himr, hipr⟩ := aic5_pm_shutdown_fold d s _ rfl h128 32 (Nat.le_refl 32)
    have e : aic5_pm_shutdown d s = (List.range 32).foldl (aic5_pm_shutdown_step d) s := rfl
    rw [e, himr, hipr]
    exact ⟨if_pos (by omega), if_pos (by omega)⟩

/-- Witness of C11: group 1 of the scenario state, whose line 40 is enabled
and wake-active. -/
theorem pm_shutdown_disables_and_clears_witness :
    (scenario_state 3).regs.imr 40 = true ∧
    ((scenario_state 3).gc 1).wake_active.testBit 8 = true ∧
    ∀ b, b < 32 →
      (aic5_pm_shutdown (irq_get_irq_data 40) (scenario_state 3)).regs.imr (32 + b) = false ∧
      (aic5_pm_shutdown (irq_get_irq_data 40) (scenario_state 3)).regs.ipr (32 + b) = false :=
  ⟨by decide, by decide,
   (pm_shutdown_disables_and_clears (irq_get_irq_data 40) (scenario_state 3)).2 (by decide)⟩

/-! ## Retrigger -/

/-- C16: for every line `L`, `retrigger` returns 0, leaves every chip (mask
cache and wake-active set) and the enable, mode and vector state of every line
unchanged, and sets line `L` pending and nothing else: the flat variant (lines
below 32) writes the single-bit mask of `L` to the set-pending register, the
indirected variant (lines below 128) writes `L` to the select register and
then 1 to the set-pending register. -/
theorem retrigger_sets_pending (L : Nat) (s : aic_state) :
    (L < NR_AIC_IRQS →
      (aic_retrigger (irq_get_irq_data L) s).1 = 0 ∧
      (aic_retrigger (irq_get_irq_data L) s).2.gc = s.gc ∧
      (aic_retrigger (irq_get_irq_data L) s).2.regs =
        { s.regs with ipr := upd s.regs.ipr L true } ∧
      (aic_retrigger (irq_get_irq_data L) s).2.log =
        s.log ++ [io_event.irq_reg_writel (1 <<< L) AT91_AIC_ISCR]) ∧
    (L < NR_AIC5_IRQS →
      (aic5_retrigger (irq_get_irq_data L) s).1 = 0 ∧
      (aic5_retrigger (irq_get_irq_data L) s).2.gc = s.gc ∧
      (aic5_retrigger (irq_get_irq_data L) s).2.regs =
        { s.regs with ssr := L, ipr := upd s.regs.ipr L true } ∧
      (aic5_retrigger (irq_get_irq_data L) s).2.log =
        s.log ++ [io_event.irq_reg_writel L AT91_AIC5_SSR,
          io_event.irq_reg_writel 1 AT91_AIC5_ISCR]) := by
  constructor
  · intro hL
    have hL32 : L < 32 := hL
    have hmod : L % 32 = L := Nat.mod_eq_of_lt hL32
    refine ⟨rfl, rfl, ?_, ?_⟩
    · have hipr : (fun n => s.regs.ipr n || (decide (n < 32) && (1 <<< L).testBit n))
          = upd s.regs.ipr L true := by
        funext n
        unfold upd
        rw [Nat.one_shiftLeft, Nat.testBit_two_pow]
        by_cases hn : n = L
        · subst hn; simp [hL32]
        · have hn2 : ¬ L = n := fun h => hn h.symm
          simp [hn, hn2]
      simp [aic_retrigger, irq_get_irq_data, hmod, irq_reg_writel, aic_hw_write,
        AT91_AIC_ISCR, AT91_AIC_IECR, AT91_AIC_IDCR, -Nat.testBit_shiftLeft, hipr]
    · simp [aic_retrigger, irq_get_irq_data, hmod]
  · intro hL
    refine ⟨rfl, rfl, ?_, ?_⟩
    · simp [aic5_retrigger, irq_get_irq_data, irq_reg_writel, aic5_hw_write, AT91_AIC5_ISCR,
        AT91_AIC5_IECR, AT91_AIC5_IDCR, AT91_AIC5_SSR, AT91_AIC5_SMR, AT91_AIC5_SVR,
        land_intsel_of_lt L hL]
    · simp [aic5_retrigger, irq_get_irq_data]

/-- Witness of C16: line 5 of the reset controller. -/
theorem retrigger_sets_pending_witness :
    (aic_retrigger (irq_get_irq_data 5) aic_state_reset).2.log =
      [io_event.irq_reg_writel (1 <<< 5) AT91_AIC_ISCR] ∧
    (aic5_retrigger (irq_get_irq_data 5) aic_state_reset).2.log =
      [io_event.irq_reg_writel 5 AT91_AIC5_SSR, io_event.irq_reg_writel 1 AT91_AIC5_ISCR] ∧
    (aic5_retrigger (irq_get_irq_data 5) aic_state_reset).2.regs.ipr 5 = true ∧
    (aic5_retrigger (irq_get_irq_data 5) aic_state_reset).2.regs.ipr 6 = false :=
  ⟨((retrigger_sets_pending 5 aic_state_reset).1 (by decide)).2.2.2,
   ((retrigger_sets_pending 5 aic_state_reset).2 (by decide)).2.2.2,
   by decide, by decide⟩

/-! ## Binding header -/

/-- C17 (the code at its constants): the header writes `<` where a shift is
meant, so `AT91_AIC_LOW_TO_HIGH`, `AT91_AIC_HIGH_TO_LOW`, `AT91_AIC_HIGH`,
`AT91_AIC_LOW` evaluate to 0, 0, 1, 1 and the combined constant to 0; they are
not the sense codes 1, 2, 4, 8 and 3. Passed to `aic_to_srctype`, the value of
`AT91_AIC_HIGH` selects edge-rising and the value of `AT91_AIC_LOW_TO_HIGH` is
rejected. -/
theorem at91_aic_header_constants :
    AT91_AIC_LOW_TO_HIGH = 0 ∧ AT91_AIC_HIGH_TO_LOW = 0 ∧ AT91_AIC_HIGH = 1 ∧
    AT91_AIC_LOW = 1 ∧ AT91_AIC_LOW_TO_HIGH_OR_HIGH_TO_LOW = 0 ∧
    AT91_AIC_LOW_TO_HIGH ≠ IRQ_TYPE_EDGE_RISING ∧ AT91_AIC_HIGH_TO_LOW ≠ IRQ_TYPE_EDGE_FALLING ∧
    AT91_AIC_HIGH ≠ IRQ_TYPE_LEVEL_HIGH ∧ AT91_AIC_LOW ≠ IRQ_TYPE_LEVEL_LOW ∧
    aic_to_srctype (irq_get_irq_data 5) AT91_AIC_HIGH aic_state_reset
      = (AT91_AIC_SRCTYPE_RISING : Int) ∧
    aic_to_srctype (irq_get_irq_data 5) AT91_AIC_LOW_TO_HIGH aic_state_reset = -EINVAL := by
  decide

/-! ## Translation of a line identifier -/

/-- What `at91_aic_common_irq_domain_xlate` returns, by cases on the number of
cells and on the priority cell. -/
theorem at91_aic_common_irq_domain_xlate_eq (intspec : Nat → Nat) (intsize : Nat)
    (out : xlate_out) :
    at91_aic_common_irq_domain_xlate intspec intsize out =
      if intsize < 3 ∨ intspec 2 > 7 then (-EINVAL, out)
      else (0, { hwirq := intspec 0, type := intspec 1 &&& IRQ_TYPE_SENSE_MASK }) := by
  unfold at91_aic_common_irq_domain_xlate
  simp only [AT91_AIC_IRQ_MIN_PRIORITY, AT91_AIC_IRQ_MAX_PRIORITY, Nat.not_lt_zero, false_or]
  by_cases h1 : intsize < 3
  · simp [h1]
  · by_cases h2 : intspec 2 > 7
    · simp [h1, h2]
    · simp [h1, h2]

/-- C12: the translation (`at91_aic_common_irq_domain_xlate`, and
`aic_irq_domain_xlate` and `aic5_irq_domain_xlate` built on it) returns
`-EINVAL` when the identifier has fewer than 3 cells or its priority cell is
greater than 7, and then leaves the driver state as it was (no register
access). An identifier of at least 3 cells with a priority of at most 7 makes
the common routine return 0 with the output line number equal to cell 0 and the
output sense equal to cell 1 restricted to the sense mask; so does the
indirected routine on a domain with generic chips, and so does the flat routine
when moreover the line belongs to a chip of the domain. Each of the three
routines returns 0 in exactly these cases, and whenever one of them returns 0
the outputs are cell 0 and the masked cell 1. -/
theorem xlate_validates_identifier (dgc : Option irq_domain_chip_generic)
    (intspec : Nat → Nat) (intsize : Nat) (out : xlate_out) (s : aic_state) :
    (intsize < 3 ∨ intspec 2 > 7 →
      at91_aic_common_irq_domain_xlate intspec intsize out = (-EINVAL, out) ∧
      aic_irq_domain_xlate dgc intspec intsize out s = (-EINVAL, out, s) ∧
      aic5_irq_domain_xlate dgc intspec intsize out s = (-EINVAL, out, s)) ∧
    (3 ≤ intsize → intspec 2 ≤ 7 →
      at91_aic_common_irq_domain_xlate intspec intsize out =
        (0, { hwirq := intspec 0, type := intspec 1 &&& IRQ_TYPE_SENSE_MASK })) ∧
    ((at91_aic_common_irq_domain_xlate intspec intsize out).1 = 0 →
      (at91_aic_common_irq_domain_xlate intspec intsize out).2 =
        { hwirq := intspec 0, type := intspec 1 &&& IRQ_TYPE_SENSE_MASK }) ∧
    ((aic_irq_domain_xlate dgc intspec intsize out s).1 = 0 →
      (aic_irq_domain_xlate dgc intspec intsize out s).2.1 =
        { hwirq := intspec 0, type := intspec 1 &&& IRQ_TYPE_SENSE_MASK }) ∧
    ((aic5_irq_domain_xlate dgc intspec intsize out s).1 = 0 →
      (aic5_irq_domain_xlate dgc intspec intsize out s).2.1 =
        { hwirq := intspec 0, type := intspec 1 &&& IRQ_TYPE_SENSE_MASK }) ∧
    (∀ g, dgc = some g → 3 ≤ intsize → intspec 2 ≤ 7 →
      intspec 0 / g.irqs_per_chip < g.num_chips →
      (aic_irq_domain_xlate dgc intspec intsize out s).1 = 0 ∧
      (aic_irq_domain_xlate dgc intspec intsize out s).2.1 =
        { hwirq := intspec 0, type := intspec 1 &&& IRQ_TYPE_SENSE_MASK }) ∧
    (∀ g, dgc = some g → 3 ≤ intsize → intspec 2 ≤ 7 →
      (aic5_irq_domain_xlate dgc intspec intsize out s).1 = 0 ∧
      (aic5_irq_domain_xlate dgc intspec intsize out s).2.1 =
        { hwirq := intspec 0, type := intspec 1 &&& IRQ_TYPE_SENSE_MASK }) ∧
    ((at91_aic_common_irq_domain_xlate intspec intsize out).1 = 0 ↔
      3 ≤ intsize ∧ intspec 2 ≤ 7) ∧
    ((aic_irq_domain_xlate dgc intspec intsize out s).1 = 0 ↔
      ∃ g, dgc = some g ∧ 3 ≤ intsize ∧ intspec 2 ≤ 7 ∧
        intspec 0 / g.irqs_per_chip < g.num_chips) ∧
    ((aic5_irq_domain_xlate dgc intspec intsize out s).1 = 0 ↔
      ∃ g, dgc = some g ∧ 3 ≤ intsize ∧ intspec 2 ≤ 7) := by
  have hc := at91_aic_common_irq_domain_xlate_eq intspec intsize out
  have hne : ¬ (-EINVAL = (0 : Int)) := by decide
  by_cases hbad : intsize < 3 ∨ intspec 2 > 7
  · rw [if_pos hbad] at hc
    have hflat : aic_irq_domain_xlate dgc intspec intsize out s = (-EINVAL, out, s) := by
      cases dgc <;> simp [aic_irq_domain_xlate, hc, hne]
    have hind : aic5_irq_domain_xlate dgc intspec intsize out s = (-EINVAL, out, s) := by
      cases dgc <;> simp [aic5_irq_domain_xlate, hc, hne]
    have hfalse : 3 ≤ intsize → intspec 2 ≤ 7 → False := by
      intro h3 h7
      omega
    have hc0 : (at91_aic_common_irq_domain_xlate intspec intsize out).1 ≠ 0 := by
      rw [hc]; exact hne
    have hflat0 : (aic_irq_domain_xlate dgc intspec intsize out s).1 ≠ 0 := by
      rw [hflat]; exact hne
    have hind0 : (aic5_irq_domain_xlate dgc intspec intsize out s).1 ≠ 0 := by
      rw [hind]; exact hne
    have iff_common : (at91_aic_common_irq_domain_xlate intspec intsize out).1 = 0 ↔
        3 ≤ intsize ∧ intspec 2 ≤ 7 := by
      constructor
      · intro h
        exact absurd h hc0
      · intro h
        exact (hfalse h.1 h.2).elim
    have iff_flat : (aic_irq_domain_xlate dgc intspec intsize out s).1 = 0 ↔
        ∃ g, dgc = some g ∧ 3 ≤ intsize ∧ intspec 2 ≤ 7 ∧
          intspec 0 / g.irqs_per_chip < g.num_chips := by
      constructor
      · intro h
        exact absurd h hflat0
      · rintro ⟨g, -, h3, h7, -⟩
        exact (hfalse h3 h7).elim
    have iff_ind : (aic5_irq_domain_xlate dgc intspec intsize out s).1 = 0 ↔
        ∃ g, dgc = some g ∧ 3 ≤ intsize ∧ intspec 2 ≤ 7 := by
      constructor
      · intro h
        exact absurd h hind0
      · rintro ⟨g, -, h3, h7⟩
        exact (hfalse h3 h7).elim
    refine ⟨fun _ => ⟨hc, hflat, hind⟩, ?_, fun h => absurd h hc0, fun h => absurd h hflat0,
      fun h => absurd h hind0, ?_, ?_, iff_common, iff_flat, iff_ind⟩
    · intro h3 h7
      exact (hfalse h3 h7).elim
    · intro g _ h3 h7 _
      exact (hfalse h3 h7).elim
    · intro g _ h3 h7
      exact (hfalse h3 h7).elim
  · rw [if_neg hbad] at hc
    have h3 : 3 ≤ intsize := by omega
    have h7 : intspec 2 ≤ 7 := by omega
    have hflat_ok : ∀ g, dgc = some g → intspec 0 / g.irqs_per_chip < g.num_chips →
        (aic_irq_domain_xlate dgc intspec intsize out s).1 = 0 ∧
        (aic_irq_domain_xlate dgc intspec intsize out s).2.1 =
          { hwirq := intspec 0, type := intspec 1 &&& IRQ_TYPE_SENSE_MASK } := by
      intro g hg hidx
      have hidx2 : ¬ (intspec 0 / g.irqs_per_chip ≥ g.num_chips) := by omega
      rw [hg]
      simp [aic_irq_domain_xlate, hc, hidx2]
    have hflat_bad : ∀ g, dgc = some g → ¬ (intspec 0 / g.irqs_per_chip < g.num_chips) →
        (aic_irq_domain_xlate dgc intspec intsize out s).1 = -EINVAL := by
      intro g hg hidx
      have hidx2 : intspec 0 / g.irqs_per_chip ≥ g.num_chips := by omega
      rw [hg]
      simp [aic_irq_domain_xlate, hc, hidx2]
    have hind_ok : ∀ g, dgc = some g →
        (aic5_irq_domain_xlate dgc intspec intsize out s).1 = 0 ∧
        (aic5_irq_domain_xlate dgc intspec intsize out s).2.1 =
          { hwirq := intspec 0, type := intspec 1 &&& IRQ_TYPE_SENSE_MASK } := by
      intro g hg
      rw [hg]
      simp [aic5_irq_domain_xlate, hc]
    have hflat_none : dgc = none →
        (aic_irq_domain_xlate dgc intspec intsize out s).1 = -EINVAL := by
      intro hg
      rw [hg]
      simp [aic_irq_domain_xlate]
    have hind_none : dgc = none →
        (aic5_irq_domain_xlate dgc intspec intsize out s).1 = -EINVAL := by
      intro hg
      rw [hg]
      simp [aic5_irq_domain_xlate]
    have hflat_iff : (aic_irq_domain_xlate dgc intspec intsize out s).1 = 0 →
        ∃ g, dgc = some g ∧ intspec 0 / g.irqs_per_chip < g.num_chips := by
      intro h
      cases hd : dgc with
      | none => rw [hflat_none hd] at h; exact absurd h hne
      | some g =>
        by_cases hidx : intspec 0 / g.irqs_per_chip < g.num_chips
        · exact ⟨g, rfl, hidx⟩
        · rw [hflat_bad g hd hidx] at h; exact absurd h hne
    have hind_iff : (aic5_irq_domain_xlate dgc intspec intsize out s).1 = 0 →
        ∃ g, dgc = some g := by
      intro h
      cases hd : dgc with
      | none => rw [hind_none hd] at h; exact absurd h hne
      | some g => exact ⟨g, rfl⟩
    have iff_flat : (aic_irq_domain_xlate dgc intspec intsize out s).1 = 0 ↔
        ∃ g, dgc = some g ∧ 3 ≤ intsize ∧ intspec 2 ≤ 7 ∧
          intspec 0 / g.irqs_per_chip < g.num_chips := by
      constructor
      · intro h
        obtain ⟨g, hg, hidx⟩ := hflat_iff h
        exact ⟨g, hg, h3, h7, hidx⟩
      · rintro ⟨g, hg, -, -, hidx⟩
        exact (hflat_ok g hg hidx).1
    have iff_ind : (aic5_irq_domain_xlate dgc intspec intsize out s).1 = 0 ↔
        ∃ g, dgc = some g ∧ 3 ≤ intsize ∧ intspec 2 ≤ 7 := by
      constructor
      · intro h
        obtain ⟨g, hg⟩ := hind_iff h
        exact ⟨g, hg, h3, h7⟩
      · rintro ⟨g, hg, -, -⟩
        exact (hind_ok g hg).1
    refine ⟨fun h => absurd h hbad, fun _ _ => hc, fun _ => by rw [hc], ?_, ?_,
      fun g hg _ _ hidx => hflat_ok g hg hidx, fun g hg _ _ => hind_ok g hg,
      ⟨fun _ => ⟨h3, h7⟩, fun _ => by rw [hc]⟩, iff_flat, iff_ind⟩
    · intro h
      obtain ⟨g, hg, hidx⟩ := hflat_iff h
      exact (hflat_ok g hg hidx).2
    · intro h
      obtain ⟨g, hg⟩ := hind_iff h
      exact (hind_ok g hg).2

/-- Witness of C12: the identifier (5, 4, 3) cut to 2 cells is rejected by the
flat and by the indirected routine without any register access; with its 3
cells it is accepted by the common routine, by the flat routine on a controller
of 32 lines and by the indirected routine on a controller of 128 lines, each
time with return value 0, line 5 and sense 4. -/
theorem xlate_validates_identifier_witness :
    aic5_irq_domain_xlate (some { irqs_per_chip := 32, num_chips := 4 }) (cells [5, 4, 3]) 2
      { hwirq := 0, type := 0 } aic_state_reset
      = (-EINVAL, { hwirq := 0, type := 0 }, aic_state_reset) ∧
    at91_aic_common_irq_domain_xlate (cells [5, 4, 3]) 3 { hwirq := 0, type := 0 } =
      (0, { hwirq := cells [5, 4, 3] 0, type := cells [5, 4, 3] 1 &&& IRQ_TYPE_SENSE_MASK }) ∧
    (aic5_irq_domain_xlate (some { irqs_per_chip := 32, num_chips := 4 }) (cells [5, 4, 3]) 3
      { hwirq := 0, type := 0 } aic_state_reset).2.1 = { hwirq := 5, type := 4 } ∧
    aic_irq_domain_xlate (some { irqs_per_chip := 32, num_chips := 1 }) (cells [5, 4, 3]) 2
      { hwirq := 0, type := 0 } aic_state_reset
      = (-EINVAL, { hwirq := 0, type := 0 }, aic_state_reset) ∧
    ((aic_irq_domain_xlate (some { irqs_per_chip := 32, num_chips := 1 }) (cells [5, 4, 3]) 3
        { hwirq := 0, type := 0 } aic_state_reset).1 = 0 ∧
      (aic_irq_domain_xlate (some { irqs_per_chip := 32, num_chips := 1 }) (cells [5, 4, 3]) 3
        { hwirq := 0, type := 0 } aic_state_reset).2.1 =
        { hwirq := cells [5, 4, 3] 0, type := cells [5, 4, 3] 1 &&& IRQ_TYPE_SENSE_MASK }) ∧
    ((aic5_irq_domain_xlate (some { irqs_per_chip := 32, num_chips := 4 }) (cells [5, 4, 3]) 3
        { hwirq := 0, type := 0 } aic_state_reset).1 = 0 ∧
      (aic5_irq_domain_xlate (some { irqs_per_chip := 32, num_chips := 4 }) (cells [5, 4, 3]) 3
        { hwirq := 0, type := 0 } aic_state_reset).2.1 =
        { hwirq := cells [5, 4, 3] 0, type := cells [5, 4, 3] 1 &&& IRQ_TYPE_SENSE_MASK }) ∧
    (aic_irq_domain_xlate (some { irqs_per_chip := 32, num_chips := 1 }) (cells [5, 4, 3]) 3
      { hwirq := 0, type := 0 } aic_state_reset).2.1 = { hwirq := 5, type := 4 } :=
  ⟨((xlate_validates_identifier (some { irqs_per_chip := 32, num_chips := 4 }) (cells [5, 4, 3])
      2 { hwirq := 0, type := 0 } aic_state_reset).1 (Or.inl (by decide))).2.2,
   (xlate_validates_identifier none (cells [5, 4, 3]) 3 { hwirq := 0, type := 0 }
      aic_state_reset).2.1 (by decide) (by decide),
   (xlate_validates_identifier (some { irqs_per_chip := 32, num_chips := 4 }) (cells [5, 4, 3])
      3 { hwirq := 0, type := 0 } aic_state_reset).2.2.2.2.1 (by decide),
   ((xlate_validates_identifier (some { irqs_per_chip := 32, num_chips := 1 }) (cells [5, 4, 3])
      2 { hwirq := 0, type := 0 } aic_state_reset).1 (Or.inl (by decide))).2.1,
   (xlate_validates_identifier (some { irqs_per_chip := 32, num_chips := 1 }) (cells [5, 4, 3])
      3 { hwirq := 0, type := 0 } aic_state_reset).2.2.2.2.2.1
      { irqs_per_chip := 32, num_chips := 1 } rfl (by decide) (by decide) (by decide),
   (xlate_validates_identifier (some { irqs_per_chip := 32, num_chips := 4 }) (cells [5, 4, 3])
      3 { hwirq := 0, type := 0 } aic_state_reset).2.2.2.2.2.2.1
      { irqs_per_chip := 32, num_chips := 4 } rfl (by decide) (by decide),
   by decide⟩

/-- C13 (the code at a failing input): on the flat variant the identifier
(line 5, sense 4, priority 3) is accepted, but the register read and written
is the one at offset `0x4` (`AT91_AIC5_SMR`), the mode register of line 1, not
the one at offset `4 * 5`: the mode register of line 5 keeps priority 7 and
that of line 1 takes priority 3. The indirected variant stores the priority in
the mode register of line 5 and leaves that of line 1 alone. -/
theorem aic_irq_domain_xlate_writes_offset_4 :
    (aic_irq_domain_xlate (some { irqs_per_chip := 32, num_chips := 1 }) (cells [5, 4, 3]) 3
      { hwirq := 0, type := 0 } mode_demo_state).1 = 0 ∧
    (aic_irq_domain_xlate (some { irqs_per_chip := 32, num_chips := 1 }) (cells [5, 4, 3]) 3
      { hwirq := 0, type := 0 } mode_demo_state).2.2.log =
      [io_event.irq_reg_readl 0x4, io_event.irq_reg_writel 0x43 0x4] ∧
    AT91_AIC_SMR 5 = 0x14 ∧
    mode_demo_state.regs.smr 5 = 0x47 ∧ mode_demo_state.regs.smr 1 = 0x47 ∧
    (aic_irq_domain_xlate (some { irqs_per_chip := 32, num_chips := 1 }) (cells [5, 4, 3]) 3
      { hwirq := 0, type := 0 } mode_demo_state).2.2.regs.smr 5 = 0x47 ∧
    (aic_irq_domain_xlate (some { irqs_per_chip := 32, num_chips := 1 }) (cells [5, 4, 3]) 3
      { hwirq := 0, type := 0 } mode_demo_state).2.2.regs.smr 1 = 0x43 ∧
    (aic5_irq_domain_xlate (some { irqs_per_chip := 32, num_chips := 4 }) (cells [5, 4, 3]) 3
      { hwirq := 0, type := 0 } mode_demo_state).2.2.regs.smr 5 = 0x43 ∧
    (aic5_irq_domain_xlate (some { irqs_per_chip := 32, num_chips := 4 }) (cells [5, 4, 3]) 3
      { hwirq := 0, type := 0 } mode_demo_state).2.2.regs.smr 1 = 0x47 := by
  decide

/-- C14 (the code at a failing input): on an indirected controller of 128
lines the identifier (line 200, sense 4, priority 3) is accepted: the routine
returns 0 after writing 200 to the select register and 3 to the mode register,
which lands in the mode register of line 72. The flat routine rejects line 32
of a controller of 32 lines without any register access. -/
theorem aic5_irq_domain_xlate_accepts_line_200 :
    (aic5_irq_domain_xlate (some { irqs_per_chip := 32, num_chips := 4 }) (cells [200, 4, 3]) 3
      { hwirq := 0, type := 0 } aic_state_reset).1 = 0 ∧
    (aic5_irq_domain_xlate (some { irqs_per_chip := 32, num_chips := 4 }) (cells [200, 4, 3]) 3
      { hwirq := 0, type := 0 } aic_state_reset).2.2.log =
      [io_event.irq_reg_writel 200 AT91_AIC5_SSR, io_event.irq_reg_readl AT91_AIC5_SMR,
       io_event.irq_reg_writel 3 AT91_AIC5_SMR] ∧
    aic_state_reset.regs.smr 72 = 0 ∧
    (aic5_irq_domain_xlate (some { irqs_per_chip := 32, num_chips := 4 }) (cells [200, 4, 3]) 3
      { hwirq := 0, type := 0 } aic_state_reset).2.2.regs.smr 72 = 3 ∧
    (aic_irq_domain_xlate (some { irqs_per_chip := 32, num_chips := 1 }) (cells [32, 4, 3]) 3
      { hwirq := 0, type := 0 } aic_state_reset).1 = -EINVAL ∧
    (aic_irq_domain_xlate (some { irqs_per_chip := 32, num_chips := 1 }) (cells [32, 4, 3]) 3
      { hwirq := 0, type := 0 } aic_state_reset).2.2.log = [] := by
  decide

/-! ## Initialisation -/

/-- C15: when a controller is already registered (`aic_domain` is set),
`aic_common_of_init`, and `aic_of_init` and `aic5_of_init` that call it,
return `-EEXIST` and leave the driver as it was: the registered domain, the
controller state and the record of service calls are unchanged, so nothing was
mapped or allocated. -/
theorem init_rejects_registered_controller (node : device_node) (env : init_env)
    (ops : aic_kind) (maxirq : Nat) (drv : aic_driver)
    (hreg : drv.aic_domain.isSome = true) :
    aic_common_of_init node env ops maxirq drv = some (-EEXIST, drv) ∧
    aic_of_init node env drv = some (-EEXIST, drv) ∧
    aic5_of_init node env drv = some (-EEXIST, drv) := by
  have hc : ∀ k m, aic_common_of_init node env k m drv = some (-EEXIST, drv) := by
    intro k m
    unfold aic_common_of_init
    cases hd : drv.aic_domain with
    | none => rw [hd] at hreg; exact absurd hreg (by decide)
    | some dom => rfl
  have hne : ¬ (-EEXIST = (0 : Int)) := by decide
  refine ⟨hc ops maxirq, ?_, ?_⟩
  · unfold aic_of_init
    rw [hc]
    simp [hne]
  · unfold aic5_of_init
    rw [hc]
    simp [hne]

/-- Witness of C15: a first `aic5_of_init` on the fresh driver returns 0 and
registers the controller; a second one returns `-EEXIST` and changes nothing. -/
theorem init_rejects_registered_controller_witness :
    (aic5_of_init demo_node demo_env fresh_driver).map Prod.fst = some 0 ∧
    registered_driver.aic_domain.isSome = true ∧
    aic5_of_init demo_node demo_env registered_driver = some (-EEXIST, registered_driver) ∧
    aic_of_init demo_node demo_env registered_driver = some (-EEXIST, registered_driver) :=
  ⟨by decide, by decide,
   (init_rejects_registered_controller demo_node demo_env aic_kind.aic5 NR_AIC5_IRQS
     registered_driver (by decide)).2.2,
   (init_rejects_registered_controller demo_node demo_env aic_kind.aic NR_AIC_IRQS
     registered_driver (by decide)).2.1⟩

/-- The chip of a line in a domain of `n` generic chips of 32 lines. -/
theorem irq_get_domain_generic_chip_eq (dom : irq_domain) (n h : Nat)
    (hgc : dom.gc = some { irqs_per_chip := 32, num_chips := n }) :
    irq_get_domain_generic_chip dom h = if n ≤ h / 32 then none else some (h / 32) := by
  unfold irq_get_domain_generic_chip
  rw [hgc]

/-- One cell of `atmel,external-irqs`: bit `b` of group `g` is set by line `h`
exactly when `g` is a chip of the domain and `h` is line `32 * g + b`. -/
theorem aic_ext_irq_of_init_step_bit (dom : irq_domain) (n : Nat)
    (hgc : dom.gc = some { irqs_per_chip := 32, num_chips := n })
    (s : aic_state) (h g b : Nat) :
    ((aic_ext_irq_of_init_step dom s h).gc g).priv.ext_irqs.testBit b =
      ((s.gc g).priv.ext_irqs.testBit b || decide (g < n ∧ b < 32 ∧ 32 * g + b = h)) := by
  unfold aic_ext_irq_of_init_step
  rw [irq_get_domain_generic_chip_eq dom n h hgc]
  by_cases hn : n ≤ h / 32
  · rw [if_pos hn]
    have : ¬ (g < n ∧ b < 32 ∧ 32 * g + b = h) := by
      rintro ⟨h1, h2, h3⟩
      omega
    simp [this]
  · rw [if_neg hn]
    simp only [ext_irqs_or, upd]
    by_cases hg : g = h / 32
    · rw [if_pos hg]
      simp only [Nat.testBit_or, Nat.one_shiftLeft, Nat.testBit_two_pow]
      rw [← hg]
      congr 1
      by_cases hb : h % 32 = b
      · have : g < n ∧ b < 32 ∧ 32 * g + b = h := by
          refine ⟨by omega, by omega, by omega⟩
        simp [hb, this]
      · have : ¬ (g < n ∧ b < 32 ∧ 32 * g + b = h) := by
          rintro ⟨h1, h2, h3⟩
          omega
        simp [hb, this]
    · rw [if_neg hg]
      have : ¬ (g < n ∧ b < 32 ∧ 32 * g + b = h) := by
        rintro ⟨h1, h2, h3⟩
        omega
      simp [this]

/-- The loop over the cells of `atmel,external-irqs`. -/
theorem aic_ext_irq_of_init_fold_bit (dom : irq_domain) (n : Nat)
    (hgc : dom.gc = some { irqs_per_chip := 32, num_chips := n })
    (X : List Nat) (s : aic_state) (g b : Nat) :
    ((X.foldl (aic_ext_irq_of_init_step dom) s).gc g).priv.ext_irqs.testBit b =
      ((s.gc g).priv.ext_irqs.testBit b || decide (g < n ∧ b < 32 ∧ 32 * g + b ∈ X)) := by
  induction X generalizing s with
  | nil => simp
  | cons h rest ih =>
    rw [List.foldl_cons, ih, aic_ext_irq_of_init_step_bit dom n hgc]
    cases (s.gc g).priv.ext_irqs.testBit b
    · by_cases hg : g < n
      · by_cases hb : b < 32
        · by_cases hm : 32 * g + b = h
          · simp [hg, hb, hm]
          · simp [hg, hb, hm, List.mem_cons]
        · simp [hb]
      · simp [hg]
    · simp

/-- A line that is not below the line count is skipped: dropping such cells
from the list does not change the result of the loop. -/
theorem aic_ext_irq_of_init_fold_filter (dom : irq_domain) (n : Nat)
    (hgc : dom.gc = some { irqs_per_chip := 32, num_chips := n })
    (X : List Nat) (s : aic_state) :
    X.foldl (aic_ext_irq_of_init_step dom) s =
      (X.filter (fun h => decide (h < 32 * n))).foldl (aic_ext_irq_of_init_step dom) s := by
  induction X generalizing s with
  | nil => rfl
  | cons h rest ih =>
    by_cases hh : h < 32 * n
    · rw [List.filter_cons_of_pos (by simpa using hh), List.foldl_cons, List.foldl_cons, ih]
    · rw [List.filter_cons_of_neg (by simpa using hh), List.foldl_cons, ← ih]
      have hskip : aic_ext_irq_of_init_step dom s h = s := by
        unfold aic_ext_irq_of_init_step
        rw [irq_get_domain_generic_chip_eq dom n h hgc, if_pos (by omega)]
      rw [hskip]

/-- C20: on a controller of `n ≥ 1` chip groups (line count `32 * n`), starting
from all-zero external-IRQ bitmasks, `aic_ext_irq_of_init` with the list `X`
of line numbers returns with bit `b` of the bitmask of group `g` set if and
only if `g = 0` and `b = 0`, or `g` is a group of the controller and line
`32 * g + b` is in `X`. A listed line that is not below the line count is
skipped: it changes no bitmask, and the result is the one for the list without
such lines, so the other entries are still recorded. -/
theorem ext_irq_of_init_bitmask (aic_domain domain : irq_domain) (n : Nat) (s : aic_state)
    (hgc : aic_domain.gc = some { irqs_per_chip := 32, num_chips := n }) (hn : 0 < n)
    (hzero : ∀ g, (s.gc g).priv.ext_irqs = 0) :
    ∃ s', aic_ext_irq_of_init aic_domain domain s = some s' ∧
      (∀ g b, b < 32 →
        ((s'.gc g).priv.ext_irqs.testBit b = true ↔
          (g = 0 ∧ b = 0) ∨ (g < n ∧ 32 * g + b ∈ domain.of_node.external_irqs))) ∧
      (∀ g b, 32 ≤ b → (s'.gc g).priv.ext_irqs.testBit b = false) ∧
      (∀ h t, 32 * n ≤ h → aic_ext_irq_of_init_step aic_domain t h = t) ∧
      s' = (domain.of_node.external_irqs.filter (fun h => decide (h < 32 * n))).foldl
        (aic_ext_irq_of_init_step aic_domain) (ext_irqs_or 0 1 s) := by
  have h0 : irq_get_domain_generic_chip aic_domain 0 = some 0 := by
    rw [irq_get_domain_generic_chip_eq aic_domain n 0 hgc, if_neg (by omega)]
  have hinit : ∀ g b, ((ext_irqs_or 0 1 s).gc g).priv.ext_irqs.testBit b =
      decide (g = 0 ∧ b = 0) := by
    intro g b
    simp only [ext_irqs_or, upd]
    by_cases hg : g = 0
    · subst hg
      simp only [if_true, hzero, Nat.zero_or]
      by_cases hb : b = 0
      · subst hb; simp
      · have : Nat.testBit 1 b = false := by
          have h1 : (1 : Nat) = 2 ^ 0 := rfl
          rw [h1, Nat.testBit_two_pow]
          simp
          omega
        simp [hb, this]
    · simp [hg, hzero]
  refine ⟨domain.of_node.external_irqs.foldl (aic_ext_irq_of_init_step aic_domain)
    (ext_irqs_or 0 1 s), ?_, ?_, ?_, ?_, ?_⟩
  · unfold aic_ext_irq_of_init
    rw [h0]
  · intro g b hb
    rw [aic_ext_irq_of_init_fold_bit aic_domain n hgc, hinit]
    simp [hb]
  · intro g b hb
    rw [aic_ext_irq_of_init_fold_bit aic_domain n hgc, hinit]
    have h1 : ¬ b < 32 := by omega
    have h2 : ¬ b = 0 := by omega
    simp [h1, h2]
  · intro h t hh
    unfold aic_ext_irq_of_init_step
    rw [irq_get_domain_generic_chip_eq aic_domain n h hgc, if_pos (by omega)]
  · exact aic_ext_irq_of_init_fold_filter aic_domain n hgc _ _

/-- Witness of C20: a controller of 2 groups (64 lines) and the list
`[40, 200, 5]`: line 200 is skipped, group 0 ends with bits 0 and 5 (value 33)
and group 1 with bit 8 (value 256). -/
theorem ext_irq_of_init_bitmask_witness :
    (∃ s', aic_ext_irq_of_init (demo_domain 2) (demo_domain 2) aic_state_reset = some s' ∧
      (∀ g b, b < 32 →
        ((s'.gc g).priv.ext_irqs.testBit b = true ↔
          (g = 0 ∧ b = 0) ∨ (g < 2 ∧ 32 * g + b ∈ [40, 200, 5]))) ∧
      (∀ g b, 32 ≤ b → (s'.gc g).priv.ext_irqs.testBit b = false) ∧
      (∀ h t, 32 * 2 ≤ h → aic_ext_irq_of_init_step (demo_domain 2) t h = t) ∧
      s' = ([40, 200, 5].filter (fun h => decide (h < 32 * 2))).foldl
        (aic_ext_irq_of_init_step (demo_domain 2)) (ext_irqs_or 0 1 aic_state_reset)) ∧
    ((aic_ext_irq_of_init (demo_domain 2) (demo_domain 2) aic_state_reset).map
      (fun s' => ((s'.gc 0).priv.ext_irqs, (s'.gc 1).priv.ext_irqs, (s'.gc 2).priv.ext_irqs)))
      = some (33, 256, 0) :=
  ⟨ext_irq_of_init_bitmask (demo_domain 2) (demo_domain 2) 2 aic_state_reset rfl (by decide)
     (fun _ => rfl),
   by decide⟩

/-! ## The two variants of suspend and resume compared -/

/-- Resume on the indirected variant when the hardware-enabled set of the
group is already the mask cache. -/
theorem aic5_resume_enabled_of_mask (d : irq_data) (s : aic_state)
    (h128 : (s.gc d.chip_data).irq_base + 32 ≤ 128)
    (hsync : hw_enabled_is s.regs (s.gc d.chip_data).irq_base (s.gc d.chip_data).mask_cache) :
    hw_enabled_is (aic5_resume d s).regs (s.gc d.chip_data).irq_base
      (s.gc d.chip_data).mask_cache := by
  obtain ⟨-, -, h⟩ := aic5_resume_spec d s _ _ _ rfl rfl rfl h128
  intro b hb
  rw [h, Nat.add_sub_cancel_left]
  by_cases hmw : (s.gc d.chip_data).mask_cache.testBit b = (s.gc d.chip_data).wake_active.testBit b
  · rw [if_neg (by simp [hmw]), hsync b hb]
  · rw [if_pos ⟨by omega, by omega, hmw⟩]

/-- Resume on the flat variant when the hardware-enabled set is already the
mask cache. -/
theorem aic_resume_enabled_of_mask (d : irq_data) (s : aic_state)
    (hsync : hw_enabled_is s.regs 0 (s.gc d.chip_data).mask_cache) :
    hw_enabled_is (aic_resume d s).regs 0 (s.gc d.chip_data).mask_cache := by
  intro b hb
  have h := hsync b hb
  rw [Nat.zero_add] at h ⊢
  rw [aic_resume_imr, h]
  cases (s.gc d.chip_data).mask_cache.testBit b <;> simp [hb]

/-- C18: for a chip group with mask cache `m` and wake-active set `w` whose
hardware-enabled set is `m`, the suspend of the flat variant (two bulk writes,
lines 0..31) and the suspend of the indirected variant (loop over the 32 lines
of a group within the 128 lines) produce the same hardware-enabled set; so do
the two resume routines, both when they start from the enabled set `w` that
suspend leaves and when they start from the enabled set `m`. -/
theorem suspend_resume_variants_agree (d1 d2 : irq_data) (s1 s2 : aic_state) (m w : Nat)
    (hm1 : (s1.gc d1.chip_data).mask_cache = m) (hw1 : (s1.gc d1.chip_data).wake_active = w)
    (hm2 : (s2.gc d2.chip_data).mask_cache = m) (hw2 : (s2.gc d2.chip_data).wake_active = w)
    (h128 : (s2.gc d2.chip_data).irq_base + 32 ≤ NR_AIC5_IRQS) :
    (hw_enabled_is s1.regs 0 m → hw_enabled_is s2.regs (s2.gc d2.chip_data).irq_base m →
      ∀ b, b < 32 → (aic_suspend d1 s1).regs.imr (0 + b) =
        (aic5_suspend d2 s2).regs.imr ((s2.gc d2.chip_data).irq_base + b)) ∧
    (hw_enabled_is s1.regs 0 w → hw_enabled_is s2.regs (s2.gc d2.chip_data).irq_base w →
      ∀ b, b < 32 → (aic_resume d1 s1).regs.imr (0 + b) =
        (aic5_resume d2 s2).regs.imr ((s2.gc d2.chip_data).irq_base + b)) ∧
    (hw_enabled_is s1.regs 0 m → hw_enabled_is s2.regs (s2.gc d2.chip_data).irq_base m →
      ∀ b, b < 32 → (aic_resume d1 s1).regs.imr (0 + b) =
        (aic5_resume d2 s2).regs.imr ((s2.gc d2.chip_data).irq_base + b)) := by
  subst hm1 hw1
  have h128 : (s2.gc d2.chip_data).irq_base + 32 ≤ 128 := h128
  refine ⟨fun e1 e2 b hb => ?_, fun e1 e2 b hb => ?_, fun e1 e2 b hb => ?_⟩
  · rw [← hm2] at e2
    rw [aic_suspend_enabled d1 s1 e1 b hb, aic5_suspend_enabled d2 s2 h128 e2 b hb, hw2]
  · rw [← hw2] at e2
    rw [aic_resume_enabled d1 s1 e1 b hb, aic5_resume_enabled d2 s2 h128 e2 b hb, hm2]
  · rw [← hm2] at e2
    rw [aic_resume_enabled_of_mask d1 s1 e1 b hb, aic5_resume_enabled_of_mask d2 s2 h128 e2 b hb,
      hm2]

/-- Witness of C18: group 0 of the scenario state (cache `{5}`, no wake line)
on both variants. -/
theorem suspend_resume_variants_agree_witness :
    hw_enabled_is (scenario_state 3).regs 0 32 ∧
    ((scenario_state 3).gc (irq_get_irq_data 5).chip_data).irq_base = 0 ∧
    (∀ b, b < 32 → (aic_suspend (irq_get_irq_data 5) (scenario_state 3)).regs.imr (0 + b) =
      (aic5_suspend (irq_get_irq_data 5) (scenario_state 3)).regs.imr
        (((scenario_state 3).gc (irq_get_irq_data 5).chip_data).irq_base + b)) ∧
    (∀ b, b < 32 → (aic_resume (irq_get_irq_data 5) (scenario_state 3)).regs.imr (0 + b) =
      (aic5_resume (irq_get_irq_data 5) (scenario_state 3)).regs.imr
        (((scenario_state 3).gc (irq_get_irq_data 5).chip_data).irq_base + b)) :=
  ⟨by decide, by decide,
   (suspend_resume_variants_agree (irq_get_irq_data 5) (irq_get_irq_data 5) (scenario_state 3)
     (scenario_state 3) 32 0 rfl rfl rfl rfl (by decide)).1 (by decide) (by decide),
   (suspend_resume_variants_agree (irq_get_irq_data 5) (irq_get_irq_data 5) (scenario_state 3)
     (scenario_state 3) 32 0 rfl rfl rfl rfl (by decide)).2.2 (by decide) (by decide)⟩

/-! ## The writes of suspend and resume on the indirected variant -/

theorem aic5_suspend_step_log (d : irq_data) (s : aic_state) (i : Nat) :
    (aic5_suspend_step d s i).gc = s.gc ∧
    (aic5_suspend_step d s i).log = s.log ++
      (if (s.gc d.chip_data).mask_cache.testBit i = (s.gc d.chip_data).wake_active.testBit i
       then []
       else [io_event.irq_reg_writel (i + (s.gc d.chip_data).irq_base) AT91_AIC5_SSR,
             io_event.irq_reg_writel 1
               (if (s.gc d.chip_data).wake_active.testBit i = true then AT91_AIC5_IECR
                else AT91_AIC5_IDCR)]) := by
  unfold aic5_suspend_step
  simp only [one_shiftLeft_land_eq, one_shiftLeft_land_ne_zero]
  cases hm : (s.gc d.chip_data).mask_cache.testBit i <;>
    cases hw : (s.gc d.chip_data).wake_active.testBit i <;> simp

theorem aic5_resume_step_log (d : irq_data) (s : aic_state) (i : Nat) :
    (aic5_resume_step d s i).gc = s.gc ∧
    (aic5_resume_step d s i).log = s.log ++
      (if (s.gc d.chip_data).mask_cache.testBit i = (s.gc d.chip_data).wake_active.testBit i
       then []
       else [io_event.irq_reg_writel (i + (s.gc d.chip_data).irq_base) AT91_AIC5_SSR,
             io_event.irq_reg_writel 1
               (if (s.gc d.chip_data).mask_cache.testBit i = true then AT91_AIC5_IECR
                else AT91_AIC5_IDCR)]) := by
  unfold aic5_resume_step
  simp only [one_shiftLeft_land_eq, one_shiftLeft_land_ne_zero]
  cases hm : (s.gc d.chip_data).mask_cache.testBit i <;>
    cases hw : (s.gc d.chip_data).wake_active.testBit i <;> simp

/-- The log of the suspend loop is the log before it followed by the writes
that `aic5_pm_writes` computes from the base line and the two caches. -/
theorem aic5_suspend_fold_log (d : irq_data) (s : aic_state) (k : Nat) :
    ((List.range k).foldl (aic5_suspend_step d) s).gc = s.gc ∧
    ((List.range k).foldl (aic5_suspend_step d) s).log = s.log ++
      aic5_pm_writes (s.gc d.chip_data).irq_base (s.gc d.chip_data).mask_cache
        (s.gc d.chip_data).wake_active (s.gc d.chip_data).wake_active k := by
  induction k with
  | zero => simp [aic5_pm_writes]
  | succ k ih =>
    obtain ⟨hgc, hlog⟩ := ih
    rw [List.range_succ, List.foldl_append]
    simp only [List.foldl_cons, List.foldl_nil]
    obtain ⟨h1, h2⟩ := aic5_suspend_step_log d ((List.range k).foldl (aic5_suspend_step d) s) k
    rw [hgc] at h2
    refine ⟨h1.trans hgc, ?_⟩
    rw [h2, hlog, aic5_pm_writes, List.append_assoc]

/-- The log of the resume loop. -/
theorem aic5_resume_fold_log (d : irq_data) (s : aic_state) (k : Nat) :
    ((List.range k).foldl (aic5_resume_step d) s).gc = s.gc ∧
    ((List.range k).foldl (aic5_resume_step d) s).log = s.log ++
      aic5_pm_writes (s.gc d.chip_data).irq_base (s.gc d.chip_data).mask_cache
        (s.gc d.chip_data).wake_active (s.gc d.chip_data).mask_cache k := by
  induction k with
  | zero => simp [aic5_pm_writes]
  | succ k ih =>
    obtain ⟨hgc, hlog⟩ := ih
    rw [List.range_succ, List.foldl_append]
    simp only [List.foldl_cons, List.foldl_nil]
    obtain ⟨h1, h2⟩ := aic5_resume_step_log d ((List.range k).foldl (aic5_resume_step d) s) k
    rw [hgc] at h2
    refine ⟨h1.trans hgc, ?_⟩
    rw [h2, hlog, aic5_pm_writes, List.append_assoc]

/-- The loop issues no select write for a line whose bits in the mask cache
and in the wake-active set are equal. -/
theorem aic5_pm_writes_no_select (base m w tgt : Nat) (k i : Nat)
    (heq : m.testBit i = w.testBit i) :
    io_event.irq_reg_writel (i + base) AT91_AIC5_SSR ∉ aic5_pm_writes base m w tgt k := by
  induction k with
  | zero => simp [aic5_pm_writes]
  | succ k ih =>
    rw [aic5_pm_writes, List.mem_append]
    rintro (h | h)
    · exact ih h
    · by_cases hk : m.testBit k = w.testBit k
      · rw [if_pos hk] at h
        exact absurd h (List.not_mem_nil _)
      · rw [if_neg hk] at h
        have hik : i ≠ k := fun e => hk (e ▸ heq)
        simp only [List.mem_cons, io_event.irq_reg_writel.injEq, List.mem_singleton,
          List.not_mem_nil, or_false] at h
        rcases h with ⟨h1, -⟩ | ⟨-, h2⟩
        · omega
        · by_cases ht : tgt.testBit k = true
          · rw [if_pos ht] at h2
            exact absurd h2 (by decide)
          · rw [if_neg ht] at h2
            exact absurd h2 (by decide)

/-- The loop issues two writes (select, then enable or disable) for each line
whose bits differ, and nothing else. -/
theorem aic5_pm_writes_length (base m w tgt : Nat) (k : Nat) :
    (aic5_pm_writes base m w tgt k).length =
      2 * ((List.range k).filter (fun i => m.testBit i != w.testBit i)).length ∧
    reg_write_count (aic5_pm_writes base m w tgt k) = (aic5_pm_writes base m w tgt k).length := by
  induction k with
  | zero => exact ⟨rfl, rfl⟩
  | succ k ih =>
    obtain ⟨h1, h2⟩ := ih
    rw [aic5_pm_writes, List.length_append, reg_write_count_append, List.range_succ,
      List.filter_append, List.length_append, h1, h2]
    by_cases hk : m.testBit k = w.testBit k
    · rw [if_pos hk, List.filter_cons_of_neg (by simp [hk])]
      simp [reg_write_count]
      exact h1
    · rw [if_neg hk, List.filter_cons_of_pos (by simp [hk])]
      simp [reg_write_count]
      omega

/-- C19: the register writes of `aic5_suspend` and of `aic5_resume` are a
function of the mask cache, the wake-active set and the base line of the group
only: on two states with the same three values (and any register contents)
both routines append the same sequence of writes, the one `aic5_pm_writes`
computes; the sequence holds no select write for a line whose mask-cache bit
equals its wake-active bit, and exactly two writes (select, then enable or
disable) for each of the other lines. -/
theorem pm_writes_depend_on_caches_only (d : irq_data) (s1 s2 : aic_state) (base m w : Nat)
    (hb1 : (s1.gc d.chip_data).irq_base = base) (hm1 : (s1.gc d.chip_data).mask_cache = m)
    (hw1 : (s1.gc d.chip_data).wake_active = w)
    (hb2 : (s2.gc d.chip_data).irq_base = base) (hm2 : (s2.gc d.chip_data).mask_cache = m)
    (hw2 : (s2.gc d.chip_data).wake_active = w) :
    (aic5_suspend d s1).log = s1.log ++ aic5_pm_writes base m w w 32 ∧
    (aic5_suspend d s2).log = s2.log ++ aic5_pm_writes base m w w 32 ∧
    (aic5_resume d s1).log = s1.log ++ aic5_pm_writes base m w m 32 ∧
    (aic5_resume d s2).log = s2.log ++ aic5_pm_writes base m w m 32 ∧
    (∀ i, m.testBit i = w.testBit i →
      io_event.irq_reg_writel (i + base) AT91_AIC5_SSR ∉ aic5_pm_writes base m w w 32 ∧
      io_event.irq_reg_writel (i + base) AT91_AIC5_SSR ∉ aic5_pm_writes base m w m 32) ∧
    (aic5_pm_writes base m w w 32).length =
      2 * ((List.range 32).filter (fun i => m.testBit i != w.testBit i)).length ∧
    (aic5_pm_writes base m w m 32).length =
      2 * ((List.range 32).filter (fun i => m.testBit i != w.testBit i)).length ∧
    reg_write_count (aic5_pm_writes base m w w 32) = (aic5_pm_writes base m w w 32).length ∧
    reg_write_count (aic5_pm_writes base m w m 32) = (aic5_pm_writes base m w m 32).length := by
  have a1 := (aic5_suspend_fold_log d s1 32).2
  have a2 := (aic5_suspend_fold_log d s2 32).2
  have r1 := (aic5_resume_fold_log d s1 32).2
  have r2 := (aic5_resume_fold_log d s2 32).2
  rw [hb1, hm1, hw1] at a1 r1
  rw [hb2, hm2, hw2] at a2 r2
  exact ⟨a1, a2, r1, r2,
    fun i h => ⟨aic5_pm_writes_no_select base m w w 32 i h,
      aic5_pm_writes_no_select base m w m 32 i h⟩,
    (aic5_pm_writes_length base m w w 32).1, (aic5_pm_writes_length base m w m 32).1,
    (aic5_pm_writes_length base m w w 32).2, (aic5_pm_writes_length base m w m 32).2⟩

/-- Witness of C19: group 0 of the scenario (cache `{5}`, no wake line) with
two different register contents: suspend appends the select of line 5 and a
disable command, resume the select of line 5 and an enable command. -/
theorem pm_writes_depend_on_caches_only_witness :
    (aic5_suspend (irq_get_irq_data 5) (scenario_state 3)).log =
      (scenario_state 3).log ++ aic5_pm_writes 0 32 0 0 32 ∧
    (aic5_suspend (irq_get_irq_data 5) (scenario_state_other_regs 3)).log =
      (scenario_state_other_regs 3).log ++ aic5_pm_writes 0 32 0 0 32 ∧
    aic5_pm_writes 0 32 0 0 32 =
      [io_event.irq_reg_writel 5 AT91_AIC5_SSR, io_event.irq_reg_writel 1 AT91_AIC5_IDCR] ∧
    aic5_pm_writes 0 32 0 32 32 =
      [io_event.irq_reg_writel 5 AT91_AIC5_SSR, io_event.irq_reg_writel 1 AT91_AIC5_IECR] :=
  ⟨(pm_writes_depend_on_caches_only (irq_get_irq_data 5) (scenario_state 3)
      (scenario_state_other_regs 3) 0 32 0 rfl rfl rfl rfl rfl rfl).1,
   (pm_writes_depend_on_caches_only (irq_get_irq_data 5) (scenario_state 3)
      (scenario_state_other_regs 3) 0 32 0 rfl rfl rfl rfl rfl rfl).2.1,
   by decide, by decide⟩

/-! ## The priority field on the indirected variant -/

theorem testBit_not32_prior (i : Nat) :
    (not32 AT91_AIC_PRIOR).testBit i = (decide (i < 32) && !decide (i < 3)) := by
  have h : not32 AT91_AIC_PRIOR = (2 ^ 32 - 1) ^^^ (2 ^ 3 - 1) := by decide
  rw [h, Nat.testBit_xor, Nat.testBit_two_pow_sub_one, Nat.testBit_two_pow_sub_one]
  by_cases h3 : i < 3
  · have h32 : i < 32 := by omega
    simp [h3, h32]
  · simp [h3]

/-- On the indirected variant an identifier (line `n` below 128, sense,
priority `p` at most 7) of at least 3 cells is accepted, the
mode register of line `n` takes `p` in bits 0..2 and keeps its other bits, and
the mode register of every other line is unchanged. -/
theorem aic5_irq_domain_xlate_priority (dgc : irq_domain_chip_generic) (intspec : Nat → Nat)
    (intsize : Nat) (out : xlate_out) (s : aic_state)
    (hsize : 3 ≤ intsize) (hp : intspec 2 ≤ 7) (hn : intspec 0 < 128) :
    (aic5_irq_domain_xlate (some dgc) intspec intsize out s).1 = 0 ∧
    (∀ i, i < 3 →
      ((aic5_irq_domain_xlate (some dgc) intspec intsize out s).2.2.regs.smr (intspec 0)).testBit i
        = (intspec 2).testBit i) ∧
    (∀ i, 3 ≤ i → i < 32 →
      ((aic5_irq_domain_xlate (some dgc) intspec intsize out s).2.2.regs.smr (intspec 0)).testBit i
        = (s.regs.smr (intspec 0)).testBit i) ∧
    (∀ l, l ≠ intspec 0 →
      (aic5_irq_domain_xlate (some dgc) intspec intsize out s).2.2.regs.smr l = s.regs.smr l) := by
  have hc := at91_aic_common_irq_domain_xlate_eq intspec intsize out
  rw [if_neg (by omega)] at hc
  have hval : (aic5_irq_domain_xlate (some dgc) intspec intsize out s).2.2.regs.smr =
      upd s.regs.smr (intspec 0)
        (intspec 2 ||| (u32 (s.regs.smr (intspec 0)) &&& not32 AT91_AIC_PRIOR)) := by
    simp [aic5_irq_domain_xlate, hc, irq_reg_writel, irq_reg_readl, aic5_hw_write, aic5_hw_read,
      AT91_AIC5_SSR, AT91_AIC5_SMR, land_intsel_of_lt _ hn]
  refine ⟨by simp [aic5_irq_domain_xlate, hc], fun i hi => ?_, fun i h3 h32 => ?_, fun l hl => ?_⟩
  · rw [hval]
    simp only [upd, if_true, Nat.testBit_or, Nat.testBit_and, testBit_u32, testBit_not32_prior]
    simp [hi]
  · rw [hval]
    simp only [upd, if_true, Nat.testBit_or, Nat.testBit_and, testBit_u32, testBit_not32_prior]
    have hpi : (intspec 2).testBit i = false := by
      apply Nat.testBit_lt_two_pow
      calc intspec 2 < 2 ^ 3 := by omega
        _ ≤ 2 ^ i := Nat.pow_le_pow_right (by decide) h3
    have h3' : ¬ i < 3 := by omega
    simp [hpi, h32, h3']
  · rw [hval]
    simp [upd, hl]

/-! ## Hardware initialisation -/

theorem reg_writes_to_append (reg : Nat) (a b : List io_event) :
    reg_writes_to reg (a ++ b) = reg_writes_to reg a + reg_writes_to reg b := by
  induction a with
  | nil => simp [reg_writes_to]
  | cons e rest ih =>
    cases e with
    | irq_reg_writel v r =>
      by_cases h : r = reg
      · simp [reg_writes_to, ih, h]; omega
      · simp [reg_writes_to, ih, h]
    | irq_reg_readl r => simp [reg_writes_to, ih]
    | readl a => simp [reg_writes_to, ih]
    | writel v a => simp [reg_writes_to, ih]
    | handle_IRQ n => simp [reg_writes_to, ih]

theorem reg_writes_to_le (reg : Nat) (l : List io_event) :
    reg_writes_to reg l ≤ reg_write_count l := by
  induction l with
  | nil => simp [reg_writes_to, reg_write_count]
  | cons e rest ih =>
    cases e with
    | irq_reg_writel v r =>
      by_cases h : r = reg
      · simp [reg_writes_to, reg_write_count, h]; omega
      · simp [reg_writes_to, reg_write_count, h]; omega
    | irq_reg_readl r => simpa [reg_writes_to, reg_write_count] using ih
    | readl a => simpa [reg_writes_to, reg_write_count] using ih
    | writel v a => simpa [reg_writes_to, reg_write_count] using ih
    | handle_IRQ n => simpa [reg_writes_to, reg_write_count] using ih

/-- The first loop of `aic_hw_init`: `k` end-of-interrupt commands and nothing
else. -/
theorem aic_hw_init_eoi_loop (s : aic_state) (k : Nat) :
    ((List.range k).foldl (fun s _ => irq_reg_writel aic_kind.aic 0 AT91_AIC_EOICR s) s).regs
      = { s.regs with eoi := s.regs.eoi + k } ∧
    ((List.range k).foldl (fun s _ => irq_reg_writel aic_kind.aic 0 AT91_AIC_EOICR s) s).gc = s.gc ∧
    ((List.range k).foldl (fun s _ => irq_reg_writel aic_kind.aic 0 AT91_AIC_EOICR s) s).mem = s.mem ∧
    ((List.range k).foldl (fun s _ => irq_reg_writel aic_kind.aic 0 AT91_AIC_EOICR s) s).log
      = s.log ++ List.replicate k (io_event.irq_reg_writel 0 AT91_AIC_EOICR) := by
  induction k with
  | zero => simp
  | succ k ih =>
    obtain ⟨h1, h2, h3, h4⟩ := ih
    rw [List.range_succ, List.foldl_append]
    simp only [List.foldl_cons, List.foldl_nil]
    generalize (List.range k).foldl (fun s _ => irq_reg_writel aic_kind.aic 0 AT91_AIC_EOICR s) s = sk
      at h1 h2 h3 h4 ⊢
    refine ⟨?_, ?_, ?_, ?_⟩
    · simp [irq_reg_writel, h1, aic_hw_write, AT91_AIC_EOICR, AT91_AIC_IECR, AT91_AIC_IDCR,
        AT91_AIC_ISCR, AT91_AIC_ICCR]
      omega
    · rw [irq_reg_writel_gc, h2]
    · rw [irq_reg_writel_mem, h3]
    · rw [irq_reg_writel_log, h4, List.replicate_succ', List.append_assoc]

/-- The first loop of `aic5_hw_init`: `k` end-of-interrupt commands and nothing
else. -/
theorem aic5_hw_init_eoi_loop (s : aic_state) (k : Nat) :
    ((List.range k).foldl (fun s _ => irq_reg_writel aic_kind.aic5 0 AT91_AIC5_EOICR s) s).regs
      = { s.regs with eoi := s.regs.eoi + k } ∧
    ((List.range k).foldl (fun s _ => irq_reg_writel aic_kind.aic5 0 AT91_AIC5_EOICR s) s).gc = s.gc ∧
    ((List.range k).foldl (fun s _ => irq_reg_writel aic_kind.aic5 0 AT91_AIC5_EOICR s) s).mem = s.mem ∧
    ((List.range k).foldl (fun s _ => irq_reg_writel aic_kind.aic5 0 AT91_AIC5_EOICR s) s).log
      = s.log ++ List.replicate k (io_event.irq_reg_writel 0 AT91_AIC5_EOICR) := by
  induction k with
  | zero => simp
  | succ k ih =>
    obtain ⟨h1, h2, h3, h4⟩ := ih
    rw [List.range_succ, List.foldl_append]
    simp only [List.foldl_cons, List.foldl_nil]
    generalize (List.range k).foldl (fun s _ => irq_reg_writel aic_kind.aic5 0 AT91_AIC5_EOICR s) s = sk
      at h1 h2 h3 h4 ⊢
    refine ⟨?_, ?_, ?_, ?_⟩
    · simp [irq_reg_writel, h1, aic5_hw_write, AT91_AIC5_EOICR, AT91_AIC5_IECR, AT91_AIC5_IDCR,
        AT91_AIC5_ISCR, AT91_AIC5_ICCR, AT91_AIC5_SSR, AT91_AIC5_SMR, AT91_AIC5_SVR]
      omega
    · rw [irq_reg_writel_gc, h2]
    · rw [irq_reg_writel_mem, h3]
    · rw [irq_reg_writel_log, h4, List.replicate_succ', List.append_assoc]

/-- One iteration of the second loop of `aic5_hw_init` on a line below 128. -/
theorem aic5_hw_init_step_eq (s : aic_state) (i : Nat) (hi : i < 128) :
    (aic5_hw_init_step s i).regs =
      { s.regs with ssr := i, svr := upd s.regs.svr i i, imr := upd s.regs.imr i false,
                    ipr := upd s.regs.ipr i false } ∧
    (aic5_hw_init_step s i).gc = s.gc ∧ (aic5_hw_init_step s i).mem = s.mem ∧
    (aic5_hw_init_step s i).log = s.log ++
      [io_event.irq_reg_writel i AT91_AIC5_SSR, io_event.irq_reg_writel i AT91_AIC5_SVR,
       io_event.irq_reg_writel 1 AT91_AIC5_IDCR, io_event.irq_reg_writel 1 AT91_AIC5_ICCR] := by
  refine ⟨?_, rfl, rfl, ?_⟩
  · simp [aic5_hw_init_step, irq_reg_writel, aic5_hw_write, AT91_AIC5_IDCR, AT91_AIC5_IECR,
      AT91_AIC5_ICCR, AT91_AIC5_ISCR, AT91_AIC5_SSR, AT91_AIC5_SMR, AT91_AIC5_SVR,
      land_intsel_of_lt _ hi]
  · simp [aic5_hw_init_step]

/-- The second loop of `aic5_hw_init` over the lines `0 .. k-1`. -/
theorem aic5_hw_init_loop (s : aic_state) (k : Nat) (hk : k ≤ 128) :
    (∀ n, ((List.range k).foldl aic5_hw_init_step s).regs.svr n =
      if n < k then n else s.regs.svr n) ∧
    (∀ n, ((List.range k).foldl aic5_hw_init_step s).regs.imr n =
      if n < k then false else s.regs.imr n) ∧
    (∀ n, ((List.range k).foldl aic5_hw_init_step s).regs.ipr n =
      if n < k then false else s.regs.ipr n) ∧
    ((List.range k).foldl aic5_hw_init_step s).regs.spu = s.regs.spu ∧
    ((List.range k).foldl aic5_hw_init_step s).regs.eoi = s.regs.eoi ∧
    ((List.range k).foldl aic5_hw_init_step s).gc = s.gc ∧
    ((List.range k).foldl aic5_hw_init_step s).mem = s.mem ∧
    ∃ evs, ((List.range k).foldl aic5_hw_init_step s).log = s.log ++ evs ∧
      reg_writes_to AT91_AIC5_EOICR evs = 0 := by
  induction k with
  | zero => exact ⟨fun _ => rfl, fun _ => rfl, fun _ => rfl, rfl, rfl, rfl, rfl, [], by simp, rfl⟩
  | succ k ih =>
    obtain ⟨h1, h2, h3, h4, h5, h6, h7, evs, h8, h9⟩ := ih (by omega)
    rw [List.range_succ, List.foldl_append]
    simp only [List.foldl_cons, List.foldl_nil]
    generalize (List.range k).foldl aic5_hw_init_step s = sk at h1 h2 h3 h4 h5 h6 h7 h8 ⊢
    obtain ⟨e1, e2, e3, e4⟩ := aic5_hw_init_step_eq sk k (by omega)
    rw [e1, e2, e3, e4]
    refine ⟨fun n => ?_, fun n => ?_, fun n => ?_, h4, h5, h6, h7, ?_⟩
    · simp only [upd]
      by_cases hn : n = k
      · rw [if_pos hn, if_pos (by omega), hn]
      · rw [if_neg hn, h1]
        by_cases hc : n < k
        · rw [if_pos hc, if_pos (by omega)]
        · rw [if_neg hc, if_neg (by omega)]
    · simp only [upd]
      by_cases hn : n = k
      · rw [if_pos hn, if_pos (by omega)]
      · rw [if_neg hn, h2]
        by_cases hc : n < k
        · rw [if_pos hc, if_pos (by omega)]
        · rw [if_neg hc, if_neg (by omega)]
    · simp only [upd]
      by_cases hn : n = k
      · rw [if_pos hn, if_pos (by omega)]
      · rw [if_neg hn, h3]
        by_cases hc : n < k
        · rw [if_pos hc, if_pos (by omega)]
        · rw [if_neg hc, if_neg (by omega)]
    · refine ⟨evs ++ [io_event.irq_reg_writel k AT91_AIC5_SSR,
        io_event.irq_reg_writel k AT91_AIC5_SVR, io_event.irq_reg_writel 1 AT91_AIC5_IDCR,
        io_event.irq_reg_writel 1 AT91_AIC5_ICCR], ?_, ?_⟩
      · rw [h8, List.append_assoc]
      · rw [reg_writes_to_append, h9]
        simp [reg_writes_to, AT91_AIC5_SSR, AT91_AIC5_SVR, AT91_AIC5_IDCR, AT91_AIC5_ICCR,
          AT91_AIC5_EOICR]

/-- One iteration of the vector loop of `aic_hw_init` on a line below 32. -/
theorem aic_hw_init_svr_step (s : aic_state) (i : Nat) (hi : i < 32) :
    (irq_reg_writel aic_kind.aic i (AT91_AIC_SVR i) s).regs =
      { s.regs with svr := upd s.regs.svr i i } := by
  simp only [irq_reg_writel, aic_hw_write, AT91_AIC_SVR, AT91_AIC_IECR, AT91_AIC_IDCR,
    AT91_AIC_ISCR, AT91_AIC_ICCR, AT91_AIC_EOICR, AT91_AIC_SPU, AT91_AIC_DCR]
  repeat rw [if_neg (by omega)]
  rw [if_pos ⟨by omega, by omega, by omega⟩]
  have h : (128 + i * 4 - 128) / 4 = i := by omega
  rw [h]

/-- The vector loop of `aic_hw_init` over the lines `0 .. k-1`. -/
theorem aic_hw_init_svr_loop (s : aic_state) (k : Nat) (hk : k ≤ 32) :
    ((List.range k).foldl (fun s i => irq_reg_writel aic_kind.aic i (AT91_AIC_SVR i) s) s).regs
      = { s.regs with svr := fun n => if n < k then n else s.regs.svr n } ∧
    ((List.range k).foldl (fun s i => irq_reg_writel aic_kind.aic i (AT91_AIC_SVR i) s) s).gc
      = s.gc ∧
    ((List.range k).foldl (fun s i => irq_reg_writel aic_kind.aic i (AT91_AIC_SVR i) s) s).mem
      = s.mem ∧
    ∃ evs,
      ((List.range k).foldl (fun s i => irq_reg_writel aic_kind.aic i (AT91_AIC_SVR i) s) s).log
        = s.log ++ evs ∧
      reg_writes_to AT91_AIC_EOICR evs = 0 := by
  induction k with
  | zero => exact ⟨by simp, rfl, rfl, [], by simp, rfl⟩
  | succ k ih =>
    obtain ⟨h1, h2, h3, evs, h4, h5⟩ := ih (by omega)
    rw [List.range_succ, List.foldl_append]
    simp only [List.foldl_cons, List.foldl_nil]
    generalize (List.range k).foldl
      (fun s i => irq_reg_writel aic_kind.aic i (AT91_AIC_SVR i) s) s = sk at h1 h2 h3 h4 ⊢
    refine ⟨?_, ?_, ?_, ?_⟩
    · rw [aic_hw_init_svr_step sk k (by omega), h1]
      simp only [aic_regs.mk.injEq, true_and, and_true]
      funext n
      simp only [upd]
      by_cases hn : n = k
      · rw [if_pos hn, if_pos (by omega), hn]
      · rw [if_neg hn]
        by_cases hc : n < k
        · rw [if_pos hc, if_pos (by omega)]
        · rw [if_neg hc, if_neg (by omega)]
    · rw [irq_reg_writel_gc, h2]
    · rw [irq_reg_writel_mem, h3]
    · refine ⟨evs ++ [io_event.irq_reg_writel k (AT91_AIC_SVR k)], ?_, ?_⟩
      · rw [irq_reg_writel_log, h4, List.append_assoc]
      · rw [reg_writes_to_append, h5]
        have hne : ¬ (AT91_AIC_SVR k = AT91_AIC_EOICR) := by
          simp only [AT91_AIC_SVR, AT91_AIC_EOICR]
          omega
        simp [reg_writes_to, hne]

/-- The walk of `aic_mux_hw_init` over the slots of the lines `0 .. k-1`
touches neither the controller registers nor the chips and writes no
controller register. -/
theorem aic_mux_hw_init_loop (s : aic_state) (k : Nat) :
    ((List.range k).foldl
      (fun s i => aic_mux_disable_irqs ((s.gc (i / 32)).priv.mux (i % 32)) s) s).regs = s.regs ∧
    ((List.range k).foldl
      (fun s i => aic_mux_disable_irqs ((s.gc (i / 32)).priv.mux (i % 32)) s) s).gc = s.gc ∧
    ∃ evs, ((List.range k).foldl
      (fun s i => aic_mux_disable_irqs ((s.gc (i / 32)).priv.mux (i % 32)) s) s).log
        = s.log ++ evs ∧ reg_write_count evs = 0 := by
  induction k with
  | zero => exact ⟨rfl, rfl, [], by simp, rfl⟩
  | succ k ih =>
    obtain ⟨h1, h2, evs, h3, h4⟩ := ih
    rw [List.range_succ, List.foldl_append]
    simp only [List.foldl_cons, List.foldl_nil]
    generalize (List.range k).foldl
      (fun s i => aic_mux_disable_irqs ((s.gc (i / 32)).priv.mux (i % 32)) s) s = sk
      at h1 h2 h3 ⊢
    obtain ⟨e1, e2, evs2, e3, -, e5⟩ :=
      aic_mux_disable_irqs_spec ((sk.gc (k / 32)).priv.mux (k % 32)) sk
    refine ⟨e1.trans h1, e2.trans h2, evs ++ evs2, ?_, ?_⟩
    · rw [e3, h3, List.append_assoc]
    · rw [reg_write_count_append, h4, e5]

/-- C21: after the hardware initialisation of a controller with `n` lines
(`aic5_hw_init` with `n` at most 128, `aic_hw_init` with `n = 32`; the chip of
line 0 exists), for every line `i < n` the source-vector register of line `i`
holds `i`, the line is disabled and not pending; the spurious-vector register
holds `0xffffffff`; and the accesses of the routine start with exactly 8
end-of-interrupt writes, after which no end-of-interrupt write follows. -/
theorem hw_init_establishes_reset_state (domain : irq_domain) (s : aic_state)
    (hchip : (irq_get_domain_generic_chip domain 0).isSome = true) :
    (domain.revmap_size ≤ NR_AIC5_IRQS →
      ∃ s' rest, aic5_hw_init domain s = some s' ∧
        (∀ i, i < domain.revmap_size →
          s'.regs.svr i = i ∧ s'.regs.imr i = false ∧ s'.regs.ipr i = false) ∧
        s'.regs.spu = 0xffffffff ∧
        s'.log = s.log ++ List.replicate 8 (io_event.irq_reg_writel 0 AT91_AIC5_EOICR) ++ rest ∧
        reg_writes_to AT91_AIC5_EOICR rest = 0) ∧
    (∃ s' rest, aic_hw_init domain s = some s' ∧
        (∀ i, i < 32 →
          s'.regs.svr i = i ∧ s'.regs.imr i = false ∧ s'.regs.ipr i = false) ∧
        s'.regs.spu = 0xffffffff ∧
        s'.log = s.log ++ List.replicate 8 (io_event.irq_reg_writel 0 AT91_AIC_EOICR) ++ rest ∧
        reg_writes_to AT91_AIC_EOICR rest = 0) := by
  obtain ⟨g, hg⟩ := Option.isSome_iff_exists.mp hchip
  constructor
  · intro hn
    have hn128 : domain.revmap_size ≤ 128 := hn
    obtain ⟨-, -, -, a4⟩ := aic5_hw_init_eoi_loop s 8
    have hinit : aic5_hw_init domain s = some (aic_mux_hw_init domain
        ((List.range domain.revmap_size).foldl aic5_hw_init_step
          (irq_reg_writel aic_kind.aic5 0 AT91_AIC5_DCR
            (irq_reg_writel aic_kind.aic5 0xffffffff AT91_AIC5_SPU
              ((List.range 8).foldl
                (fun s _ => irq_reg_writel aic_kind.aic5 0 AT91_AIC5_EOICR s) s))))) := by
      unfold aic5_hw_init
      rw [hg]
    generalize (List.range 8).foldl
      (fun s _ => irq_reg_writel aic_kind.aic5 0 AT91_AIC5_EOICR s) s = s1 at a4 hinit
    have b1 : (irq_reg_writel aic_kind.aic5 0 AT91_AIC5_DCR
        (irq_reg_writel aic_kind.aic5 0xffffffff AT91_AIC5_SPU s1)).regs.spu = 0xffffffff := by
      simp [irq_reg_writel, aic5_hw_write, AT91_AIC5_DCR, AT91_AIC5_SPU, AT91_AIC5_EOICR,
        AT91_AIC5_IECR, AT91_AIC5_IDCR, AT91_AIC5_ISCR, AT91_AIC5_ICCR, AT91_AIC5_SSR,
        AT91_AIC5_SMR, AT91_AIC5_SVR]
    have b2 : (irq_reg_writel aic_kind.aic5 0 AT91_AIC5_DCR
        (irq_reg_writel aic_kind.aic5 0xffffffff AT91_AIC5_SPU s1)).log = s1.log ++
        [io_event.irq_reg_writel 0xffffffff AT91_AIC5_SPU,
         io_event.irq_reg_writel 0 AT91_AIC5_DCR] := by
      simp
    generalize irq_reg_writel aic_kind.aic5 0 AT91_AIC5_DCR
      (irq_reg_writel aic_kind.aic5 0xffffffff AT91_AIC5_SPU s1) = s3 at b1 b2 hinit
    obtain ⟨c1, c2, c3, c4, -, -, -, evs, c8, c9⟩ :=
      aic5_hw_init_loop s3 domain.revmap_size hn128
    generalize hs4 : (List.range domain.revmap_size).foldl aic5_hw_init_step s3 = s4
      at c1 c2 c3 c4 c8 hinit
    obtain ⟨d1, -, evs2, d3, d4⟩ := aic_mux_hw_init_loop s4 domain.revmap_size
    refine ⟨aic_mux_hw_init domain s4,
      [io_event.irq_reg_writel 0xffffffff AT91_AIC5_SPU,
        io_event.irq_reg_writel 0 AT91_AIC5_DCR] ++ evs ++ evs2, ?_, ?_, ?_, ?_, ?_⟩
    · exact hinit
    · intro i hi
      unfold aic_mux_hw_init
      rw [d1, c1, c2, c3]
      exact ⟨if_pos hi, if_pos hi, if_pos hi⟩
    · unfold aic_mux_hw_init
      rw [d1, c4, b1]
    · unfold aic_mux_hw_init
      rw [d3, c8, b2, a4]
      simp only [List.append_assoc]
    · rw [reg_writes_to_append, reg_writes_to_append, c9]
      have h := reg_writes_to_le AT91_AIC5_EOICR evs2
      have h0 : reg_writes_to AT91_AIC5_EOICR
          [io_event.irq_reg_writel 0xffffffff AT91_AIC5_SPU,
           io_event.irq_reg_writel 0 AT91_AIC5_DCR] = 0 := by decide
      rw [h0]
      omega
  · obtain ⟨a1, -, -, a4⟩ := aic_hw_init_eoi_loop s 8
    have hinit : aic_hw_init domain s = some (aic_mux_hw_init domain
        ((List.range 32).foldl (fun s i => irq_reg_writel aic_kind.aic i (AT91_AIC_SVR i) s)
          (irq_reg_writel aic_kind.aic 0xffffffff AT91_AIC_ICCR
            (irq_reg_writel aic_kind.aic 0xffffffff AT91_AIC_IDCR
              (irq_reg_writel aic_kind.aic 0 AT91_AIC_DCR
                (irq_reg_writel aic_kind.aic 0xffffffff AT91_AIC_SPU
                  ((List.range 8).foldl
                    (fun s _ => irq_reg_writel aic_kind.aic 0 AT91_AIC_EOICR s) s))))))) := by
      unfold aic_hw_init
      rw [hg]
    generalize (List.range 8).foldl
      (fun s _ => irq_reg_writel aic_kind.aic 0 AT91_AIC_EOICR s) s = s1 at a1 a4 hinit
    have h32 : ∀ n, n < 32 → (4294967295 : Nat).testBit n = true := by
      intro n hn
      have h : (4294967295 : Nat) = 2 ^ 32 - 1 := by decide
      rw [h, Nat.testBit_two_pow_sub_one]
      simpa using hn
    have b1 : (irq_reg_writel aic_kind.aic 0xffffffff AT91_AIC_ICCR
        (irq_reg_writel aic_kind.aic 0xffffffff AT91_AIC_IDCR
          (irq_reg_writel aic_kind.aic 0 AT91_AIC_DCR
            (irq_reg_writel aic_kind.aic 0xffffffff AT91_AIC_SPU s1)))).regs.spu
        = 0xffffffff := by
      simp [irq_reg_writel, aic_hw_write, AT91_AIC_DCR, AT91_AIC_SPU, AT91_AIC_EOICR,
        AT91_AIC_IECR, AT91_AIC_IDCR, AT91_AIC_ISCR, AT91_AIC_ICCR]
    have b2 : ∀ n, n < 32 → (irq_reg_writel aic_kind.aic 0xffffffff AT91_AIC_ICCR
        (irq_reg_writel aic_kind.aic 0xffffffff AT91_AIC_IDCR
          (irq_reg_writel aic_kind.aic 0 AT91_AIC_DCR
            (irq_reg_writel aic_kind.aic 0xffffffff AT91_AIC_SPU s1)))).regs.imr n = false := by
      intro n hn
      simp [irq_reg_writel, aic_hw_write, AT91_AIC_DCR, AT91_AIC_SPU, AT91_AIC_EOICR,
        AT91_AIC_IECR, AT91_AIC_IDCR, AT91_AIC_ISCR, AT91_AIC_ICCR, hn, h32 n hn]
    have b3 : ∀ n, n < 32 → (irq_reg_writel aic_kind.aic 0xffffffff AT91_AIC_ICCR
        (irq_reg_writel aic_kind.aic 0xffffffff AT91_AIC_IDCR
          (irq_reg_writel aic_kind.aic 0 AT91_AIC_DCR
            (irq_reg_writel aic_kind.aic 0xffffffff AT91_AIC_SPU s1)))).regs.ipr n = false := by
      intro n hn
      simp [irq_reg_writel, aic_hw_write, AT91_AIC_DCR, AT91_AIC_SPU, AT91_AIC_EOICR,
        AT91_AIC_IECR, AT91_AIC_IDCR, AT91_AIC_ISCR, AT91_AIC_ICCR, hn, h32 n hn]
    have b4 : (irq_reg_writel aic_kind.aic 0xffffffff AT91_AIC_ICCR
        (irq_reg_writel aic_kind.aic 0xffffffff AT91_AIC_IDCR
          (irq_reg_writel aic_kind.aic 0 AT91_AIC_DCR
            (irq_reg_writel aic_kind.aic 0xffffffff AT91_AIC_SPU s1)))).log = s1.log ++
        [io_event.irq_reg_writel 0xffffffff AT91_AIC_SPU, io_event.irq_reg_writel 0 AT91_AIC_DCR,
         io_event.irq_reg_writel 0xffffffff AT91_AIC_IDCR,
         io_event.irq_reg_writel 0xffffffff AT91_AIC_ICCR] := by
      simp
    generalize irq_reg_writel aic_kind.aic 0xffffffff AT91_AIC_ICCR
        (irq_reg_writel aic_kind.aic 0xffffffff AT91_AIC_IDCR
          (irq_reg_writel aic_kind.aic 0 AT91_AIC_DCR
            (irq_reg_writel aic_kind.aic 0xffffffff AT91_AIC_SPU s1))) = s5 at b1 b2 b3 b4 hinit
    obtain ⟨c1, -, -, evs, c4, c5⟩ := aic_hw_init_svr_loop s5 32 (Nat.le_refl 32)
    generalize hs6 : (List.range 32).foldl
      (fun s i => irq_reg_writel aic_kind.aic i (AT91_AIC_SVR i) s) s5 = s6 at c1 c4 hinit
    obtain ⟨d1, -, evs2, d3, d4⟩ := aic_mux_hw_init_loop s6 domain.revmap_size
    refine ⟨aic_mux_hw_init domain s6,
      [io_event.irq_reg_writel 0xffffffff AT91_AIC_SPU, io_event.irq_reg_writel 0 AT91_AIC_DCR,
        io_event.irq_reg_writel 0xffffffff AT91_AIC_IDCR,
        io_event.irq_reg_writel 0xffffffff AT91_AIC_ICCR] ++ evs ++ evs2, ?_, ?_, ?_, ?_, ?_⟩
    · exact hinit
    · intro i hi
      unfold aic_mux_hw_init
      rw [d1, c1]
      exact ⟨if_pos hi, b2 i hi, b3 i hi⟩
    · unfold aic_mux_hw_init
      rw [d1, c1]
      exact b1
    · unfold aic_mux_hw_init
      rw [d3, c4, b4, a4]
      simp only [List.append_assoc]
    · rw [reg_writes_to_append, reg_writes_to_append, c5]
      have h := reg_writes_to_le AT91_AIC_EOICR evs2
      have h0 : reg_writes_to AT91_AIC_EOICR
          [io_event.irq_reg_writel 0xffffffff AT91_AIC_SPU,
           io_event.irq_reg_writel 0 AT91_AIC_DCR,
           io_event.irq_reg_writel 0xffffffff AT91_AIC_IDCR,
           io_event.irq_reg_writel 0xffffffff AT91_AIC_ICCR] = 0 := by decide
      rw [h0]
      omega


/-- Witness for C21: a reset controller with 4 groups (128 lines, the chip of
line 0 exists). -/
theorem hw_init_establishes_reset_state_witness :
    (irq_get_domain_generic_chip (demo_domain 4) 0).isSome = true ∧
    (demo_domain 4).revmap_size ≤ NR_AIC5_IRQS ∧
    (∃ s' rest, aic5_hw_init (demo_domain 4) aic_state_reset = some s' ∧
        (∀ i, i < (demo_domain 4).revmap_size →
          s'.regs.svr i = i ∧ s'.regs.imr i = false ∧ s'.regs.ipr i = false) ∧
        s'.regs.spu = 0xffffffff ∧
        s'.log = aic_state_reset.log ++
          List.replicate 8 (io_event.irq_reg_writel 0 AT91_AIC5_EOICR) ++ rest ∧
        reg_writes_to AT91_AIC5_EOICR rest = 0) ∧
    (∃ s' rest, aic_hw_init (demo_domain 4) aic_state_reset = some s' ∧
        (∀ i, i < 32 →
          s'.regs.svr i = i ∧ s'.regs.imr i = false ∧ s'.regs.ipr i = false) ∧
        s'.regs.spu = 0xffffffff ∧
        s'.log = aic_state_reset.log ++
          List.replicate 8 (io_event.irq_reg_writel 0 AT91_AIC_EOICR) ++ rest ∧
        reg_writes_to AT91_AIC_EOICR rest = 0) :=
  ⟨by decide, by decide,
   (hw_init_establishes_reset_state (demo_domain 4) aic_state_reset (by decide)).1 (by decide),
   (hw_init_establishes_reset_state (demo_domain 4) aic_state_reset (by decide)).2⟩


/-! ## Disabling the sub-sources of a mux slot, as a function of the registers -/

/-- A 32-bit value masked by any word is still a 32-bit value. -/
theorem u32_land_u32 (x y : Nat) : u32 (u32 x &&& y) = u32 x &&& y := by
  unfold u32
  apply Nat.mod_eq_of_lt
  exact Nat.lt_of_le_of_lt Nat.and_le_left (Nat.mod_lt _ (by decide))

/-- The value that the walk over a list of sub-sources leaves in a register is
one of: a constant; the prior 32-bit value masked by a constant; the prior
value itself, when no sub-source names the register. -/
theorem aic_mux_disable_irqs_mem (l : List aic_mux_irq) (a : Nat) :
    (∃ c, ∀ s, (aic_mux_disable_irqs l s).mem a = c) ∨
    (∃ M, ∀ s, (aic_mux_disable_irqs l s).mem a = u32 (s.mem a) &&& M) ∨
    ((∀ irq ∈ l, irq.base + irq.offset ≠ a) ∧
      ∀ s, (aic_mux_disable_irqs l s).mem a = s.mem a) := by
  induction l with
  | nil =>
    right; right
    exact ⟨by simp, fun s => rfl⟩
  | cons irq rest ih =>
    rcases ih with ⟨c, hc⟩ | ⟨M, hM⟩ | ⟨hno, hid⟩
    · left
      exact ⟨c, fun s => by unfold aic_mux_disable_irqs; exact hc _⟩
    · by_cases ha : irq.base + irq.offset = a
      · by_cases ht : irq.type = aic_mux_irq_type.AIC_MUX_1REG_IRQ
        · right; left
          refine ⟨not32 irq.mask &&& M, fun s => ?_⟩
          unfold aic_mux_disable_irqs
          simp only [ht, if_true]
          rw [hM]
          simp only [writel, readl, upd, ha, if_true]
          rw [u32_land_u32, Nat.land_assoc]
        · left
          refine ⟨u32 irq.mask &&& M, fun s => ?_⟩
          unfold aic_mux_disable_irqs
          simp only [ht, if_false]
          rw [hM]
          simp only [writel, upd, ha, if_true]
      · right; left
        refine ⟨M, fun s => ?_⟩
        unfold aic_mux_disable_irqs
        by_cases ht : irq.type = aic_mux_irq_type.AIC_MUX_1REG_IRQ
        · simp only [ht, if_true]
          rw [hM]
          simp only [writel, readl, upd, Ne.symm ha, if_false]
        · simp only [ht, if_false]
          rw [hM]
          simp only [writel, upd, Ne.symm ha, if_false]
    · by_cases ha : irq.base + irq.offset = a
      · by_cases ht : irq.type = aic_mux_irq_type.AIC_MUX_1REG_IRQ
        · right; left
          refine ⟨not32 irq.mask, fun s => ?_⟩
          unfold aic_mux_disable_irqs
          simp only [ht, if_true]
          rw [hid]
          simp only [writel, readl, upd, ha, if_true]
        · left
          refine ⟨irq.mask, fun s => ?_⟩
          unfold aic_mux_disable_irqs
          simp only [ht, if_false]
          rw [hid]
          simp only [writel, upd, ha, if_true]
      · right; right
        refine ⟨?_, fun s => ?_⟩
        · intro x hx
          rcases List.mem_cons.mp hx with rfl | hx
          · exact ha
          · exact hno x hx
        · unfold aic_mux_disable_irqs
          by_cases ht : irq.type = aic_mux_irq_type.AIC_MUX_1REG_IRQ
          · simp only [ht, if_true]
            rw [hid]
            simp only [writel, readl, upd, Ne.symm ha, if_false]
          · simp only [ht, if_false]
            rw [hid]
            simp only [writel, upd, Ne.symm ha, if_false]

/-- A register that no sub-source of the list names keeps its value. -/
theorem aic_mux_disable_irqs_mem_other (l : List aic_mux_irq) (a : Nat) (s : aic_state)
    (h : ∀ irq ∈ l, irq.base + irq.offset ≠ a) :
    (aic_mux_disable_irqs l s).mem a = s.mem a := by
  induction l generalizing s with
  | nil => rfl
  | cons irq rest ih =>
    have ha : irq.base + irq.offset ≠ a := h irq (List.mem_cons_self _ _)
    have hrest : ∀ x ∈ rest, x.base + x.offset ≠ a :=
      fun x hx => h x (List.mem_cons_of_mem _ hx)
    unfold aic_mux_disable_irqs
    by_cases ht : irq.type = aic_mux_irq_type.AIC_MUX_1REG_IRQ
    · simp only [ht, if_true]
      rw [ih _ hrest]
      simp only [writel, readl, upd, Ne.symm ha, if_false]
    · simp only [ht, if_false]
      rw [ih _ hrest]
      simp only [writel, upd, Ne.symm ha, if_false]

/-- C24: `aic_mux_disable_irqs` is idempotent on the register store (applying
it twice leaves every register with the value that applying it once leaves),
it leaves unchanged every register that no sub-source of the list names, and
it does not touch the controller registers. -/
theorem mux_disable_irqs_idempotent (l : List aic_mux_irq) (s : aic_state) :
    (∀ a, (aic_mux_disable_irqs l (aic_mux_disable_irqs l s)).mem a =
      (aic_mux_disable_irqs l s).mem a) ∧
    (∀ a, (∀ irq ∈ l, irq.base + irq.offset ≠ a) →
      (aic_mux_disable_irqs l s).mem a = s.mem a) ∧
    (aic_mux_disable_irqs l s).regs = s.regs := by
  refine ⟨fun a => ?_, fun a h => aic_mux_disable_irqs_mem_other l a s h,
    (aic_mux_disable_irqs_spec l s).1⟩
  rcases aic_mux_disable_irqs_mem l a with ⟨c, hc⟩ | ⟨M, hM⟩ | ⟨-, hid⟩
  · rw [hc, hc]
  · rw [hM (aic_mux_disable_irqs l s), hM s, u32_land_u32, Nat.land_assoc, Nat.and_self]
  · rw [hid, hid]


/-- Witness for C24: the two sub-sources of slot 1 of the example state (a
one-register source at `0x1014` with mask `0x4`, holding `0xff`, and a
three-register source at `0x2024` with mask `0x10`); register `0x3000` is named
by neither. -/
theorem mux_disable_irqs_idempotent_witness :
    (∀ irq ∈ (mux_demo_state.gc 0).priv.mux 1, irq.base + irq.offset ≠ 0x3000) ∧
    (aic_mux_disable_irqs ((mux_demo_state.gc 0).priv.mux 1) mux_demo_state).mem 0x3000 =
      mux_demo_state.mem 0x3000 ∧
    (∀ a, (aic_mux_disable_irqs ((mux_demo_state.gc 0).priv.mux 1)
        (aic_mux_disable_irqs ((mux_demo_state.gc 0).priv.mux 1) mux_demo_state)).mem a =
      (aic_mux_disable_irqs ((mux_demo_state.gc 0).priv.mux 1) mux_demo_state).mem a) ∧
    (aic_mux_disable_irqs ((mux_demo_state.gc 0).priv.mux 1) mux_demo_state).mem 0x1014 = 0xfb ∧
    (aic_mux_disable_irqs ((mux_demo_state.gc 0).priv.mux 1) mux_demo_state).mem 0x2024 = 0x10 :=
  ⟨by decide,
   (mux_disable_irqs_idempotent ((mux_demo_state.gc 0).priv.mux 1) mux_demo_state).2.1 0x3000
     (by decide),
   (mux_disable_irqs_idempotent ((mux_demo_state.gc 0).priv.mux 1) mux_demo_state).1,
   by decide, by decide⟩


/-! ## Bounds of the disable register of a sub-source -/

/-- C25 (the code at a failing input): for a region of 16 bytes and a described
offset of 16, `aic_mux_irq_of_init` accepts the sub-source with offset 16,
although `16 + 4 ≤ 16` fails; disabling it then writes the 32-bit register at
`0x1010`, the first address after the region mapped at `0x1000 .. 0x100f`. An
offset of 17 is rejected with `-EINVAL`. -/
theorem aic_mux_irq_of_init_accepts_offset_16_of_16 :
    (aic_mux_irq_of_init end_offset_node fresh_driver).1 =
      Except.ok { type := aic_mux_irq_type.AIC_MUX_1REG_IRQ, base := 0x1000, offset := 16,
                  mask := 0x4 } ∧
    ¬ (end_offset_node.offset + 4 ≤ end_offset_node.res_size) ∧
    mux_write_addrs (aic_mux_disable_irqs
      [{ type := aic_mux_irq_type.AIC_MUX_1REG_IRQ, base := 0x1000, offset := 16, mask := 0x4 }]
      aic_state_reset).log = [0x1000 + end_offset_node.res_size] ∧
    (aic_mux_irq_of_init { end_offset_node with offset := 17 } fresh_driver).1 =
      Except.error (-EINVAL) :=
  ⟨rfl, by decide, by decide, rfl⟩


/-! ## LED cycle trigger: the timer tick -/

/-- One tick on a state with a plot and an index inside it. -/
theorem led_cycle_function_step (data : cycle_trig_data) (plot : Nat → Nat)
    (hplot : data.plot = some plot) (hidx : data.plot_index < data.plot_count)
    (hcount : data.plot_count < 4294967296) :
    led_cycle_function data =
      { data with
        brightness := plot data.plot_index
        plot_index := (data.plot_index + 1) % data.plot_count
        timer := { data.timer with expires := data.timer.expires + data.interval } } := by
  have h1 : u32 (data.plot_index + 1) = data.plot_index + 1 := by
    unfold u32
    exact Nat.mod_eq_of_lt (by omega)
  unfold led_cycle_function
  rw [hplot]
  simp only [h1]
  by_cases hlast : data.plot_index + 1 = data.plot_count
  · have h2 : (data.plot_index + 1) % data.plot_count = 0 := by rw [hlast, Nat.mod_self]
    have h3 : data.plot_index + 1 ≥ data.plot_count := by omega
    simp only [h2, h3, if_true]
  · have h2 : (data.plot_index + 1) % data.plot_count = data.plot_index + 1 :=
      Nat.mod_eq_of_lt (by omega)
    have h3 : ¬ (data.plot_index + 1 ≥ data.plot_count) := by omega
    simp only [h2, h3, if_false]

/-- C22: for every cycle state with a non-null plot, `plot_count > 0` and
`plot_index < plot_count` (`plot_count` a 32-bit `size_t`), one timer tick sets
the brightness to `plot[plot_index]` and `plot_index` to
`(plot_index + 1) mod plot_count`, and leaves the plot, `plot_count` and the
interval unchanged; hence after any number `n` of ticks `plot_index` is
`(plot_index + n) mod plot_count`, which is below `plot_count`. -/
theorem led_cycle_function_walks_plot (data : cycle_trig_data) (plot : Nat → Nat)
    (hplot : data.plot = some plot) (hpos : 0 < data.plot_count)
    (hidx : data.plot_index < data.plot_count) (hcount : data.plot_count < 4294967296) :
    (led_cycle_function data).brightness = plot data.plot_index ∧
    (led_cycle_function data).plot_index = (data.plot_index + 1) % data.plot_count ∧
    (led_cycle_function data).plot = data.plot ∧
    (led_cycle_function data).plot_count = data.plot_count ∧
    (led_cycle_function data).interval = data.interval ∧
    (led_cycle_function data).plot_index < (led_cycle_function data).plot_count ∧
    ∀ n, (Nat.iterate led_cycle_function n data).plot = data.plot ∧
      (Nat.iterate led_cycle_function n data).plot_count = data.plot_count ∧
      (Nat.iterate led_cycle_function n data).plot_index =
        (data.plot_index + n) % data.plot_count ∧
      (Nat.iterate led_cycle_function n data).plot_index <
        (Nat.iterate led_cycle_function n data).plot_count := by
  have hstep := led_cycle_function_step data plot hplot hidx hcount
  refine ⟨?_, ?_, ?_, ?_, ?_, ?_, ?_⟩
  · rw [hstep]
  · rw [hstep]
  · rw [hstep]
  · rw [hstep]
  · rw [hstep]
  · rw [hstep]
    exact Nat.mod_lt _ hpos
  · intro n
    induction n with
    | zero =>
      refine ⟨rfl, rfl, ?_, hidx⟩
      exact (Nat.mod_eq_of_lt hidx).symm
    | succ k ih =>
      obtain ⟨i1, i2, i3, i4⟩ := ih
      rw [Function.iterate_succ_apply']
      generalize Nat.iterate led_cycle_function k data = dk at i1 i2 i3 i4
      have hk := led_cycle_function_step dk plot (by rw [i1, hplot]) i4 (by rw [i2]; exact hcount)
      rw [hk]
      refine ⟨i1, i2, ?_, ?_⟩
      · show (dk.plot_index + 1) % dk.plot_count = _
        rw [i2, i3, Nat.add_mod, Nat.mod_mod, ← Nat.add_mod, Nat.add_assoc]
      · show (dk.plot_index + 1) % dk.plot_count < dk.plot_count
        rw [i2]
        exact Nat.mod_lt _ hpos

/-- Witness for C22: a plot of 3 values with the index on the last one: the
tick shows the value 30 and wraps the index to 0. -/
theorem led_cycle_function_walks_plot_witness :
    demo_cycle_data.plot = some (fun i => 10 * (i + 1)) ∧
    ((led_cycle_function demo_cycle_data).brightness = (fun i => 10 * (i + 1)) demo_cycle_data.plot_index ∧
    (led_cycle_function demo_cycle_data).plot_index =
      (demo_cycle_data.plot_index + 1) % demo_cycle_data.plot_count ∧
    (led_cycle_function demo_cycle_data).plot = demo_cycle_data.plot ∧
    (led_cycle_function demo_cycle_data).plot_count = demo_cycle_data.plot_count ∧
    (led_cycle_function demo_cycle_data).interval = demo_cycle_data.interval ∧
    (led_cycle_function demo_cycle_data).plot_index <
      (led_cycle_function demo_cycle_data).plot_count ∧
    ∀ n, (Nat.iterate led_cycle_function n demo_cycle_data).plot = demo_cycle_data.plot ∧
      (Nat.iterate led_cycle_function n demo_cycle_data).plot_count =
        demo_cycle_data.plot_count ∧
      (Nat.iterate led_cycle_function n demo_cycle_data).plot_index =
        (demo_cycle_data.plot_index + n) % demo_cycle_data.plot_count ∧
      (Nat.iterate led_cycle_function n demo_cycle_data).plot_index <
        (Nat.iterate led_cycle_function n demo_cycle_data).plot_count) ∧
    (led_cycle_function demo_cycle_data).brightness = 30 ∧
    (led_cycle_function demo_cycle_data).plot_index = 0 ∧
    (led_cycle_function (led_cycle_function demo_cycle_data)).brightness = 10 :=
  ⟨rfl,
   led_cycle_function_walks_plot demo_cycle_data (fun i => 10 * (i + 1)) rfl (by decide)
     (by decide) (by decide),
   by decide, by decide, by decide⟩


/-! ## Timer-counter PWM: the first masking step of the disable routine -/

/-- The condition `0xFF << (hwpwm % 2)` of the conditional is never zero. -/
theorem atmel_tcb_pwm_disable_cond (hwpwm : Nat) : 0xFF <<< (hwpwm % 2) ≠ 0 := by
  rcases Nat.mod_two_eq_zero_or_one hwpwm with h | h <;> rw [h] <;> decide

/-- C23: for every channel number and every 32-bit mode-register value `v`,
the first masking step of `atmel_tcb_pwm_disable` yields `v AND NOT 24`
whatever the parity of the channel: bits 3 and 4 are cleared and every other
bit is kept, in particular the 8-bit fields at bit 24 and at bit 16. The mode
register that the routine then writes is this value with the two compare
fields of the channel cleared. -/
theorem atmel_tcb_pwm_disable_mask_clears_bits_3_4 (hwpwm v : Nat) (hv : v < 4294967296) :
    atmel_tcb_pwm_disable_mask hwpwm v = v &&& not32 24 ∧
    (∀ b, (atmel_tcb_pwm_disable_mask hwpwm v).testBit b =
      (v.testBit b && !decide (b = 3) && !decide (b = 4))) ∧
    (∀ b, 16 ≤ b → (atmel_tcb_pwm_disable_mask hwpwm v).testBit b = v.testBit b) ∧
    (∀ regs, regs (ATMEL_TC_REG (hwpwm / 2) ATMEL_TC_CMR) = v →
      atmel_tcb_pwm_disable hwpwm regs (ATMEL_TC_REG (hwpwm / 2) ATMEL_TC_CMR) =
        (v &&& not32 24) &&&
          not32 (if hwpwm % 2 ≠ 0 then ATMEL_TC_BCPC ||| ATMEL_TC_BCPB
                 else ATMEL_TC_ACPC ||| ATMEL_TC_ACPA)) := by
  have hmask : atmel_tcb_pwm_disable_mask hwpwm v = v &&& not32 24 := by
    unfold atmel_tcb_pwm_disable_mask
    rw [if_pos (atmel_tcb_pwm_disable_cond hwpwm)]
  have h24 : not32 24 = 2 ^ 32 - 1 - 24 := by decide
  have hbits : ∀ b, (v &&& not32 24).testBit b =
      (v.testBit b && !decide (b = 3) && !decide (b = 4)) := by
    intro b
    rw [Nat.testBit_and]
    by_cases hb : b < 32
    · have hc : ∀ c, c < 32 → (not32 24).testBit c = (!decide (c = 3) && !decide (c = 4)) := by
        decide
      rw [hc b hb, Bool.and_assoc]
    · have hvb : v.testBit b = false := by
        apply Nat.testBit_lt_two_pow
        calc v < 2 ^ 32 := hv
          _ ≤ 2 ^ b := Nat.pow_le_pow_right (by decide) (by omega)
      rw [hvb]
      simp
  refine ⟨hmask, ?_, ?_, ?_⟩
  · intro b
    rw [hmask]
    exact hbits b
  · intro b hb
    rw [hmask, hbits b]
    have h3 : b ≠ 3 := by omega
    have h4 : b ≠ 4 := by omega
    simp [h3, h4]
  · intro regs hregs
    have hu : u32 v = v := Nat.mod_eq_of_lt hv
    have hne : ATMEL_TC_REG (hwpwm / 2) ATMEL_TC_CMR ≠ ATMEL_TC_REG (hwpwm / 2) ATMEL_TC_CCR := by
      simp [ATMEL_TC_REG, ATMEL_TC_CMR, ATMEL_TC_CCR]
    unfold atmel_tcb_pwm_disable
    simp only [hregs, hu, hmask]
    by_cases hodd : hwpwm % 2 ≠ 0
    · rw [if_pos hodd, if_pos hodd]
      split <;> simp [upd, hne]
    · rw [if_neg hodd, if_neg hodd]
      split <;> simp [upd, hne]


/-- Witness for C23: channel 3 (odd) and the mode value `0xffffffff`: the step
yields `0xffffffe7`, the same as for the even channel 2. -/
theorem atmel_tcb_pwm_disable_mask_clears_bits_3_4_witness :
    (0xffffffff : Nat) < 4294967296 ∧
    atmel_tcb_pwm_disable_mask 3 0xffffffff = 0xffffffff &&& not32 24 ∧
    (∀ b, 16 ≤ b →
      (atmel_tcb_pwm_disable_mask 3 0xffffffff).testBit b = (0xffffffff : Nat).testBit b) ∧
    atmel_tcb_pwm_disable_mask 3 0xffffffff = 0xffffffe7 ∧
    atmel_tcb_pwm_disable_mask 2 0xffffffff = 0xffffffe7 :=
  ⟨by decide,
   (atmel_tcb_pwm_disable_mask_clears_bits_3_4 3 0xffffffff (by decide)).1,
   (atmel_tcb_pwm_disable_mask_clears_bits_3_4 3 0xffffffff (by decide)).2.2.1,
   by decide, by decide⟩


/-! ## Peripheral clock: rounding and setting the rate -/

/-- A 32-bit value read back from its signed conversion. -/
theorem u32_of_int_s32 (x : Nat) (hx : x < 4294967296) : u32_of_int (s32 x) = x := by
  have hu : u32 x = x := Nat.mod_eq_of_lt hx
  unfold u32_of_int s32
  rw [hu]
  split <;> omega

/-- A value below `2 ^ 31` is its own signed conversion. -/
theorem s32_of_lt (x : Nat) (hx : x < 2147483648) : s32 x = (x : Int) := by
  have hu : u32 x = x := Nat.mod_eq_of_lt (by omega)
  unfold s32
  rw [hu, if_pos hx]

/-- A larger shift gives a smaller or equal rate. -/
theorem shiftRight_anti (p j k : Nat) (h : j ≤ k) : p >>> k ≤ p >>> j := by
  rw [Nat.shiftRight_eq_div_pow, Nat.shiftRight_eq_div_pow]
  exact Nat.div_le_div_left (Nat.pow_le_pow_right (by decide) h) (Nat.pos_pow_of_pos _ (by decide))

/-- The search loop of the rounding routine, entered at `shift` with the best
candidate among the shifts below `shift`, returns a shifted parent rate and
none of the shifts up to the bound is strictly closer to the requested rate:
the early exit (distance zero, or a candidate below the requested rate) skips
only candidates that are not closer. -/
theorem clk_sam9x5_peripheral_round_rate_loop_spec (rate p : Nat) :
    ∀ n shift best_rate best_diff,
      best_diff = abs_diff best_rate rate →
      (∃ j, j < shift ∧ best_rate = p >>> j) →
      (∀ j, j < shift → best_diff ≤ abs_diff (p >>> j) rate) →
      (∃ j, j < shift + n ∧
        clk_sam9x5_peripheral_round_rate_loop rate p n shift best_rate best_diff = p >>> j) ∧
      ∀ j, j < shift + n →
        abs_diff (clk_sam9x5_peripheral_round_rate_loop rate p n shift best_rate best_diff) rate
          ≤ abs_diff (p >>> j) rate := by
  intro n
  induction n with
  | zero =>
    intro shift br bd hbd hmem hmin
    unfold clk_sam9x5_peripheral_round_rate_loop
    refine ⟨hmem, fun j hj => ?_⟩
    rw [← hbd]
    exact hmin j hj
  | succ n ih =>
    intro shift br bd hbd hmem hmin
    obtain ⟨j0, hj0, hbr⟩ := hmem
    unfold clk_sam9x5_peripheral_round_rate_loop
    simp only
    have hcd : (if p >>> shift < rate then rate - p >>> shift else p >>> shift - rate)
        = abs_diff (p >>> shift) rate := rfl
    rw [hcd]
    generalize hbd1 : (if abs_diff (p >>> shift) rate < bd then abs_diff (p >>> shift) rate
      else bd) = bd1
    generalize hbr1 : (if abs_diff (p >>> shift) rate < bd then p >>> shift else br) = br1
    have k1 : bd1 = abs_diff br1 rate := by
      rw [← hbd1, ← hbr1]
      split
      · rfl
      · exact hbd
    have k2 : ∃ j, j < shift + 1 ∧ br1 = p >>> j := by
      rw [← hbr1]
      split
      · exact ⟨shift, by omega, rfl⟩
      · exact ⟨j0, by omega, hbr⟩
    have k3 : ∀ j, j < shift + 1 → bd1 ≤ abs_diff (p >>> j) rate := by
      intro j hj
      rw [← hbd1]
      by_cases hjs : j = shift
      · rw [hjs]
        split <;> omega
      · have := hmin j (by omega)
        split <;> omega
    by_cases hbreak : bd1 = 0 ∨ p >>> shift < rate
    · rw [if_pos hbreak]
      obtain ⟨j1, hj1, hbr1j⟩ := k2
      refine ⟨⟨j1, by omega, hbr1j⟩, fun j hj => ?_⟩
      rw [← k1]
      by_cases hjs : j < shift + 1
      · exact k3 j hjs
      · rcases hbreak with h0 | hlt
        · omega
        · have hanti := shiftRight_anti p shift j (by omega)
          have hcur := k3 shift (by omega)
          unfold abs_diff at hcur ⊢
          rw [if_pos hlt] at hcur
          rw [if_pos (by omega)]
          omega
    · rw [if_neg hbreak]
      have := ih (shift + 1) br1 bd1 k1 k2 k3
      have e : shift + 1 + n = shift + (n + 1) := by omega
      rw [e] at this
      exact this


/-- The rounding routine on a clock with `id >= 2` and divider support, for a
requested rate below a 32-bit parent rate `p`: the result is the `long`
conversion of a value `r` among `p >> 0 .. p >> 3` of which none is strictly
closer to the requested rate; read back as an `unsigned long` the result is
`r`, and it is `r` itself when `p < 2^31`. -/
theorem clk_sam9x5_peripheral_round_rate_spec (periph : clk_sam9x5_peripheral) (rate p : Nat)
    (hid : 2 ≤ periph.id) (hdiv : periph.have_div_support ≠ 0) (hrate : rate < p)
    (hp : p < 4294967296) :
    ∃ r, clk_sam9x5_peripheral_round_rate periph rate p = s32 r ∧
      u32_of_int (clk_sam9x5_peripheral_round_rate periph rate p) = r ∧
      (p < 2147483648 → clk_sam9x5_peripheral_round_rate periph rate p = (r : Int)) ∧
      (r = p >>> 0 ∨ r = p >>> 1 ∨ r = p >>> 2 ∨ r = p >>> 3) ∧
      ∀ s, s ≤ 3 → abs_diff r rate ≤ abs_diff (p >>> s) rate := by
  have hspec := clk_sam9x5_peripheral_round_rate_loop_spec rate p 3 1 p (p - rate)
    (by unfold abs_diff; rw [if_neg (by omega)]) ⟨0, by omega, rfl⟩
    (fun j hj => by
      have hj0 : j = 0 := by omega
      rw [hj0]
      unfold abs_diff
      rw [Nat.shiftRight_zero, if_neg (by omega)])
  have hround : clk_sam9x5_peripheral_round_rate periph rate p =
      s32 (clk_sam9x5_peripheral_round_rate_loop rate p 3 1 p (p - rate)) := by
    unfold clk_sam9x5_peripheral_round_rate
    rw [if_neg (by omega), if_neg (by omega)]
  generalize clk_sam9x5_peripheral_round_rate_loop rate p 3 1 p (p - rate) = r at hspec hround
  obtain ⟨⟨j, hj, hrj⟩, hmin⟩ := hspec
  have hle : r ≤ p := by
    rw [hrj]
    have := shiftRight_anti p 0 j (Nat.zero_le j)
    rwa [Nat.shiftRight_zero] at this
  refine ⟨r, hround, ?_, ?_, ?_, fun s hs => hmin s (by omega)⟩
  · rw [hround]
    exact u32_of_int_s32 r (by omega)
  · intro hp31
    rw [hround]
    exact s32_of_lt r (by omega)
  · have hcases : j = 0 ∨ j = 1 ∨ j = 2 ∨ j = 3 := by omega
    rcases hcases with h | h | h | h <;> rw [h] at hrj
    · exact Or.inl hrj
    · exact Or.inr (Or.inl hrj)
    · exact Or.inr (Or.inr (Or.inl hrj))
    · exact Or.inr (Or.inr (Or.inr hrj))

/-- C26 (the claim as stated fails): for the parent rate 4000000000 and the
requested rate 3999999999 (below the parent rate) on a clock with identifier 2
and divider support, the rounding routine returns -294967296, the `long`
conversion of `p >> 0`, which is none of `p >> 0 .. p >> 3`. -/
theorem round_rate_negative_above_long_range :
    (3999999999 : Nat) < 4000000000 ∧
    clk_sam9x5_peripheral_round_rate { id := 2, div := 0, have_div_support := 1 }
      3999999999 4000000000 = -294967296 ∧
    (∀ s, s ≤ 3 →
      clk_sam9x5_peripheral_round_rate { id := 2, div := 0, have_div_support := 1 }
        3999999999 4000000000 ≠ (((4000000000 : Nat) >>> s : Nat) : Int)) ∧
    u32_of_int (clk_sam9x5_peripheral_round_rate { id := 2, div := 0, have_div_support := 1 }
      3999999999 4000000000) = 4000000000 >>> 0 := by
  decide

/-- C26 (amended): for a peripheral clock with `id >= 2` and divider support
and every rate and parent rate `p` with `rate < p` and `p < 2^31` (the range of
the return type `long`), the rounding routine returns a value `r` among
`p >> 0 .. p >> 3` such that `|r - rate| <= |(p >> s) - rate|` for every `s` in
`0..3`. -/
theorem round_rate_returns_closest_shift (periph : clk_sam9x5_peripheral) (rate p : Nat)
    (hid : 2 ≤ periph.id) (hdiv : periph.have_div_support ≠ 0) (hrate : rate < p)
    (hp : p < 2147483648) :
    ∃ r : Nat, clk_sam9x5_peripheral_round_rate periph rate p = (r : Int) ∧
      (r = p >>> 0 ∨ r = p >>> 1 ∨ r = p >>> 2 ∨ r = p >>> 3) ∧
      ∀ s, s ≤ 3 → abs_diff r rate ≤ abs_diff (p >>> s) rate := by
  obtain ⟨r, -, -, h31, hmem, hmin⟩ :=
    clk_sam9x5_peripheral_round_rate_spec periph rate p hid hdiv hrate (by omega)
  exact ⟨r, h31 hp, hmem, hmin⟩

/-- Witness for C26 (amended): a clock with identifier 2 and divider support,
parent rate 100 and requested rate 30: the result is `100 >> 2 = 25`. -/
theorem round_rate_returns_closest_shift_witness :
    (∃ r : Nat, clk_sam9x5_peripheral_round_rate { id := 2, div := 0, have_div_support := 1 }
        30 100 = (r : Int) ∧
      (r = 100 >>> 0 ∨ r = 100 >>> 1 ∨ r = 100 >>> 2 ∨ r = 100 >>> 3) ∧
      ∀ s, s ≤ 3 → abs_diff r 30 ≤ abs_diff (100 >>> s) 30) ∧
    clk_sam9x5_peripheral_round_rate { id := 2, div := 0, have_div_support := 1 } 30 100 = 25 :=
  ⟨round_rate_returns_closest_shift { id := 2, div := 0, have_div_support := 1 } 30 100
     (by decide) (by decide) (by decide) (by decide),
   by decide⟩

/-- C27 (the code at a failing input): for a clock with identifier 2 and
divider support, parent rate 100 and requested rate 200, the rounding routine
returns 200 (the requested rate, above the parent rate) and the setting
routine, given that rate and the same parent rate, returns `-EINVAL` and
stores no divider. For the requested rate 30 the rounded rate 25 is accepted
with the divider 2. -/
theorem round_rate_above_parent_is_rejected :
    clk_sam9x5_peripheral_round_rate { id := 2, div := 0, have_div_support := 1 } 200 100 = 200 ∧
    clk_sam9x5_peripheral_set_rate { id := 2, div := 0, have_div_support := 1 }
      (u32_of_int (clk_sam9x5_peripheral_round_rate
        { id := 2, div := 0, have_div_support := 1 } 200 100)) 100 =
      (-EINVAL, { id := 2, div := 0, have_div_support := 1 }) ∧
    clk_sam9x5_peripheral_set_rate { id := 2, div := 0, have_div_support := 1 }
      (u32_of_int (clk_sam9x5_peripheral_round_rate
        { id := 2, div := 0, have_div_support := 1 } 30 100)) 100 =
      (0, { id := 2, div := 2, have_div_support := 1 }) := by
  decide

/-! ## Slow clock oscillator: prepare, unprepare and the prepared test -/

/-- C28 (the code at failing inputs): with the control register at 0, preparing
the crystal oscillator writes `0x2` (`AT91_SCKC_OSC32EN`) and preparing the RC
oscillator writes `0x1` (`AT91_SCKC_RCEN`), and in both cases
`clk_slow_osc_is_prepared` then returns 0, because it tests bit 0
(`AT91_PMC_MOSCEN`) for the crystal and bit 24 (`AT91_PMC_MOSCSEL`) for the RC
oscillator. With the register at `0x3`, unpreparing the crystal oscillator
writes `0x1` and `clk_slow_osc_is_prepared` then returns 1. -/
theorem clk_slow_osc_is_prepared_tests_other_bits :
    clk_slow_osc_prepare { xtal := true } 0 = (0, 0x2) ∧
    clk_slow_osc_is_prepared { xtal := true } (clk_slow_osc_prepare { xtal := true } 0).2 = 0 ∧
    clk_slow_osc_prepare { xtal := false } 0 = (0, 0x1) ∧
    clk_slow_osc_is_prepared { xtal := false } (clk_slow_osc_prepare { xtal := false } 0).2 = 0 ∧
    clk_slow_osc_unprepare { xtal := true } 0x3 = 0x1 ∧
    clk_slow_osc_is_prepared { xtal := true } (clk_slow_osc_unprepare { xtal := true } 0x3) = 1 := by
  decide


/-! ## LED cycle trigger: the interval attribute -/

/-- The interval that `ktime_set` builds from a 32-bit count of milliseconds
is that count times one million nanoseconds. -/
theorem ktime_set_of_ms (n : Nat) (hn : n < 4294967296) :
    ktime_set (s32 (n / 1000)) (u32 ((n % 1000) * 1000000)) = (n : Int) * 1000000 := by
  have h1 : s32 (n / 1000) = ((n / 1000 : Nat) : Int) := s32_of_lt _ (by omega)
  have h2 : u32 ((n % 1000) * 1000000) = (n % 1000) * 1000000 :=
    Nat.mod_eq_of_lt (by omega)
  have h3 : KTIME_SEC_MAX = 9223372036 := by decide
  unfold ktime_set
  rw [h1, h2, h3, if_neg (by omega)]
  unfold NSEC_PER_SEC
  push_cast
  omega

/-- C29: for every interval of `n` milliseconds with `0 <= n < 2^32` that the
parser reads from the input, `cycle_interval_store` stores
`ktime_set(n / 1000, (n mod 1000) * 1000000)`, which is `n * 1000000`
nanoseconds, and returns the size; `cycle_interval_show` on the stored state
then formats exactly `n` (total nanoseconds divided by 1000000). -/
theorem interval_store_show_round_trip (kstrtoul : List Nat → Int × Nat) (buf : List Nat)
    (size : Nat) (data : cycle_trig_data) (n : Nat) (hparse : kstrtoul buf = (0, n))
    (hn : n < 4294967296) :
    (cycle_interval_store kstrtoul buf size data).1 = s32 size ∧
    (cycle_interval_store kstrtoul buf size data).2.interval =
      ktime_set (s32 (n / 1000)) (u32 ((n % 1000) * 1000000)) ∧
    (cycle_interval_store kstrtoul buf size data).2.interval = (n : Int) * 1000000 ∧
    u32_of_int (div_s64 (ktime_to_ns (cycle_interval_store kstrtoul buf size data).2.interval)
      1000000) = n ∧
    cycle_interval_show (cycle_interval_store kstrtoul buf size data).2 =
      (((toString n ++ "\n").length : Int), toString n ++ "\n") := by
  have hstore : cycle_interval_store kstrtoul buf size data =
      (s32 size, { data with
        interval := ktime_set (s32 (n / 1000)) (u32 ((n % 1000) * 1000000)) }) := by
    unfold cycle_interval_store
    rw [hparse]
    simp
  have hdiv : u32_of_int (div_s64 (ktime_to_ns ((n : Int) * 1000000)) 1000000) = n := by
    unfold div_s64 ktime_to_ns u32_of_int
    rw [Int.mul_tdiv_cancel _ (by decide), Int.emod_eq_of_lt (by omega) (by omega)]
    exact Int.toNat_natCast n
  refine ⟨?_, ?_, ?_, ?_, ?_⟩
  · rw [hstore]
  · rw [hstore]
  · rw [hstore]
    exact ktime_set_of_ms n hn
  · rw [hstore]
    show u32_of_int (div_s64 (ktime_to_ns
      (ktime_set (s32 (n / 1000)) (u32 ((n % 1000) * 1000000)))) 1000000) = n
    rw [ktime_set_of_ms n hn]
    exact hdiv
  · rw [hstore]
    unfold cycle_interval_show
    show (((toString (u32_of_int (div_s64 (ktime_to_ns
      (ktime_set (s32 (n / 1000)) (u32 ((n % 1000) * 1000000)))) 1000000)) ++ "\n").length : Int),
      toString (u32_of_int (div_s64 (ktime_to_ns
      (ktime_set (s32 (n / 1000)) (u32 ((n % 1000) * 1000000)))) 1000000)) ++ "\n") = _
    rw [ktime_set_of_ms n hn, hdiv]


/-- Witness for C29: the input `1500` (bytes 49, 53, 48, 48) read by the
decimal parser: the stored interval is 1 500 000 000 ns. -/
theorem interval_store_show_round_trip_witness :
    demo_kstrtoul [49, 53, 48, 48] = (0, 1500) ∧ 1500 < 4294967296 ∧
    (cycle_interval_store demo_kstrtoul [49, 53, 48, 48] 4 demo_cycle_data).2.interval =
      ((1500 : Nat) : Int) * 1000000 ∧
    u32_of_int (div_s64 (ktime_to_ns
      (cycle_interval_store demo_kstrtoul [49, 53, 48, 48] 4 demo_cycle_data).2.interval)
      1000000) = 1500 ∧
    cycle_interval_show (cycle_interval_store demo_kstrtoul [49, 53, 48, 48] 4 demo_cycle_data).2 =
      (((toString 1500 ++ "\n").length : Int), toString 1500 ++ "\n") :=
  ⟨by decide, by decide,
   (interval_store_show_round_trip demo_kstrtoul [49, 53, 48, 48] 4 demo_cycle_data 1500
     (by decide) (by decide)).2.2.1,
   (interval_store_show_round_trip demo_kstrtoul [49, 53, 48, 48] 4 demo_cycle_data 1500
     (by decide) (by decide)).2.2.2.1,
   (interval_store_show_round_trip demo_kstrtoul [49, 53, 48, 48] 4 demo_cycle_data 1500
     (by decide) (by decide)).2.2.2.2⟩


/-! ## LED cycle trigger: storing a plot -/

end AtmelAic
